import Mathlib

/-!
# ApiPosture.Go: authorization merge, classification, rules and discovery

A shallow embedding of `internal/models`, `internal/classification`,
`internal/rules`, `internal/astutil`, `internal/authorization` and the five
discoverers of `internal/discovery`.  Go strings are Lean `String`s, Go slices are `List`s (a nil
slice and an empty slice both have length 0 and are both `[]`), Go string-typed
enumerations (`HTTPMethod`, `Framework`, `SecurityClassification`, `Severity`)
stay strings, as any string value can be stored in them.  A
`map[string]bool` is a function `String → Bool` whose default is `false`.
-/

namespace ApiPosture

/-! ## Go standard library helpers used by the embedded code -/

/-- A `map[string]bool`: absent keys read as `false`. -/
abbrev StringSet := String → Bool

/-- The empty map, `make(map[string]bool)`. -/
def StringSet.empty : StringSet := fun _ => false

/-- The assignment `m[k] = true`. -/
def StringSet.set (m : StringSet) (k : String) : StringSet :=
  fun x => if x = k then true else m x

/-- Go `strings.HasPrefix`. -/
def stringsHasPrefix (s pre : String) : Bool :=
  pre.data.isPrefixOf s.data

/-- Go `strings.HasSuffix`. -/
def stringsHasSuffix (s suf : String) : Bool :=
  suf.data.isSuffixOf s.data

/-- Go `strings.TrimSuffix`: `s` without the trailing `suf` when it ends in it. -/
def stringsTrimSuffix (s suf : String) : String :=
  if stringsHasSuffix s suf then ⟨s.data.take (s.data.length - suf.data.length)⟩ else s

/-- Go `strings.Join`. -/
def stringsJoin (elems : List String) (sep : String) : String :=
  String.intercalate sep elems

/-- Go `strings.Contains`: `sub` occurs in `s` as a contiguous run. -/
def stringsContains (s sub : String) : Bool :=
  decide (sub.data <:+: s.data)

/-- The case ranges of Go `unicode.ToLower` beyond ASCII: the simple lower-case
mappings of the Unicode Character Database, version 15.0.0 (the tables of Go
1.21 and later).  An entry `(lo, hi, stride, lower)` maps the characters `lo`,
`lo + stride`, ... up to `hi` to `lower`, `lower + stride`, ...; a stride of 2
is a run of alternating upper-case and lower-case letters. -/
def lowerCaseRanges : List (Nat × Nat × Nat × Nat) :=
  [(0x00C0, 0x00D6, 1, 0x00E0), (0x00D8, 0x00DE, 1, 0x00F8), (0x0100, 0x012E, 2, 0x0101),
   (0x0130, 0x0130, 1, 0x0069), (0x0132, 0x0136, 2, 0x0133), (0x0139, 0x0147, 2, 0x013A),
   (0x014A, 0x0176, 2, 0x014B), (0x0178, 0x0178, 1, 0x00FF), (0x0179, 0x017D, 2, 0x017A),
   (0x0181, 0x0181, 1, 0x0253), (0x0182, 0x0184, 2, 0x0183), (0x0186, 0x0186, 1, 0x0254),
   (0x0187, 0x0187, 1, 0x0188), (0x0189, 0x018A, 1, 0x0256), (0x018B, 0x018B, 1, 0x018C),
   (0x018E, 0x018E, 1, 0x01DD), (0x018F, 0x018F, 1, 0x0259), (0x0190, 0x0190, 1, 0x025B),
   (0x0191, 0x0191, 1, 0x0192), (0x0193, 0x0193, 1, 0x0260), (0x0194, 0x0194, 1, 0x0263),
   (0x0196, 0x0196, 1, 0x0269), (0x0197, 0x0197, 1, 0x0268), (0x0198, 0x0198, 1, 0x0199),
   (0x019C, 0x019C, 1, 0x026F), (0x019D, 0x019D, 1, 0x0272), (0x019F, 0x019F, 1, 0x0275),
   (0x01A0, 0x01A4, 2, 0x01A1), (0x01A6, 0x01A6, 1, 0x0280), (0x01A7, 0x01A7, 1, 0x01A8),
   (0x01A9, 0x01A9, 1, 0x0283), (0x01AC, 0x01AC, 1, 0x01AD), (0x01AE, 0x01AE, 1, 0x0288),
   (0x01AF, 0x01AF, 1, 0x01B0), (0x01B1, 0x01B2, 1, 0x028A), (0x01B3, 0x01B5, 2, 0x01B4),
   (0x01B7, 0x01B7, 1, 0x0292), (0x01B8, 0x01B8, 1, 0x01B9), (0x01BC, 0x01BC, 1, 0x01BD),
   (0x01C4, 0x01C4, 1, 0x01C6), (0x01C5, 0x01C5, 1, 0x01C6), (0x01C7, 0x01C7, 1, 0x01C9),
   (0x01C8, 0x01C8, 1, 0x01C9), (0x01CA, 0x01CA, 1, 0x01CC), (0x01CB, 0x01DB, 2, 0x01CC),
   (0x01DE, 0x01EE, 2, 0x01DF), (0x01F1, 0x01F1, 1, 0x01F3), (0x01F2, 0x01F4, 2, 0x01F3),
   (0x01F6, 0x01F6, 1, 0x0195), (0x01F7, 0x01F7, 1, 0x01BF), (0x01F8, 0x021E, 2, 0x01F9),
   (0x0220, 0x0220, 1, 0x019E), (0x0222, 0x0232, 2, 0x0223), (0x023A, 0x023A, 1, 0x2C65),
   (0x023B, 0x023B, 1, 0x023C), (0x023D, 0x023D, 1, 0x019A), (0x023E, 0x023E, 1, 0x2C66),
   (0x0241, 0x0241, 1, 0x0242), (0x0243, 0x0243, 1, 0x0180), (0x0244, 0x0244, 1, 0x0289),
   (0x0245, 0x0245, 1, 0x028C), (0x0246, 0x024E, 2, 0x0247), (0x0370, 0x0372, 2, 0x0371),
   (0x0376, 0x0376, 1, 0x0377), (0x037F, 0x037F, 1, 0x03F3), (0x0386, 0x0386, 1, 0x03AC),
   (0x0388, 0x038A, 1, 0x03AD), (0x038C, 0x038C, 1, 0x03CC), (0x038E, 0x038F, 1, 0x03CD),
   (0x0391, 0x03A1, 1, 0x03B1), (0x03A3, 0x03AB, 1, 0x03C3), (0x03CF, 0x03CF, 1, 0x03D7),
   (0x03D8, 0x03EE, 2, 0x03D9), (0x03F4, 0x03F4, 1, 0x03B8), (0x03F7, 0x03F7, 1, 0x03F8),
   (0x03F9, 0x03F9, 1, 0x03F2), (0x03FA, 0x03FA, 1, 0x03FB), (0x03FD, 0x03FF, 1, 0x037B),
   (0x0400, 0x040F, 1, 0x0450), (0x0410, 0x042F, 1, 0x0430), (0x0460, 0x0480, 2, 0x0461),
   (0x048A, 0x04BE, 2, 0x048B), (0x04C0, 0x04C0, 1, 0x04CF), (0x04C1, 0x04CD, 2, 0x04C2),
   (0x04D0, 0x052E, 2, 0x04D1), (0x0531, 0x0556, 1, 0x0561), (0x10A0, 0x10C5, 1, 0x2D00),
   (0x10C7, 0x10C7, 1, 0x2D27), (0x10CD, 0x10CD, 1, 0x2D2D), (0x13A0, 0x13EF, 1, 0xAB70),
   (0x13F0, 0x13F5, 1, 0x13F8), (0x1C90, 0x1CBA, 1, 0x10D0), (0x1CBD, 0x1CBF, 1, 0x10FD),
   (0x1E00, 0x1E94, 2, 0x1E01), (0x1E9E, 0x1E9E, 1, 0x00DF), (0x1EA0, 0x1EFE, 2, 0x1EA1),
   (0x1F08, 0x1F0F, 1, 0x1F00), (0x1F18, 0x1F1D, 1, 0x1F10), (0x1F28, 0x1F2F, 1, 0x1F20),
   (0x1F38, 0x1F3F, 1, 0x1F30), (0x1F48, 0x1F4D, 1, 0x1F40), (0x1F59, 0x1F5F, 2, 0x1F51),
   (0x1F68, 0x1F6F, 1, 0x1F60), (0x1F88, 0x1F8F, 1, 0x1F80), (0x1F98, 0x1F9F, 1, 0x1F90),
   (0x1FA8, 0x1FAF, 1, 0x1FA0), (0x1FB8, 0x1FB9, 1, 0x1FB0), (0x1FBA, 0x1FBB, 1, 0x1F70),
   (0x1FBC, 0x1FBC, 1, 0x1FB3), (0x1FC8, 0x1FCB, 1, 0x1F72), (0x1FCC, 0x1FCC, 1, 0x1FC3),
   (0x1FD8, 0x1FD9, 1, 0x1FD0), (0x1FDA, 0x1FDB, 1, 0x1F76), (0x1FE8, 0x1FE9, 1, 0x1FE0),
   (0x1FEA, 0x1FEB, 1, 0x1F7A), (0x1FEC, 0x1FEC, 1, 0x1FE5), (0x1FF8, 0x1FF9, 1, 0x1F78),
   (0x1FFA, 0x1FFB, 1, 0x1F7C), (0x1FFC, 0x1FFC, 1, 0x1FF3), (0x2126, 0x2126, 1, 0x03C9),
   (0x212A, 0x212A, 1, 0x006B), (0x212B, 0x212B, 1, 0x00E5), (0x2132, 0x2132, 1, 0x214E),
   (0x2160, 0x216F, 1, 0x2170), (0x2183, 0x2183, 1, 0x2184), (0x24B6, 0x24CF, 1, 0x24D0),
   (0x2C00, 0x2C2F, 1, 0x2C30), (0x2C60, 0x2C60, 1, 0x2C61), (0x2C62, 0x2C62, 1, 0x026B),
   (0x2C63, 0x2C63, 1, 0x1D7D), (0x2C64, 0x2C64, 1, 0x027D), (0x2C67, 0x2C6B, 2, 0x2C68),
   (0x2C6D, 0x2C6D, 1, 0x0251), (0x2C6E, 0x2C6E, 1, 0x0271), (0x2C6F, 0x2C6F, 1, 0x0250),
   (0x2C70, 0x2C70, 1, 0x0252), (0x2C72, 0x2C72, 1, 0x2C73), (0x2C75, 0x2C75, 1, 0x2C76),
   (0x2C7E, 0x2C7F, 1, 0x023F), (0x2C80, 0x2CE2, 2, 0x2C81), (0x2CEB, 0x2CED, 2, 0x2CEC),
   (0x2CF2, 0x2CF2, 1, 0x2CF3), (0xA640, 0xA66C, 2, 0xA641), (0xA680, 0xA69A, 2, 0xA681),
   (0xA722, 0xA72E, 2, 0xA723), (0xA732, 0xA76E, 2, 0xA733), (0xA779, 0xA77B, 2, 0xA77A),
   (0xA77D, 0xA77D, 1, 0x1D79), (0xA77E, 0xA786, 2, 0xA77F), (0xA78B, 0xA78B, 1, 0xA78C),
   (0xA78D, 0xA78D, 1, 0x0265), (0xA790, 0xA792, 2, 0xA791), (0xA796, 0xA7A8, 2, 0xA797),
   (0xA7AA, 0xA7AA, 1, 0x0266), (0xA7AB, 0xA7AB, 1, 0x025C), (0xA7AC, 0xA7AC, 1, 0x0261),
   (0xA7AD, 0xA7AD, 1, 0x026C), (0xA7AE, 0xA7AE, 1, 0x026A), (0xA7B0, 0xA7B0, 1, 0x029E),
   (0xA7B1, 0xA7B1, 1, 0x0287), (0xA7B2, 0xA7B2, 1, 0x029D), (0xA7B3, 0xA7B3, 1, 0xAB53),
   (0xA7B4, 0xA7C2, 2, 0xA7B5), (0xA7C4, 0xA7C4, 1, 0xA794), (0xA7C5, 0xA7C5, 1, 0x0282),
   (0xA7C6, 0xA7C6, 1, 0x1D8E), (0xA7C7, 0xA7C9, 2, 0xA7C8), (0xA7D0, 0xA7D0, 1, 0xA7D1),
   (0xA7D6, 0xA7D8, 2, 0xA7D7), (0xA7F5, 0xA7F5, 1, 0xA7F6), (0xFF21, 0xFF3A, 1, 0xFF41),
   (0x10400, 0x10427, 1, 0x10428), (0x104B0, 0x104D3, 1, 0x104D8),
   (0x10570, 0x1057A, 1, 0x10597), (0x1057C, 0x1058A, 1, 0x105A3),
   (0x1058C, 0x10592, 1, 0x105B3), (0x10594, 0x10595, 1, 0x105BB),
   (0x10C80, 0x10CB2, 1, 0x10CC0), (0x118A0, 0x118BF, 1, 0x118C0),
   (0x16E40, 0x16E5F, 1, 0x16E60), (0x1E900, 0x1E921, 1, 0x1E922)]

/-- Go `unicode.ToLower`: an ASCII letter `A` to `Z` moves to `a` to `z`, any
other ASCII character is kept, and a character beyond ASCII is mapped by the
case ranges, or kept when no range holds it. -/
def unicodeToLower (c : Char) : Char :=
  if c.toNat ≤ 0x7F then
    if 'A' ≤ c ∧ c ≤ 'Z' then Char.ofNat (c.toNat + 32) else c
  else
    match lowerCaseRanges.find?
        (fun r => decide (r.1 ≤ c.toNat) && decide (c.toNat ≤ r.2.1) &&
          decide ((c.toNat - r.1) % r.2.2.1 = 0)) with
    | some r => Char.ofNat (c.toNat - r.1 + r.2.2.2)
    | none => c

/-- Go `strings.ToLower`: every character is mapped by `unicode.ToLower`.  On
a string of ASCII characters this is the fast path of the Go function, on any
other string its `strings.Map(unicode.ToLower, s)`.  A Go string that is not
valid UTF-8 has no counterpart here. -/
def stringsToLower (s : String) : String :=
  ⟨s.data.map unicodeToLower⟩

/-- Go's `isSeparator` of `strings.Title` on ASCII characters: letters, digits
and the underscore are not separators, every other ASCII character is.
Characters beyond ASCII are outside this model and count as no separator. -/
def isSeparator (c : Char) : Bool :=
  if c.toNat ≤ 0x7F then !(c.isDigit || c.isLower || c.isUpper || c = '_')
  else false

/-- The loop of `strings.Title`: `prev` is the character before. -/
def titleChars : Char → List Char → List Char
  | _, [] => []
  | prev, c :: cs => (if isSeparator prev then c.toUpper else c) :: titleChars c cs

/-- Go `strings.Title` on ASCII text: the first letter of every word is put in
upper case. -/
def stringsTitle (s : String) : String :=
  ⟨titleChars ' ' s.data⟩

/-! ## models/enums.go -/

abbrev HTTPMethod := String

def MethodGET : HTTPMethod := "GET"
def MethodPOST : HTTPMethod := "POST"
def MethodPUT : HTTPMethod := "PUT"
def MethodDELETE : HTTPMethod := "DELETE"
def MethodPATCH : HTTPMethod := "PATCH"
def MethodHEAD : HTTPMethod := "HEAD"
def MethodOPTIONS : HTTPMethod := "OPTIONS"

/-- The method modifies state: `HTTPMethod.IsWriteMethod`. -/
def HTTPMethod.IsWriteMethod (m : HTTPMethod) : Bool :=
  if m = MethodPOST ∨ m = MethodPUT ∨ m = MethodDELETE ∨ m = MethodPATCH then true
  else false

abbrev Framework := String

def FrameworkGin : Framework := "gin"
def FrameworkEcho : Framework := "echo"
def FrameworkChi : Framework := "chi"
def FrameworkFiber : Framework := "fiber"
def FrameworkNetHTTP : Framework := "net/http"
def FrameworkUnknown : Framework := "unknown"

abbrev SecurityClassification := String

def ClassificationPublic : SecurityClassification := "public"
def ClassificationAuthenticated : SecurityClassification := "authenticated"
def ClassificationRoleRestricted : SecurityClassification := "role_restricted"
def ClassificationPolicyRestricted : SecurityClassification := "policy_restricted"

abbrev Severity := String

def SeverityInfo : Severity := "info"
def SeverityLow : Severity := "low"
def SeverityMedium : Severity := "medium"
def SeverityHigh : Severity := "high"
def SeverityCritical : Severity := "critical"

/-- The numeric order for sorting, higher is more severe: `Severity.Order`. -/
def Severity.Order (s : Severity) : Int :=
  if s = SeverityInfo then 0
  else if s = SeverityLow then 1
  else if s = SeverityMedium then 2
  else if s = SeverityHigh then 3
  else if s = SeverityCritical then 4
  else 0

/-- This severity is at least the other: `Severity.GreaterOrEqual`. -/
def Severity.GreaterOrEqual (s other : Severity) : Bool :=
  decide (Severity.Order s ≥ Severity.Order other)

/-- Parses a string to a severity: `ParseSeverity`. -/
def ParseSeverity (s : String) : Severity :=
  if s = "info" then SeverityInfo
  else if s = "low" then SeverityLow
  else if s = "medium" then SeverityMedium
  else if s = "high" then SeverityHigh
  else if s = "critical" then SeverityCritical
  else SeverityInfo

abbrev EndpointType := String

def EndpointTypeControllerAction : EndpointType := "controller_action"
def EndpointTypeFunction : EndpointType := "function"
def EndpointTypeRouter : EndpointType := "router"

/-! ## models/authorization.go -/

/-- Authorization information for an endpoint. -/
structure AuthorizationInfo where
  RequiresAuth : Bool := false
  AllowsAnonymous : Bool := false
  Roles : List String := []
  Scopes : List String := []
  Permissions : List String := []
  Policies : List String := []
  AuthDependencies : List String := []
  Inherited : Bool := false
  Source : String := ""
  deriving DecidableEq, Repr

/-- A record with default values: `NewAuthorizationInfo`. -/
def NewAuthorizationInfo : AuthorizationInfo :=
  { Roles := [], Scopes := [], Permissions := [], Policies := [], AuthDependencies := [] }

/-- There are specific role/scope/permission/policy requirements. -/
def AuthorizationInfo.HasSpecificRequirements (a : AuthorizationInfo) : Bool :=
  decide (a.Roles.length > 0) || decide (a.Scopes.length > 0) ||
    decide (a.Permissions.length > 0) || decide (a.Policies.length > 0)

/-- The endpoint is effectively public. -/
def AuthorizationInfo.IsPublic (a : AuthorizationInfo) : Bool :=
  a.AllowsAnonymous || (!a.RequiresAuth && !a.HasSpecificRequirements)

/-- One `for _, s := range xs` loop of `mergeStringSlices`, on the pair
`(seen, result)`: an item not yet seen is marked and appended. -/
def mergeLoop : List String → StringSet × List String → StringSet × List String
  | [], st => st
  | s :: rest, (seen, result) =>
      if !seen s then mergeLoop rest (seen.set s, result ++ [s])
      else mergeLoop rest (seen, result)

/-- Merges two string slices, removing duplicates: `mergeStringSlices`. -/
def mergeStringSlices (a b : List String) : List String :=
  (mergeLoop b (mergeLoop a (StringSet.empty, []))).2

/-- Merges authorization info of a parent `a` with a child `other`:
`AuthorizationInfo.Merge`. -/
def AuthorizationInfo.Merge (a other : AuthorizationInfo) (override : Bool) :
    AuthorizationInfo :=
  if override && other.AllowsAnonymous then
    { AllowsAnonymous := true, Inherited := false, Source := other.Source }
  else
    let otherHasConfig : Bool :=
      other.RequiresAuth || other.AllowsAnonymous ||
        decide (other.Roles.length > 0) || decide (other.Scopes.length > 0) ||
        decide (other.Permissions.length > 0) || decide (other.Policies.length > 0) ||
        decide (other.AuthDependencies.length > 0)
    let allowsAnon : Bool :=
      if override then
        if otherHasConfig then other.AllowsAnonymous else a.AllowsAnonymous
      else a.AllowsAnonymous && other.AllowsAnonymous
    let inherited : Bool := if other.RequiresAuth then false else a.Inherited
    let source : String := if other.Source = "" then a.Source else other.Source
    { RequiresAuth := a.RequiresAuth || other.RequiresAuth
      AllowsAnonymous := allowsAnon
      Roles := mergeStringSlices a.Roles other.Roles
      Scopes := mergeStringSlices a.Scopes other.Scopes
      Permissions := mergeStringSlices a.Permissions other.Permissions
      Policies := mergeStringSlices a.Policies other.Policies
      AuthDependencies := mergeStringSlices a.AuthDependencies other.AuthDependencies
      Inherited := inherited
      Source := source }

/-! ## models/endpoint.go -/

/-- A discovered API endpoint. -/
structure Endpoint where
  Route : String := ""
  Methods : List HTTPMethod := []
  FilePath : String := ""
  LineNumber : Int := 0
  Framework : Framework := ""
  EndpointType : EndpointType := ""
  FunctionName : String := ""
  ClassName : String := ""
  Authorization : AuthorizationInfo := {}
  Classification : SecurityClassification := ""
  RouterPrefix : String := ""
  Tags : List String := []
  Metadata : List (String × String) := []
  deriving DecidableEq, Repr

/-- An endpoint with default values: `NewEndpoint`. -/
def NewEndpoint : Endpoint :=
  { Methods := [], Authorization := NewAuthorizationInfo,
    Classification := ClassificationPublic, Tags := [], Metadata := [] }

/-- The full route including router prefix: `Endpoint.FullRoute`. -/
def Endpoint.FullRoute (e : Endpoint) : String :=
  if e.RouterPrefix = "" then e.Route
  else
    let pre := stringsTrimSuffix e.RouterPrefix "/"
    let route := if !stringsHasPrefix e.Route "/" then "/" ++ e.Route else e.Route
    pre ++ route

/-- A display string for the HTTP methods: `Endpoint.DisplayMethods`. -/
def Endpoint.DisplayMethods (e : Endpoint) : String :=
  if e.Methods.length = 0 then "" else stringsJoin e.Methods ", "

/-- The endpoint handles a write method: `Endpoint.IsWriteEndpoint`. -/
def Endpoint.IsWriteEndpoint (e : Endpoint) : Bool :=
  e.Methods.any HTTPMethod.IsWriteMethod

/-- Two endpoints are equal based on route, methods and file location:
`Endpoint.Equal`.  `methodSet` is the map filled from the receiver's methods;
the second loop returns false at the first method of `other` that it lacks. -/
def Endpoint.Equal (e other : Endpoint) : Bool :=
  if e.Route ≠ other.Route ∨ e.FilePath ≠ other.FilePath ∨
      e.LineNumber ≠ other.LineNumber then false
  else if e.Methods.length ≠ other.Methods.length then false
  else
    let methodSet : StringSet :=
      e.Methods.foldl (fun set m => StringSet.set set m) StringSet.empty
    other.Methods.all (fun m => methodSet m)


/-- Go `sort.Strings`: the strings in increasing order.  Go orders strings by
their bytes, which for UTF-8 text is the order by characters used here. -/
def sortStrings (l : List String) : List String :=
  l.insertionSort (fun a b => a ≤ b)

/-- A string hash based on route, methods and file location: `Endpoint.Hash`,
the format `%s|%s|%s|%d` over the route, the sorted methods joined by commas,
the file path and the line number. -/
def Endpoint.Hash (e : Endpoint) : String :=
  let methods := sortStrings e.Methods
  e.Route ++ "|" ++ stringsJoin methods "," ++ "|" ++ e.FilePath ++ "|" ++
    toString e.LineNumber

/-! ## models/finding.go -/

/-- A security finding for an endpoint. -/
structure Finding where
  RuleID : String := ""
  RuleName : String := ""
  Severity : Severity := ""
  Message : String := ""
  Endpoint : Endpoint := {}
  Recommendation : String := ""
  Suppressed : Bool := false
  SuppressionReason : String := ""
  deriving DecidableEq, Repr

/-! ## classification/classifier.go -/

/-- The security classification of an endpoint: `Classifier.Classify`. -/
def Classifier.Classify (endpoint : Endpoint) : SecurityClassification :=
  let auth := endpoint.Authorization
  if auth.AllowsAnonymous then ClassificationPublic
  else if !auth.RequiresAuth && !auth.HasSpecificRequirements then ClassificationPublic
  else if decide (auth.Policies.length > 0) || decide (auth.Permissions.length > 0) ||
      decide (auth.Scopes.length > 0) then ClassificationPolicyRestricted
  else if decide (auth.Roles.length > 0) then ClassificationRoleRestricted
  else if auth.RequiresAuth || decide (auth.AuthDependencies.length > 0) then
    ClassificationAuthenticated
  else ClassificationPublic

/-- Classifies all endpoints: `Classifier.ClassifyAll`. -/
def Classifier.ClassifyAll (endpoints : List Endpoint) : List Endpoint :=
  endpoints.map (fun e => { e with Classification := Classifier.Classify e })

/-! ## rules/rule.go -/

/-- The interface of a security rule, as the record of its methods. -/
structure Rule where
  ID : String
  Name : String
  Severity : Severity
  Description : String
  Evaluate : Endpoint → List Finding

/-- Creates a finding with standard fields: `createFinding`.  The source passes
the rule and reads its `ID()`, `Name()` and `Severity()`; they are passed here
as the three leading arguments. -/
def createFinding (ruleID ruleName : String) (severity : Severity) (endpoint : Endpoint)
    (message recommendation : String) : Finding :=
  { RuleID := ruleID, RuleName := ruleName, Severity := severity, Message := message,
    Endpoint := endpoint, Recommendation := recommendation }

/-! ## rules/ap001_public_without_intent.go -/

def AP001PublicWithoutIntent.ID : String := "AP001"

def AP001PublicWithoutIntent.Name : String := "Public without explicit intent"

def AP001PublicWithoutIntent.Severity : ApiPosture.Severity := SeverityHigh

def AP001PublicWithoutIntent.Description : String :=
  "Public endpoint without explicit authorization intent. " ++
    "Endpoints should explicitly declare their authorization requirements."

/-- Checks if the endpoint is public without explicit AllowAnonymous. -/
def AP001PublicWithoutIntent.Evaluate (endpoint : Endpoint) : List Finding :=
  if endpoint.Classification ≠ ClassificationPublic then []
  else
    let auth := endpoint.Authorization
    if auth.AllowsAnonymous then []
    else if auth.RequiresAuth || decide (auth.AuthDependencies.length > 0) ||
        auth.HasSpecificRequirements then []
    else
      [createFinding AP001PublicWithoutIntent.ID AP001PublicWithoutIntent.Name
        AP001PublicWithoutIntent.Severity endpoint
        ("Endpoint '" ++ endpoint.FullRoute ++
          "' is public without explicit authorization intent")
        "Add explicit authorization middleware or mark as intentionally public"]

def NewAP001PublicWithoutIntent : Rule :=
  { ID := AP001PublicWithoutIntent.ID, Name := AP001PublicWithoutIntent.Name,
    Severity := AP001PublicWithoutIntent.Severity,
    Description := AP001PublicWithoutIntent.Description,
    Evaluate := AP001PublicWithoutIntent.Evaluate }

/-! ## rules/ap002_anonymous_on_write.go -/

def AP002AnonymousOnWrite.ID : String := "AP002"

def AP002AnonymousOnWrite.Name : String := "Anonymous access on write endpoint"

def AP002AnonymousOnWrite.Severity : ApiPosture.Severity := SeverityHigh

def AP002AnonymousOnWrite.Description : String :=
  "Write endpoints (POST, PUT, DELETE, PATCH) with explicit anonymous access. " ++
    "This can allow unauthorized data modification."

/-- Checks if a write endpoint allows anonymous access. -/
def AP002AnonymousOnWrite.Evaluate (endpoint : Endpoint) : List Finding :=
  if !endpoint.IsWriteEndpoint then []
  else if !endpoint.Authorization.AllowsAnonymous then []
  else
    [createFinding AP002AnonymousOnWrite.ID AP002AnonymousOnWrite.Name
      AP002AnonymousOnWrite.Severity endpoint
      ("Write endpoint '" ++ endpoint.FullRoute ++ "' [" ++ endpoint.DisplayMethods ++
        "] explicitly allows anonymous access")
      ("Remove anonymous access from write endpoints, or add rate limiting and " ++
        "validation if public access is required")]

def NewAP002AnonymousOnWrite : Rule :=
  { ID := AP002AnonymousOnWrite.ID, Name := AP002AnonymousOnWrite.Name,
    Severity := AP002AnonymousOnWrite.Severity,
    Description := AP002AnonymousOnWrite.Description,
    Evaluate := AP002AnonymousOnWrite.Evaluate }

/-! ## rules/ap003_auth_conflict.go -/

def AP003AuthConflict.ID : String := "AP003"

def AP003AuthConflict.Name : String := "Group/route authorization conflict"

def AP003AuthConflict.Severity : ApiPosture.Severity := SeverityMedium

def AP003AuthConflict.Description : String :=
  "Route-level anonymous access overrides group-level authentication. " ++
    "This may indicate a configuration mistake."

/-- Checks for group/route authorization conflicts. -/
def AP003AuthConflict.Evaluate (endpoint : Endpoint) : List Finding :=
  let auth := endpoint.Authorization
  if auth.AllowsAnonymous && auth.Inherited then
    [createFinding AP003AuthConflict.ID AP003AuthConflict.Name AP003AuthConflict.Severity
      endpoint
      ("Route '" ++ endpoint.FullRoute ++
        "' allows anonymous access, overriding group-level authentication")
      ("Verify this override is intentional. If the route should be public, " ++
        "consider documenting why with a comment")]
  else []

def NewAP003AuthConflict : Rule :=
  { ID := AP003AuthConflict.ID, Name := AP003AuthConflict.Name,
    Severity := AP003AuthConflict.Severity,
    Description := AP003AuthConflict.Description,
    Evaluate := AP003AuthConflict.Evaluate }

/-! ## rules/ap004_missing_auth_writes.go -/

def AP004MissingAuthWrites.ID : String := "AP004"

def AP004MissingAuthWrites.Name : String := "Missing authentication on write endpoint"

def AP004MissingAuthWrites.Severity : ApiPosture.Severity := SeverityCritical

def AP004MissingAuthWrites.Description : String :=
  "Write endpoints (POST, PUT, DELETE, PATCH) without any authentication. " ++
    "This is a critical security risk allowing unauthorized data modification."

/-- Checks if a write endpoint is missing authentication. -/
def AP004MissingAuthWrites.Evaluate (endpoint : Endpoint) : List Finding :=
  if !endpoint.IsWriteEndpoint then []
  else if endpoint.Classification ≠ ClassificationPublic then []
  else
    let auth := endpoint.Authorization
    if auth.AllowsAnonymous then []
    else if !auth.RequiresAuth && decide (auth.AuthDependencies.length = 0) &&
        !auth.HasSpecificRequirements then
      [createFinding AP004MissingAuthWrites.ID AP004MissingAuthWrites.Name
        AP004MissingAuthWrites.Severity endpoint
        ("Write endpoint '" ++ endpoint.FullRoute ++ "' [" ++ endpoint.DisplayMethods ++
          "] has no authentication")
        "Add authentication middleware to protect this write endpoint"]
    else []

def NewAP004MissingAuthWrites : Rule :=
  { ID := AP004MissingAuthWrites.ID, Name := AP004MissingAuthWrites.Name,
    Severity := AP004MissingAuthWrites.Severity,
    Description := AP004MissingAuthWrites.Description,
    Evaluate := AP004MissingAuthWrites.Evaluate }

/-! ## rules/ap005_excessive_roles.go -/

def maxRolesThreshold : Nat := 3

def AP005ExcessiveRoles.ID : String := "AP005"

def AP005ExcessiveRoles.Name : String := "Excessive role access"

def AP005ExcessiveRoles.Severity : ApiPosture.Severity := SeverityLow

def AP005ExcessiveRoles.Description : String :=
  "Endpoint allows access to more than " ++ toString maxRolesThreshold ++ " roles. " ++
    "Consider using broader permission categories."

/-- Checks if the endpoint has too many roles. -/
def AP005ExcessiveRoles.Evaluate (endpoint : Endpoint) : List Finding :=
  let roles := endpoint.Authorization.Roles
  if roles.length ≤ maxRolesThreshold then []
  else
    [createFinding AP005ExcessiveRoles.ID AP005ExcessiveRoles.Name
      AP005ExcessiveRoles.Severity endpoint
      ("Endpoint '" ++ endpoint.FullRoute ++ "' allows access to " ++
        toString roles.length ++ " roles: " ++ stringsJoin roles ", ")
      "Consider grouping roles into broader permission categories or using policies"]

def NewAP005ExcessiveRoles : Rule :=
  { ID := AP005ExcessiveRoles.ID, Name := AP005ExcessiveRoles.Name,
    Severity := AP005ExcessiveRoles.Severity,
    Description := AP005ExcessiveRoles.Description,
    Evaluate := AP005ExcessiveRoles.Evaluate }

/-! ## rules/ap006_weak_role_naming.go -/

/-- Generic role names that should be more specific: the keys of the map
`weakRoleNames`, each mapped to `true`. -/
def weakRoleNames : StringSet := fun k =>
  decide (k ∈ ["user", "users", "admin", "admins", "guest", "guests", "member",
    "members", "default", "basic", "standard", "normal", "regular"])

def AP006WeakRoleNaming.ID : String := "AP006"

def AP006WeakRoleNaming.Name : String := "Weak role naming"

def AP006WeakRoleNaming.Severity : ApiPosture.Severity := SeverityLow

def AP006WeakRoleNaming.Description : String :=
  "Role names are too generic. " ++
    "Consider using more descriptive names that indicate specific permissions."

/-- Checks for weak role names; the loop appends to `weak` each role whose
lower-cased name is in `weakRoleNames`. -/
def AP006WeakRoleNaming.Evaluate (endpoint : Endpoint) : List Finding :=
  let roles := endpoint.Authorization.Roles
  let weak := roles.filter (fun role => weakRoleNames (stringsToLower role))
  if weak.length = 0 then []
  else
    [createFinding AP006WeakRoleNaming.ID AP006WeakRoleNaming.Name
      AP006WeakRoleNaming.Severity endpoint
      ("Endpoint '" ++ endpoint.FullRoute ++ "' uses generic role names: " ++
        stringsJoin weak ", ")
      ("Use more descriptive role names that indicate permissions, e.g., " ++
        "'billing_admin', 'content_editor', 'report_viewer'")]

def NewAP006WeakRoleNaming : Rule :=
  { ID := AP006WeakRoleNaming.ID, Name := AP006WeakRoleNaming.Name,
    Severity := AP006WeakRoleNaming.Severity,
    Description := AP006WeakRoleNaming.Description,
    Evaluate := AP006WeakRoleNaming.Evaluate }

/-! ## rules/ap007_sensitive_keywords.go -/

/-- Keywords that indicate potentially sensitive routes. -/
def sensitiveKeywords : List String :=
  ["admin", "debug", "export", "import", "internal", "config", "settings", "secret",
   "private", "management", "manage", "system", "backup", "restore", "migrate",
   "database", "db", "console", "shell", "exec", "execute", "eval", "log", "logs",
   "trace", "metrics", "health", "status", "info", "actuator"]

def AP007SensitiveKeywords.ID : String := "AP007"

def AP007SensitiveKeywords.Name : String := "Sensitive keyword in public route"

def AP007SensitiveKeywords.Severity : ApiPosture.Severity := SeverityMedium

def AP007SensitiveKeywords.Description : String :=
  "Public route contains sensitive keywords suggesting it should be protected. " ++
    "Routes with admin, debug, export, or internal keywords often require authentication."

/-- Checks for sensitive keywords in public routes; the loop appends to `found`
each keyword contained in the lower-cased full route. -/
def AP007SensitiveKeywords.Evaluate (endpoint : Endpoint) : List Finding :=
  if endpoint.Classification ≠ ClassificationPublic then []
  else if endpoint.Authorization.AllowsAnonymous then []
  else
    let route := stringsToLower endpoint.FullRoute
    let found := sensitiveKeywords.filter (fun keyword => stringsContains route keyword)
    if found.length = 0 then []
    else
      [createFinding AP007SensitiveKeywords.ID AP007SensitiveKeywords.Name
        AP007SensitiveKeywords.Severity endpoint
        ("Public route '" ++ endpoint.FullRoute ++ "' contains sensitive keywords: " ++
          stringsJoin found ", ")
        ("Consider adding authentication to this endpoint or marking it as " ++
          "intentionally public")]

def NewAP007SensitiveKeywords : Rule :=
  { ID := AP007SensitiveKeywords.ID, Name := AP007SensitiveKeywords.Name,
    Severity := AP007SensitiveKeywords.Severity,
    Description := AP007SensitiveKeywords.Description,
    Evaluate := AP007SensitiveKeywords.Evaluate }

/-! ## rules/ap008_endpoint_without_auth.go -/

def AP008EndpointWithoutAuth.ID : String := "AP008"

def AP008EndpointWithoutAuth.Name : String := "Endpoint without authentication"

def AP008EndpointWithoutAuth.Severity : ApiPosture.Severity := SeverityHigh

def AP008EndpointWithoutAuth.Description : String :=
  "Endpoint has no authentication configuration. " ++
    "Consider adding authentication middleware."

/-- The framework-specific recommendation built by the `switch` of AP008. -/
def AP008EndpointWithoutAuth.recommendation (framework : Framework) : String :=
  if framework = FrameworkGin then
    "Add authentication middleware: use gin-jwt, gin-session, or custom auth middleware"
  else if framework = FrameworkEcho then
    "Add authentication middleware: use echo-jwt, echo middleware, or custom auth handler"
  else if framework = FrameworkChi then
    "Add authentication middleware: use chi middleware with jwtauth or custom auth handler"
  else if framework = FrameworkFiber then
    "Add authentication middleware: use fiber-jwt, fiber-session, or custom auth middleware"
  else if framework = FrameworkNetHTTP then
    "Add authentication: wrap handler with auth middleware or check auth in handler"
  else "Add authentication middleware to protect this endpoint"

/-- Checks if the endpoint lacks authentication. -/
def AP008EndpointWithoutAuth.Evaluate (endpoint : Endpoint) : List Finding :=
  if endpoint.Classification ≠ ClassificationPublic then []
  else if endpoint.Authorization.AllowsAnonymous then []
  else
    let auth := endpoint.Authorization
    if auth.RequiresAuth || decide (auth.AuthDependencies.length > 0) ||
        auth.HasSpecificRequirements then []
    else
      [createFinding AP008EndpointWithoutAuth.ID AP008EndpointWithoutAuth.Name
        AP008EndpointWithoutAuth.Severity endpoint
        ("Endpoint '" ++ endpoint.FullRoute ++ "' has no authentication configuration")
        (AP008EndpointWithoutAuth.recommendation endpoint.Framework)]

def NewAP008EndpointWithoutAuth : Rule :=
  { ID := AP008EndpointWithoutAuth.ID, Name := AP008EndpointWithoutAuth.Name,
    Severity := AP008EndpointWithoutAuth.Severity,
    Description := AP008EndpointWithoutAuth.Description,
    Evaluate := AP008EndpointWithoutAuth.Evaluate }

/-! ## rules/engine.go -/

/-- The rule engine; `enabledRules` is `none` for a nil map. -/
structure Engine where
  rules : List Rule
  enabledRules : Option StringSet

/-- Creates a rule engine: `NewEngine`.  The argument is `none` for a nil slice
(all rules enabled) and `some ids` for a non-nil one, whose ids are entered in
a fresh map one by one. -/
def NewEngine (enabledRules : Option (List String)) : Engine :=
  let allRules : List Rule :=
    [NewAP001PublicWithoutIntent, NewAP002AnonymousOnWrite, NewAP003AuthConflict,
     NewAP004MissingAuthWrites, NewAP005ExcessiveRoles, NewAP006WeakRoleNaming,
     NewAP007SensitiveKeywords, NewAP008EndpointWithoutAuth]
  { rules := allRules
    enabledRules :=
      match enabledRules with
      | none => none
      | some ids => some (ids.foldl (fun m id => StringSet.set m id) StringSet.empty) }

/-- The test `e.enabledRules != nil && !e.enabledRules[rule.ID()]` under which
`Engine.Evaluate` skips a rule. -/
def Engine.skips (e : Engine) (rule : Rule) : Bool :=
  match e.enabledRules with
  | none => false
  | some m => !m rule.ID

/-- Evaluates all enabled rules against an endpoint: `Engine.Evaluate`, a loop
over `e.rules` appending to `findings`. -/
def Engine.Evaluate (e : Engine) (endpoint : Endpoint) : List Finding :=
  e.rules.foldl
    (fun findings rule =>
      if e.skips rule then findings else findings ++ rule.Evaluate endpoint)
    []

/-- Evaluates all enabled rules against all endpoints: `Engine.EvaluateAll`, a
loop over `endpoints` appending to `findings`. -/
def Engine.EvaluateAll (e : Engine) (endpoints : List Endpoint) : List Finding :=
  endpoints.foldl (fun findings endpoint => findings ++ e.Evaluate endpoint) []

/-! ## astutil/helpers.go and astutil/source.go

The syntax tree is the part of `go/ast` that the discoverers inspect.  A
`BasicLit` of kind `STRING` holds the string its literal denotes (what
`strconv.Unquote` returns for the literal's text), and a `CallExpr` holds the
line of its position.  Every other kind of node is an `Other` with its children
in the order `ast.Inspect` walks them. -/

/-- A node of the syntax tree. -/
inductive Node where
  | Ident (name : String)
  | BasicLit (kind : String) (value : String)
  | SelectorExpr (x : Node) (sel : String)
  | CallExpr (line : Int) (fn : Node) (args : List Node)
  | FuncLit (params : List (List String)) (body : List Node)
  | AssignStmt (lhs : List Node) (rhs : List Node)
  | Other (children : List Node)
  deriving Repr

/-- A parsed Go source file: its path, its tree and its import table (import
path to alias). -/
structure ParsedSource where
  FilePath : String := ""
  AST : Node := Node.Other []
  Imports : List (String × String) := []

/-- The source has a specific import path: `ParsedSource.HasImport`, the
comma-ok read of the import map. -/
def ParsedSource.HasImport (s : ParsedSource) (importPath : String) : Bool :=
  (s.Imports.lookup importPath).isSome

/-- The source has an import with the given prefix:
`ParsedSource.HasImportPrefix`, a loop over the keys of the import map. -/
def ParsedSource.HasImportPrefix (s : ParsedSource) (pre : String) : Bool :=
  s.Imports.any (fun entry => stringsHasPrefix entry.1 pre)

mutual
/-- Go `ast.Inspect` with a callback that always returns true: depth-first,
parent before children.  The callback `f` updates a state and, on a call, may
remove leading arguments (`call.Args = call.Args[k:]`); it returns the number
`k` of arguments it removed.  The walk goes on into the children the callback
left, and the tree as left by all callbacks is returned with the state. -/
def Inspect {σ : Type} (f : Node → σ → σ × Nat) : Node → σ → σ × Node
  | n, s =>
    let (s1, k) := f n s
    match n with
    | .Ident name => (s1, .Ident name)
    | .BasicLit kind value => (s1, .BasicLit kind value)
    | .SelectorExpr x sel =>
        let (s2, x1) := Inspect f x s1
        (s2, .SelectorExpr x1 sel)
    | .CallExpr line fn args =>
        let (s2, fn1) := Inspect f fn s1
        let (s3, args1) := InspectList f args k s2
        (s3, .CallExpr line fn1 args1)
    | .FuncLit params body =>
        let (s2, body1) := InspectList f body 0 s1
        (s2, .FuncLit params body1)
    | .AssignStmt lhs rhs =>
        let (s2, lhs1) := InspectList f lhs 0 s1
        let (s3, rhs1) := InspectList f rhs 0 s2
        (s3, .AssignStmt lhs1 rhs1)
    | .Other children =>
        let (s2, children1) := InspectList f children 0 s1
        (s2, .Other children1)
/-- The walk over a list of children, the first `k` of which were removed. -/
def InspectList {σ : Type} (f : Node → σ → σ × Nat) :
    List Node → Nat → σ → σ × List Node
  | [], _, s => (s, [])
  | _ :: ns, k + 1, s => InspectList f ns k s
  | n :: ns, 0, s =>
      let (s1, n1) := Inspect f n s
      let (s2, ns1) := InspectList f ns 0 s1
      (s2, n1 :: ns1)
end

/-- Go `strings.Split` with a separator of one character, on characters. -/
def splitChars (sep : Char) : List Char → List (List Char)
  | [] => [[]]
  | c :: cs =>
    if c = sep then [] :: splitChars sep cs
    else
      match splitChars sep cs with
      | [] => [[c]]
      | part :: parts => (c :: part) :: parts

/-- Go `strings.Split` with a separator of one character. -/
def stringsSplit (s : String) (sep : Char) : List String :=
  (splitChars sep s.data).map String.mk

/-- The loop of `selectorToString`: `x` is the `X` of the current selector and
`parts` holds the names collected so far. -/
def selectorToStringLoop : Node → List String → String
  | .Ident name, parts => stringsJoin (name :: parts) "."
  | .SelectorExpr x sel, parts => selectorToStringLoop x (sel :: parts)
  | _, parts => stringsJoin parts "."

/-- Converts the selector `x.sel` to a dotted string: `selectorToString`. -/
def selectorToString (x : Node) (sel : String) : String :=
  selectorToStringLoop x [sel]

/-- The name of a function call, such as `r.GET`: `GetCallName`. -/
def GetCallName (call : Node) : String :=
  match call with
  | .CallExpr _ (.Ident name) _ => name
  | .CallExpr _ (.SelectorExpr (.Ident x) sel) _ => x ++ "." ++ sel
  | .CallExpr _ (.SelectorExpr x sel) _ => selectorToString x sel
  | _ => ""

/-- The string value of an expression: `GetStringValue`. -/
def GetStringValue (expr : Node) : String :=
  match expr with
  | .BasicLit kind value => if kind = "STRING" then value else ""
  | _ => ""

/-- The line number of a node: `GetLineNumber`. -/
def GetLineNumber (node : Node) : Int :=
  match node with
  | .CallExpr line _ _ => line
  | _ => 0

/-! ## authorization/extractor.go -/

/-- Common auth middleware patterns. -/
def authMiddlewarePatterns : List String :=
  ["auth", "jwt", "oauth", "session", "token", "bearer", "apikey", "api_key",
   "authenticate", "authorized", "requireauth", "require_auth", "protected", "secure",
   "guard", "permission", "role", "acl", "casbin"]

/-- Common allow-anonymous patterns. -/
def allowAnonPatterns : List String :=
  ["allowanonymous", "allow_anonymous", "public", "noauth", "no_auth", "skipauth",
   "skip_auth", "permitall", "permit_all"]

/-- A middleware name indicates authentication: `isAuthMiddleware`. -/
def isAuthMiddleware (name : String) : Bool :=
  let lower := stringsToLower name
  authMiddlewarePatterns.any (fun pattern => stringsContains lower pattern)

/-- A middleware name indicates anonymous access: `isAllowAnonymous`. -/
def isAllowAnonymous (name : String) : Bool :=
  let lower := stringsToLower name
  allowAnonPatterns.any (fun pattern => stringsContains lower pattern)

/-- Role names of a middleware that looks like role middleware: `extractRoles`;
`none` is the nil slice and `some []` the empty non-nil one. -/
def extractRoles (name : String) : Option (List String) :=
  let lower := stringsToLower name
  if stringsContains lower "role" || stringsContains lower "permission" then some []
  else none

/-- The body of the loop `for _, mw := range middleware` of `Extract`, which is
the same text in the five extractors. -/
def extractMiddleware (auth : AuthorizationInfo) (mw : String) : AuthorizationInfo :=
  if isAllowAnonymous mw then
    { auth with AllowsAnonymous := true, Source := "middleware" }
  else
    let auth1 : AuthorizationInfo :=
      if isAuthMiddleware mw then
        { auth with RequiresAuth := true, AuthDependencies := auth.AuthDependencies ++ [mw],
                    Source := "middleware" }
      else auth
    match extractRoles mw with
    | some roles => { auth1 with Roles := auth1.Roles ++ roles }
    | none => auth1

/-- Authorization info from middleware: `GinExtractor.Extract`. -/
def GinExtractor.Extract (middleware : List String) (_source : ParsedSource) :
    AuthorizationInfo :=
  middleware.foldl extractMiddleware NewAuthorizationInfo

/-- Authorization info from middleware: `EchoExtractor.Extract`. -/
def EchoExtractor.Extract (middleware : List String) (_source : ParsedSource) :
    AuthorizationInfo :=
  middleware.foldl extractMiddleware NewAuthorizationInfo

/-- Authorization info from middleware: `FiberExtractor.Extract`. -/
def FiberExtractor.Extract (middleware : List String) (_source : ParsedSource) :
    AuthorizationInfo :=
  middleware.foldl extractMiddleware NewAuthorizationInfo

/-- Authorization info from middleware: `ChiExtractor.Extract`. -/
def ChiExtractor.Extract (middleware : List String) (_source : ParsedSource) :
    AuthorizationInfo :=
  middleware.foldl extractMiddleware NewAuthorizationInfo

/-- Authorization info from middleware: `NetHTTPExtractor.Extract`. -/
def NetHTTPExtractor.Extract (middleware : List String) (_source : ParsedSource) :
    AuthorizationInfo :=
  middleware.foldl extractMiddleware NewAuthorizationInfo

/-! ## discovery/gin.go -/

def ginImport : String := "github.com/gin-gonic/gin"

/-- Maps Gin method names to HTTP methods: the map `ginRouteMethods`, read
with the comma-ok form. -/
def ginRouteMethods (name : String) : Option HTTPMethod :=
  [("GET", MethodGET), ("POST", MethodPOST), ("PUT", MethodPUT),
   ("DELETE", MethodDELETE), ("PATCH", MethodPATCH), ("HEAD", MethodHEAD),
   ("OPTIONS", MethodOPTIONS)].lookup name

/-- Information about a Gin router group. -/
structure GroupInfo where
  Prefix : String := ""
  Middleware : List String := []
  VarName : String := ""
  deriving DecidableEq, Repr

/-- The function name of a handler argument: `GinDiscoverer.extractHandlerName`. -/
def GinDiscoverer.extractHandlerName (expr : Node) : String :=
  match expr with
  | .Ident name => name
  | .SelectorExpr (.Ident x) sel => x ++ "." ++ sel
  | .CallExpr line fn args => GetCallName (.CallExpr line fn args)
  | _ => ""

/-- The callback of `ast.Inspect` in `GinDiscoverer.findGroups`.  The map
`groups` is a list of entries, the latest first; a lookup takes the first
entry of the key. -/
def GinDiscoverer.findGroupsVisit (n : Node) (groups : List (String × GroupInfo)) :
    List (String × GroupInfo) :=
  match n with
  | .AssignStmt [lhs] [.CallExpr line fn args] =>
    let callName := GetCallName (.CallExpr line fn args)
    if !stringsHasSuffix callName ".Group" then groups
    else
      match lhs with
      | .Ident name =>
        let groupPrefix := match args with
          | arg :: _ => GetStringValue arg
          | [] => ""
        let middleware :=
          ((args.drop 1).map GinDiscoverer.extractHandlerName).filter (fun fn => fn ≠ "")
        (name, { VarName := name, Prefix := groupPrefix, Middleware := middleware }) :: groups
      | _ => groups
  | _ => groups

/-- All Gin `Group()` calls with their prefixes and middleware:
`GinDiscoverer.findGroups`. -/
def GinDiscoverer.findGroups (source : ParsedSource) : List (String × GroupInfo) :=
  (Inspect (fun n groups => (GinDiscoverer.findGroupsVisit n groups, 0)) source.AST []).1

/-- Creates an endpoint from a route call: `GinDiscoverer.createEndpoint`;
`none` is the nil endpoint. -/
def GinDiscoverer.createEndpoint (call : Node) (source : ParsedSource)
    (groups : List (String × GroupInfo)) (receiverVar : String)
    (methods : List HTTPMethod) : Option Endpoint :=
  match call with
  | .CallExpr _ _ [] => none
  | .CallExpr _ _ (arg :: rest) =>
    let args := arg :: rest
    let route := GetStringValue arg
    if route = "" then none
    else
      let handlerName :=
        if args.length ≥ 2 then GinDiscoverer.extractHandlerName (args.getLast (by simp))
        else ""
      let middleware :=
        (((args.drop 1).dropLast).map GinDiscoverer.extractHandlerName).filter
          (fun fn => fn ≠ "")
      let group := groups.lookup receiverVar
      let groupPrefix := match group with
        | some g => g.Prefix
        | none => ""
      let groupMiddleware := match group with
        | some g => g.Middleware
        | none => []
      let allMiddleware := groupMiddleware ++ middleware
      let auth := GinExtractor.Extract allMiddleware source
      some
        { Route := route, Methods := methods, FilePath := source.FilePath,
          LineNumber := GetLineNumber call, Framework := FrameworkGin,
          EndpointType := EndpointTypeFunction, FunctionName := handlerName,
          Authorization := auth, RouterPrefix := groupPrefix }
  | _ => none

/-- Extracts an endpoint from a route registration call:
`GinDiscoverer.extractEndpoint`.  The second component is the number of leading
arguments the function removes from the call (`call.Args = call.Args[1:]` in
the `Handle` case). -/
def GinDiscoverer.extractEndpoint (call : Node) (source : ParsedSource)
    (groups : List (String × GroupInfo)) : Option Endpoint × Nat :=
  match call with
  | .CallExpr line fn args =>
    let callName := GetCallName call
    match stringsSplit callName '.' with
    | receiverVar :: methodName :: _ =>
      match ginRouteMethods methodName with
      | some httpMethod =>
        (GinDiscoverer.createEndpoint call source groups receiverVar [httpMethod], 0)
      | none =>
        if methodName = "Handle" ∧ args.length ≥ 2 then
          let methodStr := match args with
            | arg :: _ => GetStringValue arg
            | [] => ""
          match ginRouteMethods methodStr with
          | none => (none, 0)
          | some httpMethod =>
            (GinDiscoverer.createEndpoint (.CallExpr line fn (args.drop 1)) source groups
              receiverVar [httpMethod], 1)
        else if methodName = "Any" then
          (GinDiscoverer.createEndpoint call source groups receiverVar
            [MethodGET, MethodPOST, MethodPUT, MethodDELETE, MethodPATCH, MethodHEAD,
             MethodOPTIONS], 0)
        else (none, 0)
    | _ => (none, 0)
  | _ => (none, 0)

/-- The `ast.Inspect` walk of `GinDiscoverer.Discover`: the endpoints found, in
the order of the walk, and the tree as the walk leaves it. -/
def GinDiscoverer.inspectRoutes (source : ParsedSource) : List Endpoint × Node :=
  let groups := GinDiscoverer.findGroups source
  Inspect
    (fun n endpoints =>
      match n with
      | .CallExpr line fn args =>
        match GinDiscoverer.extractEndpoint (.CallExpr line fn args) source groups with
        | (some endpoint, k) => (endpoints ++ [endpoint], k)
        | (none, k) => (endpoints, k)
      | _ => (endpoints, 0))
    source.AST []

/-- All Gin endpoints in the source: `GinDiscoverer.Discover`; the second
component is the error, which is always nil. -/
def GinDiscoverer.Discover (source : ParsedSource) : List Endpoint × Option String :=
  ((GinDiscoverer.inspectRoutes source).1, none)

/-- Gin's `CanHandle`: the source imports Gin. -/
def GinDiscoverer.CanHandle (source : ParsedSource) : Bool :=
  source.HasImport ginImport

/-! ## discovery/echo.go -/

def echoImport : String := "github.com/labstack/echo/v4"

/-- Maps Echo method names to HTTP methods: the map `echoRouteMethods`. -/
def echoRouteMethods (name : String) : Option HTTPMethod :=
  [("GET", MethodGET), ("POST", MethodPOST), ("PUT", MethodPUT),
   ("DELETE", MethodDELETE), ("PATCH", MethodPATCH), ("HEAD", MethodHEAD),
   ("OPTIONS", MethodOPTIONS)].lookup name

/-- Information about an Echo router group. -/
structure EchoGroupInfo where
  Prefix : String := ""
  Middleware : List String := []
  VarName : String := ""
  deriving DecidableEq, Repr

/-- Echo's `CanHandle`: the source imports Echo. -/
def EchoDiscoverer.CanHandle (source : ParsedSource) : Bool :=
  source.HasImport echoImport || source.HasImportPrefix "github.com/labstack/echo"

/-- The function name of a handler argument: `EchoDiscoverer.extractHandlerName`. -/
def EchoDiscoverer.extractHandlerName (expr : Node) : String :=
  match expr with
  | .Ident name => name
  | .SelectorExpr (.Ident x) sel => x ++ "." ++ sel
  | .CallExpr line fn args => GetCallName (.CallExpr line fn args)
  | _ => ""

/-- The callback of `ast.Inspect` in `EchoDiscoverer.findGroups`. -/
def EchoDiscoverer.findGroupsVisit (n : Node) (groups : List (String × EchoGroupInfo)) :
    List (String × EchoGroupInfo) :=
  match n with
  | .AssignStmt [lhs] [.CallExpr line fn args] =>
    let callName := GetCallName (.CallExpr line fn args)
    if !stringsHasSuffix callName ".Group" then groups
    else
      match lhs with
      | .Ident name =>
        let groupPrefix := match args with
          | arg :: _ => GetStringValue arg
          | [] => ""
        let middleware :=
          ((args.drop 1).map EchoDiscoverer.extractHandlerName).filter (fun fn => fn ≠ "")
        (name, { VarName := name, Prefix := groupPrefix, Middleware := middleware }) :: groups
      | _ => groups
  | _ => groups

/-- All Echo `Group()` calls with their prefixes and middleware:
`EchoDiscoverer.findGroups`. -/
def EchoDiscoverer.findGroups (source : ParsedSource) : List (String × EchoGroupInfo) :=
  (Inspect (fun n groups => (EchoDiscoverer.findGroupsVisit n groups, 0)) source.AST []).1

/-- Creates an endpoint from a route call: `EchoDiscoverer.createEndpoint`; the
handler is the second argument and the middleware the arguments after it. -/
def EchoDiscoverer.createEndpoint (call : Node) (source : ParsedSource)
    (groups : List (String × EchoGroupInfo)) (receiverVar : String)
    (methods : List HTTPMethod) : Option Endpoint :=
  match call with
  | .CallExpr _ _ (arg :: handler :: rest) =>
    let route := GetStringValue arg
    if route = "" then none
    else
      let handlerName := EchoDiscoverer.extractHandlerName handler
      let middleware :=
        (rest.map EchoDiscoverer.extractHandlerName).filter (fun fn => fn ≠ "")
      let group := groups.lookup receiverVar
      let groupPrefix := match group with
        | some g => g.Prefix
        | none => ""
      let groupMiddleware := match group with
        | some g => g.Middleware
        | none => []
      let allMiddleware := groupMiddleware ++ middleware
      let auth := EchoExtractor.Extract allMiddleware source
      some
        { Route := route, Methods := methods, FilePath := source.FilePath,
          LineNumber := GetLineNumber call, Framework := FrameworkEcho,
          EndpointType := EndpointTypeFunction, FunctionName := handlerName,
          Authorization := auth, RouterPrefix := groupPrefix }
  | _ => none

/-- Extracts an endpoint from a route registration call:
`EchoDiscoverer.extractEndpoint`, with the number of leading arguments it
removes from the call (one in the `Add` case). -/
def EchoDiscoverer.extractEndpoint (call : Node) (source : ParsedSource)
    (groups : List (String × EchoGroupInfo)) : Option Endpoint × Nat :=
  match call with
  | .CallExpr line fn args =>
    let callName := GetCallName call
    match stringsSplit callName '.' with
    | receiverVar :: methodName :: _ =>
      match echoRouteMethods methodName with
      | some httpMethod =>
        (EchoDiscoverer.createEndpoint call source groups receiverVar [httpMethod], 0)
      | none =>
        if methodName = "Add" ∧ args.length ≥ 3 then
          let methodStr := match args with
            | arg :: _ => GetStringValue arg
            | [] => ""
          match echoRouteMethods methodStr with
          | none => (none, 0)
          | some httpMethod =>
            (EchoDiscoverer.createEndpoint (.CallExpr line fn (args.drop 1)) source groups
              receiverVar [httpMethod], 1)
        else if methodName = "Any" then
          (EchoDiscoverer.createEndpoint call source groups receiverVar
            [MethodGET, MethodPOST, MethodPUT, MethodDELETE, MethodPATCH, MethodHEAD,
             MethodOPTIONS], 0)
        else (none, 0)
    | _ => (none, 0)
  | _ => (none, 0)

/-- The `ast.Inspect` walk of `EchoDiscoverer.Discover`: the endpoints found
and the tree as the walk leaves it. -/
def EchoDiscoverer.inspectRoutes (source : ParsedSource) : List Endpoint × Node :=
  let groups := EchoDiscoverer.findGroups source
  Inspect
    (fun n endpoints =>
      match n with
      | .CallExpr line fn args =>
        match EchoDiscoverer.extractEndpoint (.CallExpr line fn args) source groups with
        | (some endpoint, k) => (endpoints ++ [endpoint], k)
        | (none, k) => (endpoints, k)
      | _ => (endpoints, 0))
    source.AST []

/-- All Echo endpoints in the source: `EchoDiscoverer.Discover`; the error is
always nil. -/
def EchoDiscoverer.Discover (source : ParsedSource) : List Endpoint × Option String :=
  ((EchoDiscoverer.inspectRoutes source).1, none)

/-! ## discovery/fiber.go -/

def fiberImport : String := "github.com/gofiber/fiber/v2"

/-- Maps Fiber method names to HTTP methods: the map `fiberRouteMethods`. -/
def fiberRouteMethods (name : String) : Option HTTPMethod :=
  [("Get", MethodGET), ("Post", MethodPOST), ("Put", MethodPUT),
   ("Delete", MethodDELETE), ("Patch", MethodPATCH), ("Head", MethodHEAD),
   ("Options", MethodOPTIONS)].lookup name

/-- The map literal from upper-case verbs to HTTP methods that is written
inline in Fiber's `Add` case and in Chi's `Method` case. -/
def upperCaseMethods (name : String) : Option HTTPMethod :=
  [("GET", MethodGET), ("POST", MethodPOST), ("PUT", MethodPUT),
   ("DELETE", MethodDELETE), ("PATCH", MethodPATCH), ("HEAD", MethodHEAD),
   ("OPTIONS", MethodOPTIONS)].lookup name

/-- Information about a Fiber router group. -/
structure FiberGroupInfo where
  Prefix : String := ""
  Middleware : List String := []
  VarName : String := ""
  deriving DecidableEq, Repr

/-- Fiber's `CanHandle`: the source imports Fiber. -/
def FiberDiscoverer.CanHandle (source : ParsedSource) : Bool :=
  source.HasImport fiberImport || source.HasImportPrefix "github.com/gofiber/fiber"

/-- The function name of a handler argument: `FiberDiscoverer.extractHandlerName`. -/
def FiberDiscoverer.extractHandlerName (expr : Node) : String :=
  match expr with
  | .Ident name => name
  | .SelectorExpr (.Ident x) sel => x ++ "." ++ sel
  | .CallExpr line fn args => GetCallName (.CallExpr line fn args)
  | _ => ""

/-- The callback of `ast.Inspect` in `FiberDiscoverer.findGroups`. -/
def FiberDiscoverer.findGroupsVisit (n : Node) (groups : List (String × FiberGroupInfo)) :
    List (String × FiberGroupInfo) :=
  match n with
  | .AssignStmt [lhs] [.CallExpr line fn args] =>
    let callName := GetCallName (.CallExpr line fn args)
    if !stringsHasSuffix callName ".Group" then groups
    else
      match lhs with
      | .Ident name =>
        let groupPrefix := match args with
          | arg :: _ => GetStringValue arg
          | [] => ""
        let middleware :=
          ((args.drop 1).map FiberDiscoverer.extractHandlerName).filter (fun fn => fn ≠ "")
        (name, { VarName := name, Prefix := groupPrefix, Middleware := middleware }) :: groups
      | _ => groups
  | _ => groups

/-- All Fiber `Group()` calls: `FiberDiscoverer.findGroups`. -/
def FiberDiscoverer.findGroups (source : ParsedSource) : List (String × FiberGroupInfo) :=
  (Inspect (fun n groups => (FiberDiscoverer.findGroupsVisit n groups, 0)) source.AST []).1

/-- Creates an endpoint from a route call: `FiberDiscoverer.createEndpoint`; the
handler is the last argument and the middleware the arguments between the path
and it. -/
def FiberDiscoverer.createEndpoint (call : Node) (source : ParsedSource)
    (groups : List (String × FiberGroupInfo)) (receiverVar : String)
    (methods : List HTTPMethod) : Option Endpoint :=
  match call with
  | .CallExpr _ _ (arg :: second :: rest) =>
    let args := arg :: second :: rest
    let route := GetStringValue arg
    if route = "" then none
    else
      let handlerName := FiberDiscoverer.extractHandlerName (args.getLast (by simp))
      let middleware :=
        (((args.drop 1).dropLast).map FiberDiscoverer.extractHandlerName).filter
          (fun fn => fn ≠ "")
      let group := groups.lookup receiverVar
      let groupPrefix := match group with
        | some g => g.Prefix
        | none => ""
      let groupMiddleware := match group with
        | some g => g.Middleware
        | none => []
      let allMiddleware := groupMiddleware ++ middleware
      let auth := FiberExtractor.Extract allMiddleware source
      some
        { Route := route, Methods := methods, FilePath := source.FilePath,
          LineNumber := GetLineNumber call, Framework := FrameworkFiber,
          EndpointType := EndpointTypeFunction, FunctionName := handlerName,
          Authorization := auth, RouterPrefix := groupPrefix }
  | _ => none

/-- Extracts an endpoint from a route registration call:
`FiberDiscoverer.extractEndpoint`, with the number of leading arguments it
removes from the call (one in the `Add` case). -/
def FiberDiscoverer.extractEndpoint (call : Node) (source : ParsedSource)
    (groups : List (String × FiberGroupInfo)) : Option Endpoint × Nat :=
  match call with
  | .CallExpr line fn args =>
    let callName := GetCallName call
    match stringsSplit callName '.' with
    | receiverVar :: methodName :: _ =>
      match fiberRouteMethods methodName with
      | some httpMethod =>
        (FiberDiscoverer.createEndpoint call source groups receiverVar [httpMethod], 0)
      | none =>
        if methodName = "Add" ∧ args.length ≥ 3 then
          let methodStr := match args with
            | arg :: _ => GetStringValue arg
            | [] => ""
          match upperCaseMethods methodStr with
          | none => (none, 0)
          | some httpMethod =>
            (FiberDiscoverer.createEndpoint (.CallExpr line fn (args.drop 1)) source groups
              receiverVar [httpMethod], 1)
        else if methodName = "All" then
          (FiberDiscoverer.createEndpoint call source groups receiverVar
            [MethodGET, MethodPOST, MethodPUT, MethodDELETE, MethodPATCH, MethodHEAD,
             MethodOPTIONS], 0)
        else (none, 0)
    | _ => (none, 0)
  | _ => (none, 0)

/-- The `ast.Inspect` walk of `FiberDiscoverer.Discover`: the endpoints found
and the tree as the walk leaves it. -/
def FiberDiscoverer.inspectRoutes (source : ParsedSource) : List Endpoint × Node :=
  let groups := FiberDiscoverer.findGroups source
  Inspect
    (fun n endpoints =>
      match n with
      | .CallExpr line fn args =>
        match FiberDiscoverer.extractEndpoint (.CallExpr line fn args) source groups with
        | (some endpoint, k) => (endpoints ++ [endpoint], k)
        | (none, k) => (endpoints, k)
      | _ => (endpoints, 0))
    source.AST []

/-- All Fiber endpoints in the source: `FiberDiscoverer.Discover`; the error is
always nil. -/
def FiberDiscoverer.Discover (source : ParsedSource) : List Endpoint × Option String :=
  ((FiberDiscoverer.inspectRoutes source).1, none)

/-! ## discovery/chi.go -/

def chiImport : String := "github.com/go-chi/chi/v5"

/-- Maps Chi method names to HTTP methods: the map `chiRouteMethods`. -/
def chiRouteMethods (name : String) : Option HTTPMethod :=
  [("Get", MethodGET), ("Post", MethodPOST), ("Put", MethodPUT),
   ("Delete", MethodDELETE), ("Patch", MethodPATCH), ("Head", MethodHEAD),
   ("Options", MethodOPTIONS)].lookup name

/-- Information about a Chi router group. -/
structure ChiGroupInfo where
  Prefix : String := ""
  Middleware : List String := []
  VarName : String := ""
  deriving DecidableEq, Repr

/-- Chi's `CanHandle`: the source imports Chi. -/
def ChiDiscoverer.CanHandle (source : ParsedSource) : Bool :=
  source.HasImport chiImport || source.HasImportPrefix "github.com/go-chi/chi"

/-- The function name of a handler argument: `ChiDiscoverer.extractHandlerName`. -/
def ChiDiscoverer.extractHandlerName (expr : Node) : String :=
  match expr with
  | .Ident name => name
  | .SelectorExpr (.Ident x) sel => x ++ "." ++ sel
  | .CallExpr line fn args => GetCallName (.CallExpr line fn args)
  | _ => ""

/-- The callback of `ast.Inspect` in `ChiDiscoverer.findGroups`: a call
`r.Route("/prefix", func(r chi.Router) { ... })` or `r.Group(...)` of that
shape enters the first name of the literal's first parameter. -/
def ChiDiscoverer.findGroupsVisit (n : Node) (groups : List (String × ChiGroupInfo)) :
    List (String × ChiGroupInfo) :=
  match n with
  | .CallExpr line fn args =>
    let callName := GetCallName (.CallExpr line fn args)
    if !stringsHasSuffix callName ".Route" && !stringsHasSuffix callName ".Group" then groups
    else
      match args with
      | arg :: .FuncLit params _ :: _ =>
        let groupPrefix := GetStringValue arg
        match params with
        | (routerVarName :: _) :: _ =>
          (routerVarName, { Prefix := groupPrefix, VarName := routerVarName }) :: groups
        | _ => groups
      | _ => groups
  | _ => groups

/-- All Chi `Route()` and `Group()` calls: `ChiDiscoverer.findGroups`. -/
def ChiDiscoverer.findGroups (source : ParsedSource) : List (String × ChiGroupInfo) :=
  (Inspect (fun n groups => (ChiDiscoverer.findGroupsVisit n groups, 0)) source.AST []).1

/-- Creates an endpoint from a route call: `ChiDiscoverer.createEndpoint`; the
handler is the second argument and `Extract` gets no middleware. -/
def ChiDiscoverer.createEndpoint (call : Node) (source : ParsedSource)
    (groups : List (String × ChiGroupInfo)) (receiverVar : String)
    (methods : List HTTPMethod) : Option Endpoint :=
  match call with
  | .CallExpr _ _ (arg :: handler :: _) =>
    let route := GetStringValue arg
    if route = "" then none
    else
      let handlerName := ChiDiscoverer.extractHandlerName handler
      let groupPrefix := match groups.lookup receiverVar with
        | some g => g.Prefix
        | none => ""
      let auth := ChiExtractor.Extract [] source
      some
        { Route := route, Methods := methods, FilePath := source.FilePath,
          LineNumber := GetLineNumber call, Framework := FrameworkChi,
          EndpointType := EndpointTypeFunction, FunctionName := handlerName,
          Authorization := auth, RouterPrefix := groupPrefix }
  | _ => none

/-- Extracts an endpoint from a route registration call:
`ChiDiscoverer.extractEndpoint`, with the number of leading arguments it
removes from the call (one in the `Method`/`MethodFunc` case). -/
def ChiDiscoverer.extractEndpoint (call : Node) (source : ParsedSource)
    (groups : List (String × ChiGroupInfo)) : Option Endpoint × Nat :=
  match call with
  | .CallExpr line fn args =>
    let callName := GetCallName call
    match stringsSplit callName '.' with
    | receiverVar :: methodName :: _ =>
      match chiRouteMethods methodName with
      | some httpMethod =>
        (ChiDiscoverer.createEndpoint call source groups receiverVar [httpMethod], 0)
      | none =>
        if (methodName = "Method" ∨ methodName = "MethodFunc") ∧ args.length ≥ 2 then
          let methodStr := match args with
            | arg :: _ => GetStringValue arg
            | [] => ""
          let found : Option HTTPMethod :=
            match chiRouteMethods (stringsTitle (stringsToLower methodStr)) with
            | some httpMethod => some httpMethod
            | none => upperCaseMethods methodStr
          match found with
          | none => (none, 0)
          | some httpMethod =>
            (ChiDiscoverer.createEndpoint (.CallExpr line fn (args.drop 1)) source groups
              receiverVar [httpMethod], 1)
        else (none, 0)
    | _ => (none, 0)
  | _ => (none, 0)

/-- The `ast.Inspect` walk of `ChiDiscoverer.Discover`: the endpoints found and
the tree as the walk leaves it. -/
def ChiDiscoverer.inspectRoutes (source : ParsedSource) : List Endpoint × Node :=
  let groups := ChiDiscoverer.findGroups source
  Inspect
    (fun n endpoints =>
      match n with
      | .CallExpr line fn args =>
        match ChiDiscoverer.extractEndpoint (.CallExpr line fn args) source groups with
        | (some endpoint, k) => (endpoints ++ [endpoint], k)
        | (none, k) => (endpoints, k)
      | _ => (endpoints, 0))
    source.AST []

/-- All Chi endpoints in the source: `ChiDiscoverer.Discover`; the error is
always nil. -/
def ChiDiscoverer.Discover (source : ParsedSource) : List Endpoint × Option String :=
  ((ChiDiscoverer.inspectRoutes source).1, none)

/-! ## discovery/nethttp.go -/

/-- The `CanHandle` of net/http: the source imports `net/http`. -/
def NetHTTPDiscoverer.CanHandle (source : ParsedSource) : Bool :=
  source.HasImport "net/http"

/-- The function name of a handler argument:
`NetHTTPDiscoverer.extractHandlerName`. -/
def NetHTTPDiscoverer.extractHandlerName (expr : Node) : String :=
  match expr with
  | .Ident name => name
  | .SelectorExpr (.Ident x) sel => x ++ "." ++ sel
  | .FuncLit _ _ => "<anonymous>"
  | .CallExpr line fn args => GetCallName (.CallExpr line fn args)
  | _ => ""

/-- Extracts an endpoint from a route registration call:
`NetHTTPDiscoverer.extractEndpoint`; it leaves the call as it is. -/
def NetHTTPDiscoverer.extractEndpoint (call : Node) (source : ParsedSource) :
    Option Endpoint :=
  match call with
  | .CallExpr _ _ args =>
    let callName := GetCallName call
    let isHandleFunc := stringsHasSuffix callName ".HandleFunc" || callName = "HandleFunc"
    let isHandle := stringsHasSuffix callName ".Handle" || callName = "Handle"
    if !isHandleFunc && !isHandle then none
    else
      match args with
      | arg :: handler :: _ =>
        let route := GetStringValue arg
        if route = "" then none
        else
          let handlerName := NetHTTPDiscoverer.extractHandlerName handler
          let methods := [MethodGET, MethodPOST, MethodPUT, MethodDELETE, MethodPATCH,
            MethodHEAD, MethodOPTIONS]
          let auth := NetHTTPExtractor.Extract [] source
          some
            { Route := route, Methods := methods, FilePath := source.FilePath,
              LineNumber := GetLineNumber call, Framework := FrameworkNetHTTP,
              EndpointType := EndpointTypeFunction, FunctionName := handlerName,
              Authorization := auth }
      | _ => none
  | _ => none

/-- The `ast.Inspect` walk of `NetHTTPDiscoverer.Discover`: the endpoints found
and the tree as the walk leaves it. -/
def NetHTTPDiscoverer.inspectRoutes (source : ParsedSource) : List Endpoint × Node :=
  Inspect
    (fun n endpoints =>
      match n with
      | .CallExpr line fn args =>
        match NetHTTPDiscoverer.extractEndpoint (.CallExpr line fn args) source with
        | some endpoint => (endpoints ++ [endpoint], 0)
        | none => (endpoints, 0)
      | _ => (endpoints, 0))
    source.AST []

/-- All net/http endpoints in the source: `NetHTTPDiscoverer.Discover`; the
error is always nil. -/
def NetHTTPDiscoverer.Discover (source : ParsedSource) : List Endpoint × Option String :=
  ((NetHTTPDiscoverer.inspectRoutes source).1, none)

/-! ## Specification-side definitions -/

/-- Keeps every item only at its first occurrence, in order. -/
def dedupKeepFirst : List String → List String
  | [] => []
  | x :: xs => x :: (dedupKeepFirst xs).filter (fun y => y ≠ x)

/-- The enabled-rule filter of the engine as a predicate on a rule ID: every ID
passes a nil list, and exactly the listed IDs pass a non-nil list. -/
def ruleEnabled (enabled : Option (List String)) (id : String) : Bool :=
  match enabled with
  | none => true
  | some ids => decide (id ∈ ids)

/-- The findings of one endpoint under an enabled-rule list: the findings of
the eight rules in registration order AP001 to AP008, those of a rule whose ID
does not pass the filter left out. -/
def enabledFindings (enabled : Option (List String)) (endpoint : Endpoint) : List Finding :=
  (if ruleEnabled enabled "AP001" then AP001PublicWithoutIntent.Evaluate endpoint else []) ++
  (if ruleEnabled enabled "AP002" then AP002AnonymousOnWrite.Evaluate endpoint else []) ++
  (if ruleEnabled enabled "AP003" then AP003AuthConflict.Evaluate endpoint else []) ++
  (if ruleEnabled enabled "AP004" then AP004MissingAuthWrites.Evaluate endpoint else []) ++
  (if ruleEnabled enabled "AP005" then AP005ExcessiveRoles.Evaluate endpoint else []) ++
  (if ruleEnabled enabled "AP006" then AP006WeakRoleNaming.Evaluate endpoint else []) ++
  (if ruleEnabled enabled "AP007" then AP007SensitiveKeywords.Evaluate endpoint else []) ++
  (if ruleEnabled enabled "AP008" then AP008EndpointWithoutAuth.Evaluate endpoint else [])

/-- A string without its trailing slash, when it has one. -/
def trimTrailingSlash (s : String) : String :=
  match s.data.reverse with
  | '/' :: rest => ⟨rest.reverse⟩
  | _ => s

/-- A string with a slash put in front, unless it starts with one. -/
def enforceLeadingSlash (s : String) : String :=
  match s.data with
  | '/' :: _ => s
  | _ => "/" ++ s

/-- The full route as the data model words it: the prefix with its trailing
slash trimmed, concatenated with the route with a leading slash enforced. -/
def fullRouteSpec (routerPrefix route : String) : String :=
  trimTrailingSlash routerPrefix ++ enforceLeadingSlash route

/-- The Gin scenario file, as parsed (source line, then text):

    1  package main
    3  import "github.com/gin-gonic/gin"
    5  func main() {
    6      r := gin.Default()
    7      api := r.Group("/api/v1", authMiddleware)
    8      api.GET("/users", listUsers)
    9      api.POST("/users", publicAccess, createUser)
    10 }

The outer `Other` is the file (package name, the declaration of the imports,
function declaration); the function declaration holds its name, its type and
its body. -/
def ginGroupScenario : ParsedSource :=
  { FilePath := "main.go"
    Imports := [("github.com/gin-gonic/gin", "gin")]
    AST := .Other [.Ident "main",
      .Other [.Other [.BasicLit "STRING" "github.com/gin-gonic/gin"]],
      .Other [.Ident "main", .Other [], .Other [
        .AssignStmt [.Ident "r"]
          [.CallExpr 6 (.SelectorExpr (.Ident "gin") "Default") []],
        .AssignStmt [.Ident "api"]
          [.CallExpr 7 (.SelectorExpr (.Ident "r") "Group")
            [.BasicLit "STRING" "/api/v1", .Ident "authMiddleware"]],
        .Other [.CallExpr 8 (.SelectorExpr (.Ident "api") "GET")
          [.BasicLit "STRING" "/users", .Ident "listUsers"]],
        .Other [.CallExpr 9 (.SelectorExpr (.Ident "api") "POST")
          [.BasicLit "STRING" "/users", .Ident "publicAccess", .Ident "createUser"]]]]] }

mutual
/-- The nodes of a tree in the order in which `Inspect` hands them to its
callback, when the callback removes `k n` leading arguments from a call `n`. -/
def walkNodes (k : Node → Nat) : Node → List Node
  | .Ident name => [.Ident name]
  | .BasicLit kind value => [.BasicLit kind value]
  | .SelectorExpr x sel => .SelectorExpr x sel :: walkNodes k x
  | .CallExpr line fn args =>
      .CallExpr line fn args ::
        (walkNodes k fn ++ walkList k args (k (.CallExpr line fn args)))
  | .FuncLit params body => .FuncLit params body :: walkList k body 0
  | .AssignStmt lhs rhs => .AssignStmt lhs rhs :: (walkList k lhs 0 ++ walkList k rhs 0)
  | .Other children => .Other children :: walkList k children 0
/-- The nodes visited in a list of children, the first `d` of which were
removed. -/
def walkList (k : Node → Nat) : List Node → Nat → List Node
  | [], _ => []
  | _ :: ns, d + 1 => walkList k ns d
  | n :: ns, 0 => walkNodes k n ++ walkList k ns 0
end

/-- An expression is a string literal. -/
def isStringLiteral (n : Node) : Prop :=
  ∃ value, n = .BasicLit "STRING" value

/-- A file that imports both Gin and net/http and registers one route with
`Handle` (source line, then text):

    1  package main
    3  import (
    4      "net/http"
    5      "github.com/gin-gonic/gin"
    6  )
    8  func main() {
    9      r := gin.Default()
    10     r.Handle("GET", "/x", h)
    11 }
-/
def handleScenario : ParsedSource :=
  { FilePath := "main.go"
    Imports := [("net/http", "http"), ("github.com/gin-gonic/gin", "gin")]
    AST := .Other [.Ident "main",
      .Other [.Other [.BasicLit "STRING" "net/http"],
              .Other [.BasicLit "STRING" "github.com/gin-gonic/gin"]],
      .Other [.Ident "main", .Other [], .Other [
        .AssignStmt [.Ident "r"]
          [.CallExpr 9 (.SelectorExpr (.Ident "gin") "Default") []],
        .Other [.CallExpr 10 (.SelectorExpr (.Ident "r") "Handle")
          [.BasicLit "STRING" "GET", .BasicLit "STRING" "/x", .Ident "h"]]]]] }

/-- An import path is the root path or lies under it as a package namespace
(the root followed by a slash). -/
def underNamespace (root importPath : String) : Bool :=
  decide (importPath = root) || stringsHasPrefix importPath (root ++ "/")

/-- The detection contract as worded: the import table holds the framework's
root path or a path under it. -/
def canHandleSpec (root : String) (imports : List (String × String)) : Bool :=
  imports.any (fun entry => underNamespace root entry.1)

/-- A file with a group made from a group, for a framework whose router
constructor is `pkg.ctor` and whose GET method is named `verb` (source line,
then text):

    5  func main() {
    6      r := pkg.ctor()
    7      a := r.Group("/api", authMw)
    8      b := a.Group("/v1")
    9      b.verb("/users", h)
    10 }
-/
def nestedGroupScenario (importPath pkg ctor verb : String) : ParsedSource :=
  { FilePath := "main.go"
    Imports := [(importPath, pkg)]
    AST := .Other [.Ident "main",
      .Other [.Other [.BasicLit "STRING" importPath]],
      .Other [.Ident "main", .Other [], .Other [
        .AssignStmt [.Ident "r"]
          [.CallExpr 6 (.SelectorExpr (.Ident pkg) ctor) []],
        .AssignStmt [.Ident "a"]
          [.CallExpr 7 (.SelectorExpr (.Ident "r") "Group")
            [.BasicLit "STRING" "/api", .Ident "authMw"]],
        .AssignStmt [.Ident "b"]
          [.CallExpr 8 (.SelectorExpr (.Ident "a") "Group") [.BasicLit "STRING" "/v1"]],
        .Other [.CallExpr 9 (.SelectorExpr (.Ident "b") verb)
          [.BasicLit "STRING" "/users", .Ident "h"]]]]] }

/-- A Chi file whose router gets its middleware through `Use` (source line,
then text):

    5  func main() {
    6      r := chi.NewRouter()
    7      r.Use(AuthMiddleware)
    8      r.Get("/users", h)
    9      r.Post("/users", h)
    10 }
-/
def chiUseScenario : ParsedSource :=
  { FilePath := "main.go"
    Imports := [("github.com/go-chi/chi/v5", "chi")]
    AST := .Other [.Ident "main",
      .Other [.Other [.BasicLit "STRING" "github.com/go-chi/chi/v5"]],
      .Other [.Ident "main", .Other [], .Other [
        .AssignStmt [.Ident "r"]
          [.CallExpr 6 (.SelectorExpr (.Ident "chi") "NewRouter") []],
        .Other [.CallExpr 7 (.SelectorExpr (.Ident "r") "Use") [.Ident "AuthMiddleware"]],
        .Other [.CallExpr 8 (.SelectorExpr (.Ident "r") "Get")
          [.BasicLit "STRING" "/users", .Ident "h"]],
        .Other [.CallExpr 9 (.SelectorExpr (.Ident "r") "Post")
          [.BasicLit "STRING" "/users", .Ident "h"]]]]] }

/-- A middleware argument written as a name, a qualified name, or a call of one
of these without arguments: `Auth`, `mw.Auth`, `Auth()`, `mw.Auth()`. -/
def isPlainMiddleware : Node → Bool
  | .Ident _ => true
  | .SelectorExpr (.Ident _) _ => true
  | .CallExpr _ (.Ident _) [] => true
  | .CallExpr _ (.SelectorExpr (.Ident _) _) [] => true
  | _ => false

/-- An expression statement `recv.Use(mw...)` on a variable `recv`, every
argument a plain middleware. -/
def isUseStatement : Node → Bool
  | .Other [.CallExpr _ (.SelectorExpr (.Ident recv) sel) args] =>
    decide (sel = "Use") && decide ('.' ∉ recv.data) && args.all isPlainMiddleware
  | _ => false

mutual
/-- The tree without its `Use` statements: they are taken out of every list of
statements that the tree reaches through nodes of kind `Other` (the file, its
function declarations and their blocks). -/
def eraseUse : Node → Node
  | .Other children => .Other (eraseUseList children)
  | .Ident name => .Ident name
  | .BasicLit kind value => .BasicLit kind value
  | .SelectorExpr x sel => .SelectorExpr x sel
  | .CallExpr line fn args => .CallExpr line fn args
  | .FuncLit params body => .FuncLit params body
  | .AssignStmt lhs rhs => .AssignStmt lhs rhs
/-- A list of statements without its `Use` statements. -/
def eraseUseList : List Node → List Node
  | [] => []
  | n :: rest =>
    if isUseStatement n then eraseUseList rest else eraseUse n :: eraseUseList rest
end

/-- C1: for every endpoint, `Classify` is the ordered decision (1) allowsAnonymous
gives public; (2) else no requiresAuth and empty roles, scopes, permissions and
policies gives public; (3) else a non-empty policies, permissions or scopes gives
policy_restricted; (4) else non-empty roles gives role_restricted; (5) else
requiresAuth or non-empty authDependencies gives authenticated; (6) else public;
and the result is one of the four classification values. -/
theorem classify_ordered_decision (e : Endpoint) :
    Classifier.Classify e =
      (if e.Authorization.AllowsAnonymous = true then ClassificationPublic
       else if e.Authorization.RequiresAuth = false ∧ e.Authorization.Roles = [] ∧
          e.Authorization.Scopes = [] ∧ e.Authorization.Permissions = [] ∧
          e.Authorization.Policies = [] then ClassificationPublic
       else if e.Authorization.Policies ≠ [] ∨ e.Authorization.Permissions ≠ [] ∨
          e.Authorization.Scopes ≠ [] then ClassificationPolicyRestricted
       else if e.Authorization.Roles ≠ [] then ClassificationRoleRestricted
       else if e.Authorization.RequiresAuth = true ∨
          e.Authorization.AuthDependencies ≠ [] then ClassificationAuthenticated
       else ClassificationPublic) ∧
    (Classifier.Classify e = ClassificationPublic ∨
      Classifier.Classify e = ClassificationAuthenticated ∨
      Classifier.Classify e = ClassificationRoleRestricted ∨
      Classifier.Classify e = ClassificationPolicyRestricted) := by
  obtain ⟨_, _, _, _, _, _, _, _, ⟨ra, aa, roles, scopes, perms, pols, deps, inh, src⟩,
    _, _, _, _⟩ := e
  cases aa <;> cases ra <;> cases roles <;> cases scopes <;> cases perms <;>
    cases pols <;> cases deps <;>
    simp [Classifier.Classify, AuthorizationInfo.HasSpecificRequirements]

/-- C2: an authorization record with allowsAnonymous set is classified public,
whatever its other fields are. -/
theorem classify_anonymous_public (e : Endpoint)
    (h : e.Authorization.AllowsAnonymous = true) :
    Classifier.Classify e = ClassificationPublic := by
  simp [Classifier.Classify, h]

theorem classify_anonymous_public_witness :
    Classifier.Classify
        { Route := "/submit", Methods := [MethodPOST],
          Authorization :=
            { AllowsAnonymous := true, RequiresAuth := true, Roles := ["admin"],
              Scopes := ["write:users"], Permissions := ["IsAdminUser"],
              Policies := ["AdminPolicy"], AuthDependencies := ["authMiddleware"],
              Inherited := true, Source := "router" } } =
      ClassificationPublic :=
  classify_anonymous_public _ rfl

/-! ## Merging authorization records -/

/-- C3: for every parent and every child with allowsAnonymous set, merging with
override gives the anonymous-only record: allowsAnonymous true, requiresAuth
false, all five lists empty, inherited false, and the child's source. -/
theorem merge_override_anonymous_only (parent child : AuthorizationInfo)
    (h : child.AllowsAnonymous = true) :
    parent.Merge child true =
      { RequiresAuth := false, AllowsAnonymous := true, Roles := [], Scopes := [],
        Permissions := [], Policies := [], AuthDependencies := [], Inherited := false,
        Source := child.Source } := by
  simp [AuthorizationInfo.Merge, h]

theorem merge_override_anonymous_only_witness :
    AuthorizationInfo.Merge
        { RequiresAuth := true, Roles := ["admin"], Scopes := ["read:users"],
          Permissions := ["IsAdminUser"], Policies := ["AdminPolicy"],
          AuthDependencies := ["authMiddleware"], Inherited := true, Source := "router" }
        { AllowsAnonymous := true, RequiresAuth := true, Roles := ["editor"],
          Source := "middleware" } true =
      { RequiresAuth := false, AllowsAnonymous := true, Roles := [], Scopes := [],
        Permissions := [], Policies := [], AuthDependencies := [], Inherited := false,
        Source := "middleware" } :=
  merge_override_anonymous_only _ _ rfl

/-- C4: outside the anonymous-override case, the merged requiresAuth is the OR
of both; the merged allowsAnonymous is, under override, the child's value when
the child has any of requiresAuth, allowsAnonymous, roles, scopes, permissions,
policies or authDependencies set and the parent's value otherwise, and, without
override, the AND of both. -/
theorem merge_requiresAuth_allowsAnonymous (parent child : AuthorizationInfo)
    (override : Bool) (h : ¬ (override = true ∧ child.AllowsAnonymous = true)) :
    (parent.Merge child override).RequiresAuth =
        (parent.RequiresAuth || child.RequiresAuth) ∧
    (parent.Merge child override).AllowsAnonymous =
      (if override = true then
        (if child.RequiresAuth = true ∨ child.AllowsAnonymous = true ∨ child.Roles ≠ [] ∨
            child.Scopes ≠ [] ∨ child.Permissions ≠ [] ∨ child.Policies ≠ [] ∨
            child.AuthDependencies ≠ [] then child.AllowsAnonymous
         else parent.AllowsAnonymous)
       else (parent.AllowsAnonymous && child.AllowsAnonymous)) := by
  obtain ⟨ra, aa, roles, scopes, perms, pols, deps, inh, src⟩ := child
  cases override <;> cases aa <;> cases ra <;> cases roles <;> cases scopes <;>
    cases perms <;> cases pols <;> cases deps <;>
    simp_all [AuthorizationInfo.Merge]

theorem merge_requiresAuth_allowsAnonymous_witness :
    (AuthorizationInfo.Merge { AllowsAnonymous := true, Source := "router" }
        { RequiresAuth := true, AuthDependencies := ["authMiddleware"] } true).RequiresAuth =
        (false || true) ∧
    (AuthorizationInfo.Merge { AllowsAnonymous := true, Source := "router" }
        { RequiresAuth := true, AuthDependencies := ["authMiddleware"] } true).AllowsAnonymous =
      (if true = true then
        (if true = true ∨ false = true ∨ ([] : List String) ≠ [] ∨
            ([] : List String) ≠ [] ∨ ([] : List String) ≠ [] ∨ ([] : List String) ≠ [] ∨
            ["authMiddleware"] ≠ [] then false
         else true)
       else (true && false)) :=
  merge_requiresAuth_allowsAnonymous
    { AllowsAnonymous := true, Source := "router" }
    { RequiresAuth := true, AuthDependencies := ["authMiddleware"] } true (by decide)

/-- C6: outside the anonymous-override case, the merged inherited flag is false
when the child requires auth and the parent's flag otherwise, and the merged
source is the child's source when non-empty and the parent's otherwise. -/
theorem merge_inherited_source (parent child : AuthorizationInfo) (override : Bool)
    (h : ¬ (override = true ∧ child.AllowsAnonymous = true)) :
    (parent.Merge child override).Inherited =
        (if child.RequiresAuth = true then false else parent.Inherited) ∧
    (parent.Merge child override).Source =
        (if child.Source ≠ "" then child.Source else parent.Source) := by
  have hc : (override && child.AllowsAnonymous) = false := by
    cases override <;> cases hA : child.AllowsAnonymous <;> simp_all
  by_cases hs : child.Source = "" <;> simp [AuthorizationInfo.Merge, hc, hs]

theorem merge_inherited_source_witness :
    (AuthorizationInfo.Merge { RequiresAuth := true, Inherited := true, Source := "router" }
        { Roles := ["admin"] } false).Inherited = (if false = true then false else true) ∧
    (AuthorizationInfo.Merge { RequiresAuth := true, Inherited := true, Source := "router" }
        { Roles := ["admin"] } false).Source = (if ("" : String) ≠ "" then "" else "router") :=
  merge_inherited_source { RequiresAuth := true, Inherited := true, Source := "router" }
    { Roles := ["admin"] } false (by decide)

/-! ### The list union of `mergeStringSlices` -/

theorem mem_dedupKeepFirst (l : List String) (y : String) :
    y ∈ dedupKeepFirst l ↔ y ∈ l := by
  induction l with
  | nil => simp [dedupKeepFirst]
  | cons x xs ih =>
    by_cases hy : y = x
    · simp [dedupKeepFirst, hy]
    · simp [dedupKeepFirst, hy, List.mem_filter, ih]

theorem nodup_dedupKeepFirst (l : List String) : (dedupKeepFirst l).Nodup := by
  induction l with
  | nil => simp [dedupKeepFirst]
  | cons x xs ih =>
    simp only [dedupKeepFirst, List.nodup_cons]
    exact ⟨by simp [List.mem_filter], ih.filter _⟩

theorem dedupKeepFirst_append (a b : List String) :
    dedupKeepFirst (a ++ b) =
      dedupKeepFirst a ++ (dedupKeepFirst b).filter (fun y => decide (y ∉ a)) := by
  induction a with
  | nil => simp [dedupKeepFirst]
  | cons x xs ih =>
    have hcons : dedupKeepFirst (x :: xs ++ b) =
        x :: (dedupKeepFirst (xs ++ b)).filter (fun y => y ≠ x) := rfl
    rw [hcons, ih]
    simp only [dedupKeepFirst, List.filter_append, List.filter_filter, List.cons_append]
    congr 2
    apply List.filter_congr
    intro y _
    by_cases hy : y = x <;> simp [hy]

/-- The loop invariant of `mergeStringSlices`: when `seen` marks exactly the
items of `result`, a loop over `xs` appends the first occurrences in `xs` of the
items not in `result`, and `seen` again marks exactly the items of the result. -/
theorem mergeLoop_spec (xs : List String) :
    ∀ (seen : StringSet) (result : List String),
      (∀ k, seen k = true ↔ k ∈ result) →
      (mergeLoop xs (seen, result)).2 =
          result ++ (dedupKeepFirst xs).filter (fun y => decide (y ∉ result)) ∧
      (∀ k, (mergeLoop xs (seen, result)).1 k = true ↔
          k ∈ (mergeLoop xs (seen, result)).2) := by
  induction xs with
  | nil => intro seen result h; simpa [mergeLoop, dedupKeepFirst] using h
  | cons s rest ih =>
    intro seen result h
    by_cases hs : seen s = true
    · have hmem : s ∈ result := (h s).1 hs
      have hstep : mergeLoop (s :: rest) (seen, result) = mergeLoop rest (seen, result) := by
        simp [mergeLoop, hs]
      rw [hstep]
      refine ⟨?_, (ih seen result h).2⟩
      rw [(ih seen result h).1]
      simp only [dedupKeepFirst, List.filter_cons, hmem, not_true_eq_false, decide_False,
        List.filter_filter]
      congr 1
      apply List.filter_congr
      intro y _
      by_cases hy : y = s <;> simp [hy, hmem]
    · have hnot : s ∉ result := fun hm => hs ((h s).2 hm)
      have hstep : mergeLoop (s :: rest) (seen, result) =
          mergeLoop rest (seen.set s, result ++ [s]) := by
        simp [mergeLoop, hs]
      have hinv : ∀ k, StringSet.set seen s k = true ↔ k ∈ result ++ [s] := by
        intro k
        by_cases hk : k = s
        · simp [StringSet.set, hk]
        · simp [StringSet.set, hk, h k]
      rw [hstep]
      refine ⟨?_, (ih _ _ hinv).2⟩
      rw [(ih _ _ hinv).1]
      simp only [dedupKeepFirst, List.filter_cons, hnot, not_false_eq_true, decide_True,
        List.filter_filter, List.append_assoc, List.singleton_append, if_true]
      congr 2
      apply List.filter_congr
      intro y _
      by_cases hy : y = s <;> simp [hy, and_comm]

theorem mergeStringSlices_eq (a b : List String) :
    mergeStringSlices a b = dedupKeepFirst (a ++ b) := by
  have h0 : ∀ k, StringSet.empty k = true ↔ k ∈ ([] : List String) := by
    intro k; simp [StringSet.empty]
  have h1 := mergeLoop_spec a StringSet.empty [] h0
  have e1 : (mergeLoop a (StringSet.empty, [])).2 = dedupKeepFirst a := by
    rw [h1.1]; simp
  have h2 := mergeLoop_spec b (mergeLoop a (StringSet.empty, [])).1
    (mergeLoop a (StringSet.empty, [])).2 h1.2
  unfold mergeStringSlices
  rw [h2.1, e1, dedupKeepFirst_append]
  congr 1
  apply List.filter_congr
  intro y _
  simp [mem_dedupKeepFirst]

/-- C5: outside the anonymous-override case each of roles, scopes, permissions,
policies and authDependencies of the merge is the parent's items followed by the
child's items, every item kept only at its first occurrence; and for all lists
`mergeStringSlices a b` is that keep-first deduplication of `a ++ b`, has no
duplicates, contains exactly the items of `a` or `b`, and is the distinct items
of `a` followed by the distinct items of `b` that are not in `a`. -/
theorem merge_lists_keep_first_union (parent child : AuthorizationInfo) (override : Bool)
    (h : ¬ (override = true ∧ child.AllowsAnonymous = true)) :
    ((parent.Merge child override).Roles = dedupKeepFirst (parent.Roles ++ child.Roles) ∧
      (parent.Merge child override).Scopes = dedupKeepFirst (parent.Scopes ++ child.Scopes) ∧
      (parent.Merge child override).Permissions =
        dedupKeepFirst (parent.Permissions ++ child.Permissions) ∧
      (parent.Merge child override).Policies =
        dedupKeepFirst (parent.Policies ++ child.Policies) ∧
      (parent.Merge child override).AuthDependencies =
        dedupKeepFirst (parent.AuthDependencies ++ child.AuthDependencies)) ∧
    (∀ a b : List String,
      mergeStringSlices a b = dedupKeepFirst (a ++ b) ∧
      (mergeStringSlices a b).Nodup ∧
      (∀ x, x ∈ mergeStringSlices a b ↔ x ∈ a ∨ x ∈ b) ∧
      mergeStringSlices a b =
        dedupKeepFirst a ++ (dedupKeepFirst b).filter (fun y => decide (y ∉ a))) := by
  have hc : (override && child.AllowsAnonymous) = false := by
    cases override <;> cases hA : child.AllowsAnonymous <;> simp_all
  refine ⟨?_, ?_⟩
  · simp [AuthorizationInfo.Merge, hc, mergeStringSlices_eq]
  · intro a b
    refine ⟨mergeStringSlices_eq a b, ?_, ?_, ?_⟩
    · rw [mergeStringSlices_eq]; exact nodup_dedupKeepFirst _
    · intro x; rw [mergeStringSlices_eq, mem_dedupKeepFirst, List.mem_append]
    · rw [mergeStringSlices_eq, dedupKeepFirst_append]

theorem merge_lists_keep_first_union_witness :
    (AuthorizationInfo.Merge
        { RequiresAuth := true, Roles := ["admin", "editor", "admin"],
          AuthDependencies := ["authMiddleware"] }
        { RequiresAuth := true, Roles := ["viewer", "editor", "viewer"],
          AuthDependencies := ["jwtMiddleware", "authMiddleware"] } true).Roles =
      dedupKeepFirst (["admin", "editor", "admin"] ++ ["viewer", "editor", "viewer"]) :=
  (merge_lists_keep_first_union
    { RequiresAuth := true, Roles := ["admin", "editor", "admin"],
      AuthDependencies := ["authMiddleware"] }
    { RequiresAuth := true, Roles := ["viewer", "editor", "viewer"],
      AuthDependencies := ["jwtMiddleware", "authMiddleware"] } true (by decide)).1.1

/-! ## Rules -/

theorem isWriteEndpoint_of_write_methods (e : Endpoint) (hne : e.Methods ≠ [])
    (hw : ∀ m ∈ e.Methods,
      m = MethodPOST ∨ m = MethodPUT ∨ m = MethodDELETE ∨ m = MethodPATCH) :
    e.IsWriteEndpoint = true := by
  unfold Endpoint.IsWriteEndpoint
  rw [List.any_eq_true]
  obtain ⟨m, hm⟩ := List.exists_mem_of_ne_nil _ hne
  refine ⟨m, hm, ?_⟩
  rcases hw m hm with h | h | h | h <;> simp [HTTPMethod.IsWriteMethod, h]

/-- C7: an endpoint whose method list is non-empty and holds only POST, PUT,
DELETE or PATCH, that allows anonymous access and is classified public, gets
one AP002 finding and no AP004 finding. -/
theorem ap002_fires_ap004_silent (e : Endpoint) (hne : e.Methods ≠ [])
    (hw : ∀ m ∈ e.Methods,
      m = MethodPOST ∨ m = MethodPUT ∨ m = MethodDELETE ∨ m = MethodPATCH)
    (ha : e.Authorization.AllowsAnonymous = true)
    (hc : e.Classification = ClassificationPublic) :
    (∃ f, AP002AnonymousOnWrite.Evaluate e = [f] ∧ f.RuleID = "AP002" ∧ f.Endpoint = e) ∧
    AP004MissingAuthWrites.Evaluate e = [] := by
  have hwr := isWriteEndpoint_of_write_methods e hne hw
  constructor
  · simp [AP002AnonymousOnWrite.Evaluate, hwr, ha, createFinding, AP002AnonymousOnWrite.ID]
  · simp [AP004MissingAuthWrites.Evaluate, hwr, ha, hc]

theorem ap002_fires_ap004_silent_witness :
    (∃ f, AP002AnonymousOnWrite.Evaluate
        { Route := "/api/submit", Methods := [MethodPOST, MethodDELETE],
          Classification := ClassificationPublic,
          Authorization := { AllowsAnonymous := true } } = [f] ∧
      f.RuleID = "AP002" ∧
      f.Endpoint =
        { Route := "/api/submit", Methods := [MethodPOST, MethodDELETE],
          Classification := ClassificationPublic,
          Authorization := { AllowsAnonymous := true } }) ∧
    AP004MissingAuthWrites.Evaluate
        { Route := "/api/submit", Methods := [MethodPOST, MethodDELETE],
          Classification := ClassificationPublic,
          Authorization := { AllowsAnonymous := true } } = [] :=
  ap002_fires_ap004_silent
    { Route := "/api/submit", Methods := [MethodPOST, MethodDELETE],
      Classification := ClassificationPublic,
      Authorization := { AllowsAnonymous := true } }
    (by decide) (by decide) rfl rfl

/-- C8: an endpoint classified public whose authorization has allowsAnonymous
and requiresAuth false and all five lists empty gets exactly one finding from
AP001, with rule ID AP001, and exactly one from AP008, with rule ID AP008. -/
theorem ap001_ap008_fire_on_no_auth (e : Endpoint)
    (hc : e.Classification = ClassificationPublic)
    (ha : e.Authorization.AllowsAnonymous = false)
    (hr : e.Authorization.RequiresAuth = false)
    (hroles : e.Authorization.Roles = []) (hscopes : e.Authorization.Scopes = [])
    (hperms : e.Authorization.Permissions = []) (hpols : e.Authorization.Policies = [])
    (hdeps : e.Authorization.AuthDependencies = []) :
    (∃ f, AP001PublicWithoutIntent.Evaluate e = [f] ∧ f.RuleID = "AP001") ∧
    (∃ g, AP008EndpointWithoutAuth.Evaluate e = [g] ∧ g.RuleID = "AP008") := by
  constructor
  · simp [AP001PublicWithoutIntent.Evaluate, AuthorizationInfo.HasSpecificRequirements, hc,
      ha, hr, hroles, hscopes, hperms, hpols, hdeps, createFinding,
      AP001PublicWithoutIntent.ID]
  · simp [AP008EndpointWithoutAuth.Evaluate, AuthorizationInfo.HasSpecificRequirements, hc,
      ha, hr, hroles, hscopes, hperms, hpols, hdeps, createFinding,
      AP008EndpointWithoutAuth.ID]

theorem ap001_ap008_fire_on_no_auth_witness :
    (∃ f, AP001PublicWithoutIntent.Evaluate
        { Route := "/users", Methods := [MethodGET], Framework := FrameworkGin,
          Classification := ClassificationPublic,
          Authorization := NewAuthorizationInfo } = [f] ∧ f.RuleID = "AP001") ∧
    (∃ g, AP008EndpointWithoutAuth.Evaluate
        { Route := "/users", Methods := [MethodGET], Framework := FrameworkGin,
          Classification := ClassificationPublic,
          Authorization := NewAuthorizationInfo } = [g] ∧ g.RuleID = "AP008") :=
  ap001_ap008_fire_on_no_auth
    { Route := "/users", Methods := [MethodGET], Framework := FrameworkGin,
      Classification := ClassificationPublic, Authorization := NewAuthorizationInfo }
    rfl rfl rfl rfl rfl rfl rfl rfl

/-- C9: for the group record with requiresAuth and inherited set and the route
record with allowsAnonymous set, the endpoint whose authorization is the
override merge of the two gets no AP003 finding: the merge clears inherited,
which AP003 requires. -/
theorem ap003_silent_on_override_merge :
    AP003AuthConflict.Evaluate
        { Route := "/users", Methods := [MethodPOST], RouterPrefix := "/api/v1",
          Classification := ClassificationPublic,
          Authorization :=
            AuthorizationInfo.Merge
              { RequiresAuth := true, Inherited := true,
                AuthDependencies := ["authMiddleware"], Source := "middleware" }
              { AllowsAnonymous := true, Source := "middleware" } true } = [] ∧
    (AuthorizationInfo.Merge
        { RequiresAuth := true, Inherited := true,
          AuthDependencies := ["authMiddleware"], Source := "middleware" }
        { AllowsAnonymous := true, Source := "middleware" } true).Inherited = false := by
  decide

/-! ## Rule engine -/

theorem foldl_append_flatMap {α β : Type} (f : α → List β) (xs : List α) :
    ∀ acc : List β, xs.foldl (fun acc x => acc ++ f x) acc = acc ++ xs.flatMap f := by
  induction xs with
  | nil => intro acc; simp
  | cons x xs ih => intro acc; simp [ih, List.append_assoc]

theorem enabledMap_apply (ids : List String) (k : String) :
    ∀ m : StringSet,
      (ids.foldl (fun m id => StringSet.set m id) m) k = (m k || decide (k ∈ ids)) := by
  induction ids with
  | nil => intro m; simp
  | cons id rest ih =>
    intro m
    rw [List.foldl_cons, ih]
    by_cases hk : k = id
    · simp [StringSet.set, hk]
    · simp [StringSet.set, hk]

theorem skip_append (b : Bool) (acc x : List Finding) :
    (if (!b) = true then acc else acc ++ x) = acc ++ (if b = true then x else []) := by
  cases b <;> simp

theorem engine_evaluate_eq (enabled : Option (List String)) (endpoint : Endpoint) :
    (NewEngine enabled).Evaluate endpoint = enabledFindings enabled endpoint := by
  cases enabled with
  | none =>
    simp [Engine.Evaluate, NewEngine, Engine.skips, enabledFindings, ruleEnabled,
      NewAP001PublicWithoutIntent, NewAP002AnonymousOnWrite, NewAP003AuthConflict,
      NewAP004MissingAuthWrites, NewAP005ExcessiveRoles, NewAP006WeakRoleNaming,
      NewAP007SensitiveKeywords, NewAP008EndpointWithoutAuth]
  | some ids =>
    simp only [Engine.Evaluate, NewEngine, Engine.skips, enabledFindings, ruleEnabled,
      NewAP001PublicWithoutIntent, NewAP002AnonymousOnWrite, NewAP003AuthConflict,
      NewAP004MissingAuthWrites, NewAP005ExcessiveRoles, NewAP006WeakRoleNaming,
      NewAP007SensitiveKeywords, NewAP008EndpointWithoutAuth,
      AP001PublicWithoutIntent.ID, AP002AnonymousOnWrite.ID, AP003AuthConflict.ID,
      AP004MissingAuthWrites.ID, AP005ExcessiveRoles.ID, AP006WeakRoleNaming.ID,
      AP007SensitiveKeywords.ID, AP008EndpointWithoutAuth.ID,
      List.foldl_cons, List.foldl_nil, enabledMap_apply, StringSet.empty, Bool.false_or,
      skip_append, List.nil_append, List.append_assoc]

theorem ap001_ruleID (ep : Endpoint) :
    ∀ f ∈ AP001PublicWithoutIntent.Evaluate ep, f.RuleID = "AP001" := by
  intro f hf
  simp only [AP001PublicWithoutIntent.Evaluate] at hf
  split_ifs at hf <;> simp_all [createFinding, AP001PublicWithoutIntent.ID]

theorem ap002_ruleID (ep : Endpoint) :
    ∀ f ∈ AP002AnonymousOnWrite.Evaluate ep, f.RuleID = "AP002" := by
  intro f hf
  simp only [AP002AnonymousOnWrite.Evaluate] at hf
  split_ifs at hf <;> simp_all [createFinding, AP002AnonymousOnWrite.ID]

theorem ap003_ruleID (ep : Endpoint) :
    ∀ f ∈ AP003AuthConflict.Evaluate ep, f.RuleID = "AP003" := by
  intro f hf
  simp only [AP003AuthConflict.Evaluate] at hf
  split_ifs at hf <;> simp_all [createFinding, AP003AuthConflict.ID]

theorem ap004_ruleID (ep : Endpoint) :
    ∀ f ∈ AP004MissingAuthWrites.Evaluate ep, f.RuleID = "AP004" := by
  intro f hf
  simp only [AP004MissingAuthWrites.Evaluate] at hf
  split_ifs at hf <;> simp_all [createFinding, AP004MissingAuthWrites.ID]

theorem ap005_ruleID (ep : Endpoint) :
    ∀ f ∈ AP005ExcessiveRoles.Evaluate ep, f.RuleID = "AP005" := by
  intro f hf
  simp only [AP005ExcessiveRoles.Evaluate] at hf
  split_ifs at hf <;> simp_all [createFinding, AP005ExcessiveRoles.ID]

theorem ap006_ruleID (ep : Endpoint) :
    ∀ f ∈ AP006WeakRoleNaming.Evaluate ep, f.RuleID = "AP006" := by
  intro f hf
  simp only [AP006WeakRoleNaming.Evaluate] at hf
  split_ifs at hf <;> simp_all [createFinding, AP006WeakRoleNaming.ID]

theorem ap007_ruleID (ep : Endpoint) :
    ∀ f ∈ AP007SensitiveKeywords.Evaluate ep, f.RuleID = "AP007" := by
  intro f hf
  simp only [AP007SensitiveKeywords.Evaluate] at hf
  split_ifs at hf <;> simp_all [createFinding, AP007SensitiveKeywords.ID]

theorem ap008_ruleID (ep : Endpoint) :
    ∀ f ∈ AP008EndpointWithoutAuth.Evaluate ep, f.RuleID = "AP008" := by
  intro f hf
  simp only [AP008EndpointWithoutAuth.Evaluate] at hf
  split_ifs at hf <;> simp_all [createFinding, AP008EndpointWithoutAuth.ID]

theorem enabledFindings_ruleID (enabled : Option (List String)) (ep : Endpoint) :
    ∀ f ∈ enabledFindings enabled ep, ruleEnabled enabled f.RuleID = true := by
  intro f hf
  simp only [enabledFindings, List.mem_append] at hf
  rcases hf with ((((((hf | hf) | hf) | hf) | hf) | hf) | hf) | hf <;>
    split_ifs at hf with hid <;> first | cases hf | skip
  · rw [ap001_ruleID ep f hf]; exact hid
  · rw [ap002_ruleID ep f hf]; exact hid
  · rw [ap003_ruleID ep f hf]; exact hid
  · rw [ap004_ruleID ep f hf]; exact hid
  · rw [ap005_ruleID ep f hf]; exact hid
  · rw [ap006_ruleID ep f hf]; exact hid
  · rw [ap007_ruleID ep f hf]; exact hid
  · rw [ap008_ruleID ep f hf]; exact hid

/-- C10: for every endpoint list and every enabled-rule list, `EvaluateAll` of
the new engine is the concatenation, over the endpoints in order, of the
findings of the rules AP001 to AP008 in that order whose ID passes the list;
the engine registers exactly these eight IDs in this order; a nil list keeps
every rule; an empty non-nil list gives no finding; every returned finding has
a rule ID that passes the list, which for a non-nil list means that the ID is
one of its entries. -/
theorem engine_evaluateAll_concat (enabled : Option (List String))
    (endpoints : List Endpoint) :
    (NewEngine enabled).EvaluateAll endpoints = endpoints.flatMap (enabledFindings enabled) ∧
    (NewEngine enabled).rules.map Rule.ID =
      ["AP001", "AP002", "AP003", "AP004", "AP005", "AP006", "AP007", "AP008"] ∧
    (NewEngine none).EvaluateAll endpoints =
      endpoints.flatMap (fun ep =>
        AP001PublicWithoutIntent.Evaluate ep ++ AP002AnonymousOnWrite.Evaluate ep ++
        AP003AuthConflict.Evaluate ep ++ AP004MissingAuthWrites.Evaluate ep ++
        AP005ExcessiveRoles.Evaluate ep ++ AP006WeakRoleNaming.Evaluate ep ++
        AP007SensitiveKeywords.Evaluate ep ++ AP008EndpointWithoutAuth.Evaluate ep) ∧
    (NewEngine (some [])).EvaluateAll endpoints = [] ∧
    (∀ f : Finding, f ∈ (NewEngine enabled).EvaluateAll endpoints →
      ruleEnabled enabled f.RuleID = true) ∧
    (∀ ids : List String, ∀ f : Finding,
      f ∈ (NewEngine (some ids)).EvaluateAll endpoints → f.RuleID ∈ ids) := by
  have hall : ∀ L : Option (List String),
      (NewEngine L).EvaluateAll endpoints = endpoints.flatMap (enabledFindings L) := by
    intro L
    unfold Engine.EvaluateAll
    rw [foldl_append_flatMap (fun ep => (NewEngine L).Evaluate ep) endpoints []]
    simp [engine_evaluate_eq]
  have hid : ∀ (L : Option (List String)) (f : Finding),
      f ∈ (NewEngine L).EvaluateAll endpoints → ruleEnabled L f.RuleID = true := by
    intro L f hf
    rw [hall L, List.mem_flatMap] at hf
    obtain ⟨ep, _, hfe⟩ := hf
    exact enabledFindings_ruleID L ep f hfe
  refine ⟨hall enabled, ?_, ?_, ?_, hid enabled, ?_⟩
  · cases enabled <;> rfl
  · rw [hall none]
    have hnone : enabledFindings none = fun ep =>
        AP001PublicWithoutIntent.Evaluate ep ++ AP002AnonymousOnWrite.Evaluate ep ++
        AP003AuthConflict.Evaluate ep ++ AP004MissingAuthWrites.Evaluate ep ++
        AP005ExcessiveRoles.Evaluate ep ++ AP006WeakRoleNaming.Evaluate ep ++
        AP007SensitiveKeywords.Evaluate ep ++ AP008EndpointWithoutAuth.Evaluate ep := by
      funext ep
      simp [enabledFindings, ruleEnabled]
    rw [hnone]
  · rw [hall (some [])]
    simp [enabledFindings, ruleEnabled]
  · intro ids f hf
    simpa [ruleEnabled] using hid (some ids) f hf

/-! ## Trigger conditions of the rules -/

theorem isWriteEndpoint_iff (e : Endpoint) :
    e.IsWriteEndpoint = true ↔
      ∃ m ∈ e.Methods,
        m = MethodPOST ∨ m = MethodPUT ∨ m = MethodDELETE ∨ m = MethodPATCH := by
  simp [Endpoint.IsWriteEndpoint, List.any_eq_true, HTTPMethod.IsWriteMethod]

theorem ap001_eval (e : Endpoint) :
    AP001PublicWithoutIntent.Evaluate e =
      if e.Classification = ClassificationPublic ∧ e.Authorization.AllowsAnonymous = false ∧
          e.Authorization.RequiresAuth = false ∧ e.Authorization.Roles = [] ∧
          e.Authorization.Scopes = [] ∧ e.Authorization.Permissions = [] ∧
          e.Authorization.Policies = [] ∧ e.Authorization.AuthDependencies = [] then
        [createFinding "AP001" AP001PublicWithoutIntent.Name SeverityHigh e
          ("Endpoint '" ++ e.FullRoute ++ "' is public without explicit authorization intent")
          "Add explicit authorization middleware or mark as intentionally public"]
      else [] := by
  obtain ⟨_, _, _, _, _, _, _, _, ⟨ra, aa, roles, scopes, perms, pols, deps, inh, src⟩,
    cls, _, _, _⟩ := e
  by_cases hc : cls = ClassificationPublic <;>
  cases aa <;> cases ra <;> cases roles <;> cases scopes <;> cases perms <;>
    cases pols <;> cases deps <;>
    simp [AP001PublicWithoutIntent.Evaluate, AuthorizationInfo.HasSpecificRequirements, hc,
      AP001PublicWithoutIntent.ID, AP001PublicWithoutIntent.Severity]

theorem ap004_eval (e : Endpoint) :
    AP004MissingAuthWrites.Evaluate e =
      if e.IsWriteEndpoint = true ∧ e.Classification = ClassificationPublic ∧
          e.Authorization.AllowsAnonymous = false ∧
          e.Authorization.RequiresAuth = false ∧ e.Authorization.Roles = [] ∧
          e.Authorization.Scopes = [] ∧ e.Authorization.Permissions = [] ∧
          e.Authorization.Policies = [] ∧ e.Authorization.AuthDependencies = [] then
        [createFinding "AP004" AP004MissingAuthWrites.Name SeverityCritical e
          ("Write endpoint '" ++ e.FullRoute ++ "' [" ++ e.DisplayMethods ++
            "] has no authentication")
          "Add authentication middleware to protect this write endpoint"]
      else [] := by
  by_cases hw : e.IsWriteEndpoint = true
  · by_cases hc : e.Classification = ClassificationPublic
    · cases haa : e.Authorization.AllowsAnonymous <;>
        cases hra : e.Authorization.RequiresAuth <;>
        cases hroles : e.Authorization.Roles <;>
        cases hscopes : e.Authorization.Scopes <;>
        cases hperms : e.Authorization.Permissions <;>
        cases hpols : e.Authorization.Policies <;>
        cases hdeps : e.Authorization.AuthDependencies <;>
        simp [AP004MissingAuthWrites.Evaluate, AuthorizationInfo.HasSpecificRequirements,
          hw, hc, haa, hra, hroles, hscopes, hperms, hpols, hdeps,
          AP004MissingAuthWrites.ID, AP004MissingAuthWrites.Severity]
    · simp [AP004MissingAuthWrites.Evaluate, hw, hc]
  · simp [AP004MissingAuthWrites.Evaluate, hw]

theorem ap008_eval (e : Endpoint) :
    AP008EndpointWithoutAuth.Evaluate e =
      if e.Classification = ClassificationPublic ∧ e.Authorization.AllowsAnonymous = false ∧
          e.Authorization.RequiresAuth = false ∧ e.Authorization.Roles = [] ∧
          e.Authorization.Scopes = [] ∧ e.Authorization.Permissions = [] ∧
          e.Authorization.Policies = [] ∧ e.Authorization.AuthDependencies = [] then
        [createFinding "AP008" AP008EndpointWithoutAuth.Name SeverityHigh e
          ("Endpoint '" ++ e.FullRoute ++ "' has no authentication configuration")
          (AP008EndpointWithoutAuth.recommendation e.Framework)]
      else [] := by
  obtain ⟨_, _, _, _, _, _, _, _, ⟨ra, aa, roles, scopes, perms, pols, deps, inh, src⟩,
    cls, _, _, _⟩ := e
  by_cases hc : cls = ClassificationPublic <;>
  cases aa <;> cases ra <;> cases roles <;> cases scopes <;> cases perms <;>
    cases pols <;> cases deps <;>
    simp [AP008EndpointWithoutAuth.Evaluate, AuthorizationInfo.HasSpecificRequirements, hc,
      AP008EndpointWithoutAuth.ID, AP008EndpointWithoutAuth.Severity]

/-- C11: on every endpoint where AP004 returns a finding, AP001 and AP008 return
a finding as well, and the engine with all rules enabled reports a finding of
each of the three rules for that endpoint. -/
theorem ap004_implies_ap001_ap008 (e : Endpoint)
    (h : AP004MissingAuthWrites.Evaluate e ≠ []) :
    AP001PublicWithoutIntent.Evaluate e ≠ [] ∧
    AP008EndpointWithoutAuth.Evaluate e ≠ [] ∧
    (∃ f1 ∈ (NewEngine none).EvaluateAll [e], f1.RuleID = "AP001" ∧ f1.Endpoint = e) ∧
    (∃ f4 ∈ (NewEngine none).EvaluateAll [e], f4.RuleID = "AP004" ∧ f4.Endpoint = e) ∧
    (∃ f8 ∈ (NewEngine none).EvaluateAll [e], f8.RuleID = "AP008" ∧ f8.Endpoint = e) := by
  rw [ap004_eval] at h
  split_ifs at h with hcond
  · obtain ⟨hw, hc, haa, hra, hroles, hscopes, hperms, hpols, hdeps⟩ := hcond
    have h1 := ap001_eval e
    have h4 := ap004_eval e
    have h8 := ap008_eval e
    rw [if_pos ⟨hc, haa, hra, hroles, hscopes, hperms, hpols, hdeps⟩] at h1 h8
    rw [if_pos ⟨hw, hc, haa, hra, hroles, hscopes, hperms, hpols, hdeps⟩] at h4
    have hall : (NewEngine none).EvaluateAll [e] = enabledFindings none e := by
      simp [Engine.EvaluateAll, engine_evaluate_eq]
    have e1 : ∃ f, AP001PublicWithoutIntent.Evaluate e = [f] ∧ f.RuleID = "AP001" ∧
        f.Endpoint = e := ⟨_, h1, rfl, rfl⟩
    have e4 : ∃ f, AP004MissingAuthWrites.Evaluate e = [f] ∧ f.RuleID = "AP004" ∧
        f.Endpoint = e := ⟨_, h4, rfl, rfl⟩
    have e8 : ∃ f, AP008EndpointWithoutAuth.Evaluate e = [f] ∧ f.RuleID = "AP008" ∧
        f.Endpoint = e := ⟨_, h8, rfl, rfl⟩
    obtain ⟨f1, hf1, hid1, hep1⟩ := e1
    obtain ⟨f4, hf4, hid4, hep4⟩ := e4
    obtain ⟨f8, hf8, hid8, hep8⟩ := e8
    refine ⟨by simp [hf1], by simp [hf8], ⟨f1, ?_, hid1, hep1⟩, ⟨f4, ?_, hid4, hep4⟩,
      ⟨f8, ?_, hid8, hep8⟩⟩ <;>
    · rw [hall]; simp [enabledFindings, ruleEnabled, hf1, hf4, hf8]
  · exact absurd rfl h

theorem ap004_implies_ap001_ap008_witness :
    AP001PublicWithoutIntent.Evaluate
        { Route := "/admin/delete", Methods := [MethodDELETE],
          Classification := ClassificationPublic,
          Authorization := NewAuthorizationInfo } ≠ [] ∧
    AP008EndpointWithoutAuth.Evaluate
        { Route := "/admin/delete", Methods := [MethodDELETE],
          Classification := ClassificationPublic,
          Authorization := NewAuthorizationInfo } ≠ [] :=
  have h := ap004_implies_ap001_ap008
    { Route := "/admin/delete", Methods := [MethodDELETE],
      Classification := ClassificationPublic, Authorization := NewAuthorizationInfo }
    (by decide)
  ⟨h.1, h.2.1⟩

/-- C12: AP004 returns a finding exactly when the endpoint has at least one of
the methods POST, PUT, DELETE, PATCH, is classified public, has allowsAnonymous
and requiresAuth false and has empty roles, scopes, permissions, policies and
authDependencies; and it returns either nothing or exactly one finding, with
rule ID AP004 and severity critical. -/
theorem ap004_fires_iff (e : Endpoint) :
    (AP004MissingAuthWrites.Evaluate e ≠ [] ↔
      (∃ m ∈ e.Methods,
        m = MethodPOST ∨ m = MethodPUT ∨ m = MethodDELETE ∨ m = MethodPATCH) ∧
      e.Classification = ClassificationPublic ∧
      e.Authorization.AllowsAnonymous = false ∧ e.Authorization.RequiresAuth = false ∧
      e.Authorization.Roles = [] ∧ e.Authorization.Scopes = [] ∧
      e.Authorization.Permissions = [] ∧ e.Authorization.Policies = [] ∧
      e.Authorization.AuthDependencies = []) ∧
    (AP004MissingAuthWrites.Evaluate e = [] ∨
      ∃ f, AP004MissingAuthWrites.Evaluate e = [f] ∧ f.RuleID = "AP004" ∧
        f.Severity = SeverityCritical ∧ f.Endpoint = e) := by
  rw [ap004_eval, ← isWriteEndpoint_iff]
  split_ifs with hcond
  · refine ⟨⟨fun _ => hcond, fun _ => by simp⟩, Or.inr ⟨_, rfl, rfl, rfl, rfl⟩⟩
  · exact ⟨⟨fun h => absurd rfl h, fun h => absurd h hcond⟩, Or.inl rfl⟩

theorem stringsContains_iff (s sub : String) :
    stringsContains s sub = true ↔ sub.data <:+: s.data := by
  simp [stringsContains]

/-- C13: AP007 returns a finding exactly when the endpoint is classified public,
allowsAnonymous is false and the lower-cased full route contains an entry of the
sensitive-keyword list; public `/admin/dashboard` and `/debug/vars` fire, public
`/api/users` and authenticated `/admin/dashboard` do not.  The lower-casing is
that of `strings.ToLower` on every character: the public route `/ADMIN` fires,
and so does `/bac\u212Aup`, whose Kelvin sign has the lower case `k`. -/
theorem ap007_fires_iff (e : Endpoint) :
    (AP007SensitiveKeywords.Evaluate e ≠ [] ↔
      e.Classification = ClassificationPublic ∧ e.Authorization.AllowsAnonymous = false ∧
      ∃ keyword ∈ sensitiveKeywords,
        keyword.data <:+: (stringsToLower e.FullRoute).data) ∧
    AP007SensitiveKeywords.Evaluate
        { Route := "/admin/dashboard", Methods := [MethodGET],
          Classification := ClassificationPublic,
          Authorization := NewAuthorizationInfo } ≠ [] ∧
    AP007SensitiveKeywords.Evaluate
        { Route := "/debug/vars", Methods := [MethodGET],
          Classification := ClassificationPublic,
          Authorization := NewAuthorizationInfo } ≠ [] ∧
    AP007SensitiveKeywords.Evaluate
        { Route := "/api/users", Methods := [MethodGET],
          Classification := ClassificationPublic,
          Authorization := NewAuthorizationInfo } = [] ∧
    AP007SensitiveKeywords.Evaluate
        { Route := "/admin/dashboard", Methods := [MethodGET],
          Classification := ClassificationAuthenticated,
          Authorization := { RequiresAuth := true } } = [] ∧
    AP007SensitiveKeywords.Evaluate
        { Route := "/ADMIN", Methods := [MethodGET],
          Classification := ClassificationPublic,
          Authorization := NewAuthorizationInfo } ≠ [] ∧
    stringsToLower "/bac\u212Aup" = "/backup" ∧
    AP007SensitiveKeywords.Evaluate
        { Route := "/bac\u212Aup", Methods := [MethodGET],
          Classification := ClassificationPublic,
          Authorization := NewAuthorizationInfo } ≠ [] := by
  refine ⟨?_, by decide, by decide, by decide, by decide, by decide, by decide, by decide⟩
  by_cases hc : e.Classification = ClassificationPublic
  · cases haa : e.Authorization.AllowsAnonymous
    · by_cases hk : ∃ keyword ∈ sensitiveKeywords,
          keyword.data <:+: (stringsToLower e.FullRoute).data
      · have hne : sensitiveKeywords.filter
            (fun keyword => stringsContains (stringsToLower e.FullRoute) keyword) ≠ [] := by
          obtain ⟨k, hk1, hk2⟩ := hk
          intro hnil
          have hmem : k ∈ sensitiveKeywords.filter
              (fun keyword => stringsContains (stringsToLower e.FullRoute) keyword) :=
            List.mem_filter.2 ⟨hk1, (stringsContains_iff _ _).2 hk2⟩
          rw [hnil] at hmem
          exact List.not_mem_nil _ hmem
        simp [AP007SensitiveKeywords.Evaluate, hc, haa, hk, hne]
      · have hnil : sensitiveKeywords.filter
            (fun keyword => stringsContains (stringsToLower e.FullRoute) keyword) = [] := by
          rw [List.filter_eq_nil_iff]
          intro k hk1 hk2
          exact hk ⟨k, hk1, (stringsContains_iff _ _).1 hk2⟩
        simp only [AP007SensitiveKeywords.Evaluate, hc, haa, hnil]
        simp [hk]
    · simp [AP007SensitiveKeywords.Evaluate, hc, haa]
  · simp [AP007SensitiveKeywords.Evaluate, hc]

/-- C14 (counterexample): an endpoint whose roles are four times the one name
`admin` gets an AP005 finding although it has one distinct role name. -/
theorem ap005_counts_repeated_roles :
    AP005ExcessiveRoles.Evaluate
        { Route := "/reports", Methods := [MethodGET],
          Authorization := { RequiresAuth := true,
                             Roles := ["admin", "admin", "admin", "admin"] } } ≠ [] ∧
    ¬ ((["admin", "admin", "admin", "admin"] : List String).toFinset.card > 3) := by
  constructor
  · decide
  · decide

/-- C14 (amended): AP005 returns a finding exactly when the roles list has
more than 3 entries, repetitions counted; when no role name is repeated this is
the number of distinct role names. -/
theorem ap005_fires_iff_length (e : Endpoint) :
    (AP005ExcessiveRoles.Evaluate e ≠ [] ↔ e.Authorization.Roles.length > 3) ∧
    (e.Authorization.Roles.Nodup →
      (AP005ExcessiveRoles.Evaluate e ≠ [] ↔ e.Authorization.Roles.toFinset.card > 3)) := by
  have hlen : AP005ExcessiveRoles.Evaluate e ≠ [] ↔ e.Authorization.Roles.length > 3 := by
    by_cases h : e.Authorization.Roles.length ≤ 3
    · simp [AP005ExcessiveRoles.Evaluate, maxRolesThreshold, h]
    · simp only [AP005ExcessiveRoles.Evaluate, maxRolesThreshold, h, if_false]
      simp
      omega
  refine ⟨hlen, fun hnd => ?_⟩
  rw [hlen, List.toFinset_card_of_nodup hnd]

/-! ## Middleware keywords -/

/-- C17: a name is auth-indicating exactly when its lower-cased form contains an
auth keyword as a substring, and anonymous-indicating exactly when it contains
an anonymous keyword; `AdminRoleGuard` is auth-indicating and `extractRoles`
gives it a non-nil result.  The lower-casing is that of `strings.ToLower` on
every character: `to\u212Aen`, with the Kelvin sign, lower-cases to `token` and
is auth-indicating. -/
theorem middleware_keyword_containment (name : String) :
    (isAuthMiddleware name = true ↔
      ∃ keyword ∈ authMiddlewarePatterns, keyword.data <:+: (stringsToLower name).data) ∧
    (isAllowAnonymous name = true ↔
      ∃ keyword ∈ allowAnonPatterns, keyword.data <:+: (stringsToLower name).data) ∧
    isAuthMiddleware "AdminRoleGuard" = true ∧
    extractRoles "AdminRoleGuard" = some [] ∧
    extractRoles "AdminRoleGuard" ≠ none ∧
    stringsToLower "AdminRoleGuard" = "adminroleguard" ∧
    stringsToLower "to\u212Aen" = "token" ∧
    isAuthMiddleware "to\u212Aen" = true ∧
    isAllowAnonymous "PUBLIC" = true ∧
    isAuthMiddleware "Logger" = false := by
  refine ⟨?_, ?_, by decide, by decide, by decide, by decide, by decide, by decide,
    by decide, by decide⟩
  · simp [isAuthMiddleware, List.any_eq_true, stringsContains_iff]
  · simp [isAllowAnonymous, List.any_eq_true, stringsContains_iff]

/-! ## The full route -/

theorem string_eq_of_data {s t : String} (h : s.data = t.data) : s = t := by
  cases s; cases t; simp_all

theorem slash_data : ("/" : String).data = ['/'] := rfl

theorem stringsHasPrefix_slash (s : String) :
    stringsHasPrefix s "/" = true ↔ ∃ r : String, s = "/" ++ r := by
  unfold stringsHasPrefix
  rw [List.isPrefixOf_iff_prefix, slash_data]
  constructor
  · rintro ⟨t, ht⟩
    exact ⟨⟨t⟩, string_eq_of_data (by rw [String.data_append, slash_data, ← ht])⟩
  · rintro ⟨r, hr⟩
    refine ⟨r.data, ?_⟩
    rw [hr, String.data_append, slash_data]

theorem isSuffixOf_slash (l : List Char) :
    List.isSuffixOf ['/'] l = true ↔ ∃ p : List Char, l = p ++ ['/'] := by
  rw [List.isSuffixOf_iff_suffix]
  constructor
  · rintro ⟨t, ht⟩; exact ⟨t, ht.symm⟩
  · rintro ⟨p, hp⟩; exact ⟨p, hp.symm⟩

theorem stringsTrimSuffix_slash_append (p : String) :
    stringsTrimSuffix (p ++ "/") "/" = p := by
  have hs : stringsHasSuffix (p ++ "/") "/" = true := by
    simp only [stringsHasSuffix, String.data_append]
    exact (isSuffixOf_slash _).2 ⟨p.data, rfl⟩
  apply string_eq_of_data
  simp [stringsTrimSuffix, hs]

theorem stringsTrimSuffix_no_slash (s : String) (h : ¬ ∃ p : String, s = p ++ "/") :
    stringsTrimSuffix s "/" = s := by
  have hs : stringsHasSuffix s "/" = false := by
    cases hb : stringsHasSuffix s "/"
    · rfl
    · exfalso
      obtain ⟨p, hp⟩ := (isSuffixOf_slash _).1 hb
      exact h ⟨⟨p⟩, string_eq_of_data (by simpa using hp)⟩
  simp [stringsTrimSuffix, hs]

/-- C18: with an empty router prefix the full route is the route unchanged;
with a non-empty one it is the prefix with one trailing slash removed, if there
is one, followed by the route, a slash being put in front of a route that does
not start with one.  `/api/` with `users` gives `/api/users`, `/api/v1/` with
`/users` gives `/api/v1/users`, and the empty prefix with `/users` gives
`/users`. -/
theorem fullRoute_by_cases (e : Endpoint) :
    (e.RouterPrefix = "" → e.FullRoute = e.Route) ∧
    (∀ p : String, e.RouterPrefix = p ++ "/" →
      ((∃ r : String, e.Route = "/" ++ r) → e.FullRoute = p ++ e.Route) ∧
      ((¬ ∃ r : String, e.Route = "/" ++ r) → e.FullRoute = p ++ ("/" ++ e.Route))) ∧
    (e.RouterPrefix ≠ "" → (¬ ∃ p : String, e.RouterPrefix = p ++ "/") →
      ((∃ r : String, e.Route = "/" ++ r) → e.FullRoute = e.RouterPrefix ++ e.Route) ∧
      ((¬ ∃ r : String, e.Route = "/" ++ r) →
        e.FullRoute = e.RouterPrefix ++ ("/" ++ e.Route))) ∧
    Endpoint.FullRoute { RouterPrefix := "/api/", Route := "users" } = "/api/users" ∧
    Endpoint.FullRoute { RouterPrefix := "/api/v1/", Route := "/users" } = "/api/v1/users" ∧
    Endpoint.FullRoute { RouterPrefix := "", Route := "/users" } = "/users" := by
  refine ⟨?_, ?_, ?_, by decide, by decide, by decide⟩
  · intro h
    simp [Endpoint.FullRoute, h]
  · intro p hp
    have hne : e.RouterPrefix ≠ "" := by
      intro h0
      rw [hp] at h0
      have := congrArg String.length h0
      simp at this
      exact absurd this.2 (by decide)
    constructor
    · intro hr
      have hpre := (stringsHasPrefix_slash e.Route).2 hr
      simp only [Endpoint.FullRoute, hne, if_false, hpre]
      rw [hp, stringsTrimSuffix_slash_append]
      simp
    · intro hr
      have hpre : stringsHasPrefix e.Route "/" = false := by
        cases hb : stringsHasPrefix e.Route "/"
        · rfl
        · exact absurd ((stringsHasPrefix_slash e.Route).1 hb) hr
      simp only [Endpoint.FullRoute, hne, if_false, hpre]
      rw [hp, stringsTrimSuffix_slash_append]
      simp
  · intro hne hp
    constructor
    · intro hr
      have hpre := (stringsHasPrefix_slash e.Route).2 hr
      simp only [Endpoint.FullRoute, hne, if_false, hpre]
      rw [stringsTrimSuffix_no_slash _ hp]
      simp
    · intro hr
      have hpre : stringsHasPrefix e.Route "/" = false := by
        cases hb : stringsHasPrefix e.Route "/"
        · rfl
        · exact absurd ((stringsHasPrefix_slash e.Route).1 hb) hr
      simp only [Endpoint.FullRoute, hne, if_false, hpre]
      rw [stringsTrimSuffix_no_slash _ hp]
      simp

theorem stringsTrimSuffix_eq_trimTrailingSlash (s : String) :
    stringsTrimSuffix s "/" = trimTrailingSlash s := by
  by_cases h : ∃ p : String, s = p ++ "/"
  · obtain ⟨p, rfl⟩ := h
    rw [stringsTrimSuffix_slash_append]
    apply string_eq_of_data
    simp [trimTrailingSlash, slash_data]
  · rw [stringsTrimSuffix_no_slash s h]
    unfold trimTrailingSlash
    split
    · rename_i rest hrev
      exfalso
      apply h
      refine ⟨⟨rest.reverse⟩, string_eq_of_data ?_⟩
      have := congrArg List.reverse hrev
      simpa [slash_data] using this
    · rfl

theorem enforceLeadingSlash_eq (s : String) :
    (if (!stringsHasPrefix s "/") = true then "/" ++ s else s) = enforceLeadingSlash s := by
  by_cases h : ∃ r : String, s = "/" ++ r
  · have hpre := (stringsHasPrefix_slash s).2 h
    obtain ⟨r, rfl⟩ := h
    simp [hpre, enforceLeadingSlash, slash_data]
  · have hpre : stringsHasPrefix s "/" = false := by
      cases hb : stringsHasPrefix s "/"
      · rfl
      · exact absurd ((stringsHasPrefix_slash s).1 hb) h
    simp only [hpre, Bool.not_false, if_true]
    unfold enforceLeadingSlash
    split
    · rename_i rest hd
      exfalso
      apply h
      exact ⟨⟨rest⟩, string_eq_of_data (by simpa [slash_data] using hd)⟩
    · rfl

/-- C19 (counterexample): with the empty prefix and the route `users` the full
route is `users`, not the trimmed prefix followed by the slash-enforced route,
which is `/users`. -/
theorem fullRoute_empty_prefix_keeps_route :
    Endpoint.FullRoute { RouterPrefix := "", Route := "users" } ≠ fullRouteSpec "" "users" ∧
    Endpoint.FullRoute { RouterPrefix := "", Route := "users" } ≠ "/users" ∧
    fullRouteSpec "" "users" = "/users" := by
  decide

/-- C19 (amended): for every non-empty router prefix and every route the full
route is the prefix with its trailing slash trimmed concatenated with the route
with a leading slash enforced; with the empty prefix it is the route unchanged,
so the empty prefix with the route `users` gives `users`. -/
theorem fullRoute_spec_nonempty_prefix (e : Endpoint) :
    (e.RouterPrefix ≠ "" → e.FullRoute = fullRouteSpec e.RouterPrefix e.Route) ∧
    (e.RouterPrefix = "" → e.FullRoute = e.Route) ∧
    Endpoint.FullRoute { RouterPrefix := "", Route := "users" } = "users" := by
  refine ⟨?_, ?_, by decide⟩
  · intro hne
    simp only [Endpoint.FullRoute, hne, if_false, fullRouteSpec]
    rw [stringsTrimSuffix_eq_trimTrailingSlash, enforceLeadingSlash_eq]
  · intro h
    simp [Endpoint.FullRoute, h]

/-! ## Endpoint equality -/

theorem methodSet_apply (ms : List String) (k : String) :
    ∀ set : StringSet,
      (ms.foldl (fun set m => StringSet.set set m) set) k = (set k || decide (k ∈ ms)) := by
  induction ms with
  | nil => intro set; simp
  | cons m rest ih =>
    intro set
    rw [List.foldl_cons, ih]
    by_cases hk : k = m
    · simp [StringSet.set, hk]
    · simp [StringSet.set, hk]

/-- What `Equal` computes: same route, file and line, method lists of the same
length, and every method of the second endpoint among those of the first. -/
theorem equal_iff (a b : Endpoint) :
    a.Equal b = true ↔
      a.Route = b.Route ∧ a.FilePath = b.FilePath ∧ a.LineNumber = b.LineNumber ∧
      a.Methods.length = b.Methods.length ∧ ∀ m ∈ b.Methods, m ∈ a.Methods := by
  by_cases h1 : a.Route = b.Route <;> by_cases h2 : a.FilePath = b.FilePath <;>
    by_cases h3 : a.LineNumber = b.LineNumber <;>
    by_cases h4 : a.Methods.length = b.Methods.length <;>
    simp [Endpoint.Equal, h1, h2, h3, h4, methodSet_apply, StringSet.empty, List.all_eq_true]

/-- When neither endpoint repeats a method, `Equal` is the comparison of the
method lists as sets. -/
theorem equal_iff_of_nodup (a b : Endpoint) (ha : a.Methods.Nodup) (hb : b.Methods.Nodup) :
    a.Equal b = true ↔
      a.Route = b.Route ∧ a.FilePath = b.FilePath ∧ a.LineNumber = b.LineNumber ∧
      ∀ m, m ∈ a.Methods ↔ m ∈ b.Methods := by
  rw [equal_iff]
  constructor
  · rintro ⟨h1, h2, h3, hlen, hsub⟩
    have hperm : b.Methods.Perm a.Methods :=
      (List.subperm_of_subset hb hsub).perm_of_length_le (le_of_eq hlen)
    exact ⟨h1, h2, h3, fun m => (hperm.mem_iff).symm⟩
  · rintro ⟨h1, h2, h3, hmem⟩
    have hperm : a.Methods.Perm b.Methods := (List.perm_ext_iff_of_nodup ha hb).2 hmem
    exact ⟨h1, h2, h3, hperm.length_eq, fun m hm => (hmem m).2 hm⟩

/-- C20: at the endpoints with methods `[GET, POST]` and `[GET, GET]` and the
same route, file and line, `Equal` holds one way and fails the other way although
the method sets differ; and with methods `[GET, GET]` and `[GET]`, the same set,
`Equal` fails. -/
theorem equal_not_set_comparison :
    Endpoint.Equal
        { Route := "/users", FilePath := "main.go", LineNumber := 8,
          Methods := [MethodGET, MethodPOST] }
        { Route := "/users", FilePath := "main.go", LineNumber := 8,
          Methods := [MethodGET, MethodGET] } = true ∧
    Endpoint.Equal
        { Route := "/users", FilePath := "main.go", LineNumber := 8,
          Methods := [MethodGET, MethodGET] }
        { Route := "/users", FilePath := "main.go", LineNumber := 8,
          Methods := [MethodGET, MethodPOST] } = false ∧
    MethodPOST ∉ [MethodGET, MethodGET] ∧
    Endpoint.Equal
        { Route := "/users", FilePath := "main.go", LineNumber := 8,
          Methods := [MethodGET, MethodGET] }
        { Route := "/users", FilePath := "main.go", LineNumber := 8,
          Methods := [MethodGET] } = false ∧
    (∀ m : HTTPMethod, m ∈ [MethodGET, MethodGET] ↔ m ∈ [MethodGET]) := by
  refine ⟨by decide, by decide, by decide, by decide, ?_⟩
  intro m
  simp

/-! ## Extraction and discovery, end to end -/

theorem extract_auth_then_anonymous (a p : String) (hp : isAllowAnonymous p = true) :
    ([a, p].foldl extractMiddleware NewAuthorizationInfo).AllowsAnonymous = true := by
  simp [List.foldl, extractMiddleware, hp]

/-- C16: for the Gin, Echo and Fiber extractors and every middleware list made
of an auth-indicating name followed by an anonymous-indicating name, a POST
endpoint carrying the extracted authorization is classified public and, once
classified, gets one AP002 finding and none from AP001, AP004 and AP008. -/
theorem auth_then_anonymous_post_is_public (a p : String) (source : ParsedSource)
    (e : Endpoint) (_ha : isAuthMiddleware a = true) (hp : isAllowAnonymous p = true)
    (hm : e.Methods = [MethodPOST])
    (hauth : e.Authorization = GinExtractor.Extract [a, p] source ∨
      e.Authorization = EchoExtractor.Extract [a, p] source ∨
      e.Authorization = FiberExtractor.Extract [a, p] source) :
    Classifier.Classify e = ClassificationPublic ∧
    (∃ f, AP002AnonymousOnWrite.Evaluate
        { e with Classification := Classifier.Classify e } = [f] ∧ f.RuleID = "AP002") ∧
    AP001PublicWithoutIntent.Evaluate { e with Classification := Classifier.Classify e } = [] ∧
    AP004MissingAuthWrites.Evaluate { e with Classification := Classifier.Classify e } = [] ∧
    AP008EndpointWithoutAuth.Evaluate { e with Classification := Classifier.Classify e } = [] := by
  have haa : e.Authorization.AllowsAnonymous = true := by
    rcases hauth with h | h | h <;> rw [h] <;>
      exact extract_auth_then_anonymous a p hp
  have hcls : Classifier.Classify e = ClassificationPublic := by
    simp [Classifier.Classify, haa]
  have hw : Endpoint.IsWriteEndpoint { e with Classification := Classifier.Classify e } = true := by
    simp [Endpoint.IsWriteEndpoint, hm, HTTPMethod.IsWriteMethod]
  refine ⟨hcls, ?_, ?_, ?_, ?_⟩
  · simp [AP002AnonymousOnWrite.Evaluate, hw, haa, createFinding, AP002AnonymousOnWrite.ID]
  · simp [AP001PublicWithoutIntent.Evaluate, haa]
  · simp [AP004MissingAuthWrites.Evaluate, haa]
  · simp [AP008EndpointWithoutAuth.Evaluate, haa]

theorem auth_then_anonymous_post_is_public_witness :
    Classifier.Classify
        { Route := "/users", Methods := [MethodPOST], RouterPrefix := "/api/v1",
          Authorization :=
            GinExtractor.Extract ["authMiddleware", "publicAccess"] ginGroupScenario } =
      ClassificationPublic :=
  (auth_then_anonymous_post_is_public "authMiddleware" "publicAccess" ginGroupScenario
    { Route := "/users", Methods := [MethodPOST], RouterPrefix := "/api/v1",
      Authorization :=
        GinExtractor.Extract ["authMiddleware", "publicAccess"] ginGroupScenario }
    (by decide) (by decide) rfl (Or.inl rfl)).1

theorem gin_scenario_result :
    Classifier.ClassifyAll (GinDiscoverer.Discover ginGroupScenario).1 =
      [{ Route := "/users", Methods := [MethodGET], FilePath := "main.go", LineNumber := 8,
         Framework := FrameworkGin, EndpointType := EndpointTypeFunction,
         FunctionName := "listUsers",
         Authorization :=
           { RequiresAuth := true, AllowsAnonymous := false,
             AuthDependencies := ["authMiddleware"], Inherited := false,
             Source := "middleware" },
         Classification := ClassificationAuthenticated, RouterPrefix := "/api/v1" },
       { Route := "/users", Methods := [MethodPOST], FilePath := "main.go", LineNumber := 9,
         Framework := FrameworkGin, EndpointType := EndpointTypeFunction,
         FunctionName := "createUser",
         Authorization :=
           { RequiresAuth := true, AllowsAnonymous := true,
             AuthDependencies := ["authMiddleware"], Inherited := false,
             Source := "middleware" },
         Classification := ClassificationPublic, RouterPrefix := "/api/v1" }] := by
  decide

/-! ## Severities -/

/-- C29: `Order` is strictly increasing along info, low, medium, high,
critical; `GreaterOrEqual` is reflexive, transitive and total; `ParseSeverity`
gives back each of the five severities from its string and gives info for
every other string. -/
theorem severity_order_and_parse :
    (Severity.Order SeverityInfo < Severity.Order SeverityLow ∧
      Severity.Order SeverityLow < Severity.Order SeverityMedium ∧
      Severity.Order SeverityMedium < Severity.Order SeverityHigh ∧
      Severity.Order SeverityHigh < Severity.Order SeverityCritical) ∧
    (∀ s : Severity, Severity.GreaterOrEqual s s = true) ∧
    (∀ a b c : Severity, Severity.GreaterOrEqual a b = true →
      Severity.GreaterOrEqual b c = true → Severity.GreaterOrEqual a c = true) ∧
    (∀ a b : Severity, Severity.GreaterOrEqual a b = true ∨
      Severity.GreaterOrEqual b a = true) ∧
    (ParseSeverity SeverityInfo = SeverityInfo ∧ ParseSeverity SeverityLow = SeverityLow ∧
      ParseSeverity SeverityMedium = SeverityMedium ∧
      ParseSeverity SeverityHigh = SeverityHigh ∧
      ParseSeverity SeverityCritical = SeverityCritical) ∧
    (∀ s : String, s ≠ SeverityInfo → s ≠ SeverityLow → s ≠ SeverityMedium →
      s ≠ SeverityHigh → s ≠ SeverityCritical → ParseSeverity s = SeverityInfo) := by
  refine ⟨by decide, ?_, ?_, ?_, by decide, ?_⟩
  · intro s
    simp [Severity.GreaterOrEqual]
  · intro a b c hab hbc
    simp only [Severity.GreaterOrEqual, decide_eq_true_eq] at *
    omega
  · intro a b
    simp only [Severity.GreaterOrEqual, decide_eq_true_eq]
    omega
  · intro s h1 h2 h3 h4 h5
    simp only [SeverityInfo, SeverityLow, SeverityMedium, SeverityHigh, SeverityCritical] at *
    simp [ParseSeverity, h1, h2, h3, h4, h5, SeverityInfo]

/-! ## Classification and `IsPublic` -/

/-- C30: `Classify` gives public exactly when `IsPublic` holds; no record gets
past the first five tests of `Classify`, so its final fallback is never
reached; and a record whose only auth signal is a non-empty authDependencies
list is classified public, not authenticated. -/
theorem classify_public_iff_isPublic (e : Endpoint) :
    (Classifier.Classify e = ClassificationPublic ↔ e.Authorization.IsPublic = true) ∧
    ¬ (e.Authorization.AllowsAnonymous = false ∧
        ¬ (e.Authorization.RequiresAuth = false ∧
            e.Authorization.HasSpecificRequirements = false) ∧
        ¬ (e.Authorization.Policies.length > 0 ∨ e.Authorization.Permissions.length > 0 ∨
            e.Authorization.Scopes.length > 0) ∧
        ¬ (e.Authorization.Roles.length > 0) ∧
        ¬ (e.Authorization.RequiresAuth = true ∨
            e.Authorization.AuthDependencies.length > 0)) ∧
    (e.Authorization.AllowsAnonymous = false → e.Authorization.RequiresAuth = false →
      e.Authorization.Roles = [] → e.Authorization.Scopes = [] →
      e.Authorization.Permissions = [] → e.Authorization.Policies = [] →
      e.Authorization.AuthDependencies ≠ [] →
      Classifier.Classify e = ClassificationPublic ∧
      Classifier.Classify e ≠ ClassificationAuthenticated) ∧
    Classifier.Classify
      { Route := "/data", Methods := [MethodGET],
        Authorization := { AuthDependencies := ["authMiddleware"] } } =
      ClassificationPublic := by
  have h1 : ClassificationPolicyRestricted ≠ ClassificationPublic := by decide
  have h2 : ClassificationRoleRestricted ≠ ClassificationPublic := by decide
  have h3 : ClassificationAuthenticated ≠ ClassificationPublic := by decide
  have h4 : ClassificationPublic ≠ ClassificationAuthenticated := by decide
  obtain ⟨_, _, _, _, _, _, _, _, ⟨ra, aa, roles, scopes, perms, pols, deps, inh, src⟩,
    _, _, _, _⟩ := e
  refine ⟨?_, ?_, ?_, by decide⟩
  · cases aa <;> cases ra <;> cases roles <;> cases scopes <;> cases perms <;>
      cases pols <;> cases deps <;>
      simp [Classifier.Classify, AuthorizationInfo.IsPublic,
        AuthorizationInfo.HasSpecificRequirements, h1, h2, h3]
  · cases aa <;> cases ra <;> cases roles <;> cases scopes <;> cases perms <;>
      cases pols <;> cases deps <;>
      simp [AuthorizationInfo.HasSpecificRequirements]
  · intro haa hra hroles hscopes hperms hpols _
    simp only at haa hra hroles hscopes hperms hpols
    subst haa hra hroles hscopes hperms hpols
    simp [Classifier.Classify, AuthorizationInfo.HasSpecificRequirements, h4]

/-! ## Framework detection -/

theorem lookup_isSome_iff (l : List (String × String)) (k : String) :
    (l.lookup k).isSome = true ↔ ∃ entry ∈ l, entry.1 = k := by
  induction l with
  | nil => simp
  | cons hd tl ih =>
    obtain ⟨a, b⟩ := hd
    by_cases h : k = a
    · subst h
      simp [List.lookup]
    · have hb : (k == a) = false := by simpa using h
      simp only [List.lookup, hb, ih, List.mem_cons]
      constructor
      · rintro ⟨entry, he, hk⟩
        exact ⟨entry, Or.inr he, hk⟩
      · rintro ⟨entry, he | he, hk⟩
        · exfalso; subst he; exact h hk.symm
        · exact ⟨entry, he, hk⟩

theorem hasImport_iff (s : ParsedSource) (p : String) :
    s.HasImport p = true ↔ ∃ entry ∈ s.Imports, entry.1 = p := by
  simp only [ParsedSource.HasImport, lookup_isSome_iff]

theorem hasImportPrefix_iff (s : ParsedSource) (pre : String) :
    s.HasImportPrefix pre = true ↔ ∃ entry ∈ s.Imports, pre.data <+: entry.1.data := by
  simp [ParsedSource.HasImportPrefix, List.any_eq_true, stringsHasPrefix]

theorem prefixed_canHandle (s : ParsedSource) (exact pre : String)
    (h : pre.data <+: exact.data) :
    (s.HasImport exact || s.HasImportPrefix pre) = true ↔
      ∃ entry ∈ s.Imports, pre.data <+: entry.1.data := by
  rw [Bool.or_eq_true, hasImport_iff, hasImportPrefix_iff]
  constructor
  · rintro (⟨entry, he, hk⟩ | h2)
    · exact ⟨entry, he, by rw [hk]; exact h⟩
    · exact h2
  · intro h2
    exact Or.inr h2

theorem underNamespace_prefix (root p : String) (h : underNamespace root p = true) :
    root.data <+: p.data := by
  simp only [underNamespace, Bool.or_eq_true, decide_eq_true_eq, stringsHasPrefix,
    List.isPrefixOf_iff_prefix, String.data_append] at h
  rcases h with h | h
  · rw [h]
  · exact (List.prefix_append _ _).trans h

/-- C26 (counterexample): a table holding only `github.com/gin-gonic/gin/binding`,
a path under Gin's root, is not handled by Gin, and a table holding only
`github.com/labstack/echo-contrib/session`, which is neither Echo's root nor
under it, is handled by Echo. -/
theorem canHandle_not_namespace :
    GinDiscoverer.CanHandle
        { Imports := [("github.com/gin-gonic/gin/binding", "binding")] } = false ∧
    canHandleSpec "github.com/gin-gonic/gin"
        [("github.com/gin-gonic/gin/binding", "binding")] = true ∧
    EchoDiscoverer.CanHandle
        { Imports := [("github.com/labstack/echo-contrib/session", "session")] } = true ∧
    canHandleSpec "github.com/labstack/echo"
        [("github.com/labstack/echo-contrib/session", "session")] = false := by
  decide

/-- C26 (amended): Gin's `CanHandle` holds exactly when the table has the path
`github.com/gin-gonic/gin` itself and net/http's exactly when it has `net/http`
itself; Echo's, Chi's and Fiber's hold exactly when some path of the table
starts, as a string, with `github.com/labstack/echo`, `github.com/go-chi/chi`
or `github.com/gofiber/fiber`.  So Gin and net/http accept only tables the
namespace contract accepts, and Echo, Chi and Fiber accept every table the
namespace contract accepts. -/
theorem canHandle_exact_or_string_prefix (source : ParsedSource) :
    (GinDiscoverer.CanHandle source = true ↔
      ∃ entry ∈ source.Imports, entry.1 = "github.com/gin-gonic/gin") ∧
    (NetHTTPDiscoverer.CanHandle source = true ↔
      ∃ entry ∈ source.Imports, entry.1 = "net/http") ∧
    (EchoDiscoverer.CanHandle source = true ↔
      ∃ entry ∈ source.Imports, "github.com/labstack/echo".data <+: entry.1.data) ∧
    (ChiDiscoverer.CanHandle source = true ↔
      ∃ entry ∈ source.Imports, "github.com/go-chi/chi".data <+: entry.1.data) ∧
    (FiberDiscoverer.CanHandle source = true ↔
      ∃ entry ∈ source.Imports, "github.com/gofiber/fiber".data <+: entry.1.data) ∧
    (GinDiscoverer.CanHandle source = true →
      canHandleSpec "github.com/gin-gonic/gin" source.Imports = true) ∧
    (NetHTTPDiscoverer.CanHandle source = true →
      canHandleSpec "net/http" source.Imports = true) ∧
    (canHandleSpec "github.com/labstack/echo" source.Imports = true →
      EchoDiscoverer.CanHandle source = true) ∧
    (canHandleSpec "github.com/go-chi/chi" source.Imports = true →
      ChiDiscoverer.CanHandle source = true) ∧
    (canHandleSpec "github.com/gofiber/fiber" source.Imports = true →
      FiberDiscoverer.CanHandle source = true) := by
  have hgin : GinDiscoverer.CanHandle source = true ↔
      ∃ entry ∈ source.Imports, entry.1 = "github.com/gin-gonic/gin" := by
    simp only [GinDiscoverer.CanHandle, hasImport_iff, ginImport]
  have hnet : NetHTTPDiscoverer.CanHandle source = true ↔
      ∃ entry ∈ source.Imports, entry.1 = "net/http" := by
    simp only [NetHTTPDiscoverer.CanHandle, hasImport_iff]
  have hecho : EchoDiscoverer.CanHandle source = true ↔
      ∃ entry ∈ source.Imports, "github.com/labstack/echo".data <+: entry.1.data :=
    prefixed_canHandle source echoImport _ (by decide)
  have hchi : ChiDiscoverer.CanHandle source = true ↔
      ∃ entry ∈ source.Imports, "github.com/go-chi/chi".data <+: entry.1.data :=
    prefixed_canHandle source chiImport _ (by decide)
  have hfiber : FiberDiscoverer.CanHandle source = true ↔
      ∃ entry ∈ source.Imports, "github.com/gofiber/fiber".data <+: entry.1.data :=
    prefixed_canHandle source fiberImport _ (by decide)
  have hspec : ∀ root : String, canHandleSpec root source.Imports = true →
      ∃ entry ∈ source.Imports, root.data <+: entry.1.data := by
    intro root h
    simp only [canHandleSpec, List.any_eq_true] at h
    obtain ⟨entry, he, hu⟩ := h
    exact ⟨entry, he, underNamespace_prefix _ _ hu⟩
  have hexact : ∀ root : String, (∃ entry ∈ source.Imports, entry.1 = root) →
      canHandleSpec root source.Imports = true := by
    rintro root ⟨entry, he, hk⟩
    simp only [canHandleSpec, List.any_eq_true]
    exact ⟨entry, he, by simp [underNamespace, hk]⟩
  exact ⟨hgin, hnet, hecho, hchi, hfiber, fun h => hexact _ (hgin.1 h),
    fun h => hexact _ (hnet.1 h), fun h => hecho.2 (hspec _ h), fun h => hchi.2 (hspec _ h),
    fun h => hfiber.2 (hspec _ h)⟩

/-! ## Divergences of the discoverers -/

/-- C22: with the verb literal `get`, Gin's `Handle`, Echo's `Add` and Fiber's
`Add` yield no endpoint, while Chi's `Method` yields one with methods `[GET]`;
with the literal `GET` all four yield an endpoint with methods `[GET]`, equal
under `Equal` to the endpoint of the dedicated verb method at the same line. -/
theorem verb_argument_case_sensitive :
    (GinDiscoverer.extractEndpoint
        (.CallExpr 3 (.SelectorExpr (.Ident "r") "Handle")
          [.BasicLit "STRING" "get", .BasicLit "STRING" "/x", .Ident "h"]) {} []).1 = none ∧
    (EchoDiscoverer.extractEndpoint
        (.CallExpr 3 (.SelectorExpr (.Ident "e") "Add")
          [.BasicLit "STRING" "get", .BasicLit "STRING" "/x", .Ident "h"]) {} []).1 = none ∧
    (FiberDiscoverer.extractEndpoint
        (.CallExpr 3 (.SelectorExpr (.Ident "app") "Add")
          [.BasicLit "STRING" "get", .BasicLit "STRING" "/x", .Ident "h"]) {} []).1 = none ∧
    ((ChiDiscoverer.extractEndpoint
        (.CallExpr 3 (.SelectorExpr (.Ident "r") "Method")
          [.BasicLit "STRING" "get", .BasicLit "STRING" "/x", .Ident "h"]) {} []).1.map
      Endpoint.Methods) = some [MethodGET] ∧
    ((GinDiscoverer.extractEndpoint
        (.CallExpr 3 (.SelectorExpr (.Ident "r") "Handle")
          [.BasicLit "STRING" "GET", .BasicLit "STRING" "/x", .Ident "h"]) {} []).1.map
      Endpoint.Methods) = some [MethodGET] ∧
    (Option.map₂ Endpoint.Equal
      (GinDiscoverer.extractEndpoint
        (.CallExpr 3 (.SelectorExpr (.Ident "r") "Handle")
          [.BasicLit "STRING" "GET", .BasicLit "STRING" "/x", .Ident "h"]) {} []).1
      (GinDiscoverer.extractEndpoint
        (.CallExpr 3 (.SelectorExpr (.Ident "r") "GET")
          [.BasicLit "STRING" "/x", .Ident "h"]) {} []).1) = some true := by
  decide

/-- C23: the Gin call `s.router.GET("/x", h)`, whose dotted name
`s.router.GET` has three segments and ends in a verb, yields no endpoint, and
neither do the like calls of Echo, Fiber and Chi: the extractors read the
second segment as the method name.  The group finder and the net/http
extractor do match the trailing segment. -/
theorem three_segment_call_dropped :
    GetCallName
        (.CallExpr 3 (.SelectorExpr (.SelectorExpr (.Ident "s") "router") "GET")
          [.BasicLit "STRING" "/x", .Ident "h"]) = "s.router.GET" ∧
    (GinDiscoverer.extractEndpoint
        (.CallExpr 3 (.SelectorExpr (.SelectorExpr (.Ident "s") "router") "GET")
          [.BasicLit "STRING" "/x", .Ident "h"]) {} []).1 = none ∧
    (EchoDiscoverer.extractEndpoint
        (.CallExpr 3 (.SelectorExpr (.SelectorExpr (.Ident "s") "router") "GET")
          [.BasicLit "STRING" "/x", .Ident "h"]) {} []).1 = none ∧
    (FiberDiscoverer.extractEndpoint
        (.CallExpr 3 (.SelectorExpr (.SelectorExpr (.Ident "s") "router") "Get")
          [.BasicLit "STRING" "/x", .Ident "h"]) {} []).1 = none ∧
    (ChiDiscoverer.extractEndpoint
        (.CallExpr 3 (.SelectorExpr (.SelectorExpr (.Ident "s") "router") "Get")
          [.BasicLit "STRING" "/x", .Ident "h"]) {} []).1 = none ∧
    ((GinDiscoverer.extractEndpoint
        (.CallExpr 3 (.SelectorExpr (.Ident "router") "GET")
          [.BasicLit "STRING" "/x", .Ident "h"]) {} []).1.map
      (fun e => (e.Route, e.Methods))) = some ("/x", [MethodGET]) ∧
    GinDiscoverer.findGroupsVisit
        (.AssignStmt [.Ident "api"]
          [.CallExpr 2 (.SelectorExpr (.SelectorExpr (.Ident "s") "router") "Group")
            [.BasicLit "STRING" "/api"]]) [] =
      [("api", { Prefix := "/api", Middleware := [], VarName := "api" })] ∧
    ((NetHTTPDiscoverer.extractEndpoint
        (.CallExpr 3 (.SelectorExpr (.SelectorExpr (.Ident "s") "mux") "HandleFunc")
          [.BasicLit "STRING" "/x", .Ident "h"]) {}).map Endpoint.Route) = some "/x" := by
  decide

/-- C24: the handler name of a plain identifier is its name, of a selector on
an identifier `receiver.selector`, and of a call the call's dotted name, in all
five discoverers; a function literal gives `<anonymous>` in the net/http
discoverer and the empty string in the Gin, Echo, Fiber and Chi discoverers. -/
theorem handler_name_precedence (name x sel : String) (line : Int) (fn : Node)
    (args : List Node) (params : List (List String)) (body : List Node) :
    (GinDiscoverer.extractHandlerName (.Ident name) = name ∧
      EchoDiscoverer.extractHandlerName (.Ident name) = name ∧
      FiberDiscoverer.extractHandlerName (.Ident name) = name ∧
      ChiDiscoverer.extractHandlerName (.Ident name) = name ∧
      NetHTTPDiscoverer.extractHandlerName (.Ident name) = name) ∧
    (GinDiscoverer.extractHandlerName (.SelectorExpr (.Ident x) sel) = x ++ "." ++ sel ∧
      EchoDiscoverer.extractHandlerName (.SelectorExpr (.Ident x) sel) = x ++ "." ++ sel ∧
      FiberDiscoverer.extractHandlerName (.SelectorExpr (.Ident x) sel) = x ++ "." ++ sel ∧
      ChiDiscoverer.extractHandlerName (.SelectorExpr (.Ident x) sel) = x ++ "." ++ sel ∧
      NetHTTPDiscoverer.extractHandlerName (.SelectorExpr (.Ident x) sel) =
        x ++ "." ++ sel) ∧
    (GinDiscoverer.extractHandlerName (.CallExpr line fn args) =
        GetCallName (.CallExpr line fn args) ∧
      EchoDiscoverer.extractHandlerName (.CallExpr line fn args) =
        GetCallName (.CallExpr line fn args) ∧
      FiberDiscoverer.extractHandlerName (.CallExpr line fn args) =
        GetCallName (.CallExpr line fn args) ∧
      ChiDiscoverer.extractHandlerName (.CallExpr line fn args) =
        GetCallName (.CallExpr line fn args) ∧
      NetHTTPDiscoverer.extractHandlerName (.CallExpr line fn args) =
        GetCallName (.CallExpr line fn args)) ∧
    NetHTTPDiscoverer.extractHandlerName (.FuncLit params body) = "<anonymous>" ∧
    (GinDiscoverer.extractHandlerName (.FuncLit params body) = "" ∧
      EchoDiscoverer.extractHandlerName (.FuncLit params body) = "" ∧
      FiberDiscoverer.extractHandlerName (.FuncLit params body) = "" ∧
      ChiDiscoverer.extractHandlerName (.FuncLit params body) = "") ∧
    ((GinDiscoverer.extractEndpoint
        (.CallExpr 3 (.SelectorExpr (.Ident "r") "GET")
          [.BasicLit "STRING" "/x", .FuncLit [["c"]] []]) {} []).1.map
      Endpoint.FunctionName) = some "" := by
  refine ⟨⟨rfl, rfl, rfl, rfl, rfl⟩, ⟨rfl, rfl, rfl, rfl, rfl⟩, ⟨rfl, rfl, rfl, rfl, rfl⟩, rfl,
    ⟨rfl, rfl, rfl, rfl⟩, by decide⟩

/-- C27: on the file that imports Gin and net/http and holds
`r.Handle("GET", "/x", h)`, Gin's walk finds the route `/x` and leaves the call
without its first argument: a second run of Gin on the tree as left finds
nothing, and net/http finds the route `GET` on the file as parsed but the
route `/x` after Gin has run. -/
theorem discover_mutates_tree :
    (GinDiscoverer.Discover handleScenario).1.map (fun e => (e.Route, e.Methods)) =
      [("/x", [MethodGET])] ∧
    (GinDiscoverer.Discover
        { handleScenario with AST := (GinDiscoverer.inspectRoutes handleScenario).2 }).1 =
      [] ∧
    (NetHTTPDiscoverer.Discover handleScenario).1.map Endpoint.Route = ["GET"] ∧
    (NetHTTPDiscoverer.Discover
        { handleScenario with
          AST := (GinDiscoverer.inspectRoutes handleScenario).2 }).1.map Endpoint.Route =
      ["/x"] ∧
    GinDiscoverer.CanHandle handleScenario = true ∧
    NetHTTPDiscoverer.CanHandle handleScenario = true := by
  decide

/-- C28: the endpoints that Gin's `Discover` returns for the Gin scenario file,
and the one net/http's returns for the `Handle` file, have the empty
classification, not public; every endpoint built by a `createEndpoint` or by
net/http's `extractEndpoint` has it; `NewEndpoint` has public. -/
theorem discovered_classification_empty :
    (GinDiscoverer.Discover ginGroupScenario).1.map Endpoint.Classification = ["", ""] ∧
    (NetHTTPDiscoverer.Discover handleScenario).1.map Endpoint.Classification = [""] ∧
    ("" : SecurityClassification) ≠ ClassificationPublic ∧
    NewEndpoint.Classification = ClassificationPublic ∧
    (∀ call source groups recv methods e,
      GinDiscoverer.createEndpoint call source groups recv methods = some e →
        e.Classification = "") ∧
    (∀ call source groups recv methods e,
      EchoDiscoverer.createEndpoint call source groups recv methods = some e →
        e.Classification = "") ∧
    (∀ call source groups recv methods e,
      FiberDiscoverer.createEndpoint call source groups recv methods = some e →
        e.Classification = "") ∧
    (∀ call source groups recv methods e,
      ChiDiscoverer.createEndpoint call source groups recv methods = some e →
        e.Classification = "") ∧
    (∀ call source e,
      NetHTTPDiscoverer.extractEndpoint call source = some e → e.Classification = "") := by
  refine ⟨by decide, by decide, by decide, rfl, ?_, ?_, ?_, ?_, ?_⟩
  · intro call source groups recv methods e h
    unfold GinDiscoverer.createEndpoint at h
    split at h
    · cases h
    · simp only at h
      split_ifs at h <;> (cases h; rfl)
    · cases h
  · intro call source groups recv methods e h
    unfold EchoDiscoverer.createEndpoint at h
    split at h
    · simp only at h
      split_ifs at h
      cases h
      rfl
    · cases h
  · intro call source groups recv methods e h
    unfold FiberDiscoverer.createEndpoint at h
    split at h
    · simp only at h
      split_ifs at h
      cases h
      rfl
    · cases h
  · intro call source groups recv methods e h
    unfold ChiDiscoverer.createEndpoint at h
    split at h
    · simp only at h
      split_ifs at h
      cases h
      rfl
    · cases h
  · intro call source e h
    unfold NetHTTPDiscoverer.extractEndpoint at h
    split at h
    · simp only at h
      split_ifs at h
      split at h
      · split_ifs at h
        cases h
        rfl
      · cases h
    · cases h

/-! ## The walk of `Inspect` -/

mutual
theorem inspect_state {σ : Type} (g : Node → σ → σ) (k : Node → Nat) :
    ∀ (n : Node) (s : σ),
      (Inspect (fun n s => (g n s, k n)) n s).1 =
        (walkNodes k n).foldl (fun s n => g n s) s
  | .Ident name, s => by simp [Inspect, walkNodes]
  | .BasicLit kind value, s => by simp [Inspect, walkNodes]
  | .SelectorExpr x sel, s => by
      rw [Inspect]
      simp [walkNodes, inspect_state g k x]
  | .CallExpr line fn args, s => by
      rw [Inspect]
      simp [walkNodes, List.foldl_append, inspect_state g k fn,
        inspectList_state g k args]
  | .FuncLit params body, s => by
      simp [Inspect, walkNodes, inspectList_state g k body]
  | .AssignStmt lhs rhs, s => by
      simp [Inspect, walkNodes, List.foldl_append, inspectList_state g k lhs,
        inspectList_state g k rhs]
  | .Other children, s => by
      simp [Inspect, walkNodes, inspectList_state g k children]
theorem inspectList_state {σ : Type} (g : Node → σ → σ) (k : Node → Nat) :
    ∀ (ns : List Node) (d : Nat) (s : σ),
      (InspectList (fun n s => (g n s, k n)) ns d s).1 =
        (walkList k ns d).foldl (fun s n => g n s) s
  | [], d, s => by simp [InspectList, walkList]
  | n :: ns, d + 1, s => by
      simp [InspectList, walkList, inspectList_state g k ns d]
  | n :: ns, 0, s => by
      rw [InspectList]
      simp [walkList, List.foldl_append, inspect_state g k n,
        inspectList_state g k ns 0]
end

/-! ## Route calls on a receiver -/

theorem splitChars_no_sep (sep : Char) (l : List Char) (h : sep ∉ l) :
    splitChars sep l = [l] := by
  induction l with
  | nil => rfl
  | cons c cs ih =>
    have hc : c ≠ sep := fun e => h (by simp [e])
    have hcs : sep ∉ cs := fun e => h (by simp [e])
    simp [splitChars, hc, ih hcs]

theorem splitChars_append_sep (sep : Char) (a b : List Char) (h : sep ∉ a) :
    splitChars sep (a ++ sep :: b) = a :: splitChars sep b := by
  induction a with
  | nil => simp [splitChars]
  | cons c cs ih =>
    have hc : c ≠ sep := fun e => h (by simp [e])
    have hcs : sep ∉ cs := fun e => h (by simp [e])
    simp [splitChars, hc, ih hcs]

theorem split_receiver_method (recv method : String) (hr : '.' ∉ recv.data)
    (hm : '.' ∉ method.data) :
    stringsSplit (recv ++ "." ++ method) '.' = [recv, method] := by
  have hd : (recv ++ "." ++ method).data = recv.data ++ '.' :: method.data := by
    simp [String.data_append]
  simp [stringsSplit, hd, splitChars_append_sep _ _ _ hr, splitChars_no_sep _ _ hm]

theorem getStringValue_literal (route : String) :
    GetStringValue (.BasicLit "STRING" route) = route := by
  simp [GetStringValue]

theorem getStringValue_nonliteral (arg : Node) (h : ¬ isStringLiteral arg) :
    GetStringValue arg = "" := by
  cases arg with
  | BasicLit kind value =>
    by_cases hk : kind = "STRING"
    · exact absurd ⟨value, by rw [hk]⟩ h
    · simp [GetStringValue, hk]
  | _ => rfl

theorem gin_first_arg_nonliteral (line : Int) (fn arg : Node) (rest : List Node)
    (source : ParsedSource) (groups : List (String × GroupInfo))
    (h : GetStringValue arg = "") :
    (GinDiscoverer.extractEndpoint (.CallExpr line fn (arg :: rest)) source groups).1 =
      none := by
  have hc : ∀ recv methods, GinDiscoverer.createEndpoint (.CallExpr line fn (arg :: rest))
      source groups recv methods = none := by
    intro recv methods
    simp [GinDiscoverer.createEndpoint, h]
  have hm : ginRouteMethods "" = none := by decide
  unfold GinDiscoverer.extractEndpoint
  simp only [h, hm, hc]
  split
  · split
    · rfl
    · split_ifs <;> rfl
  · rfl

theorem echo_first_arg_nonliteral (line : Int) (fn arg : Node) (rest : List Node)
    (source : ParsedSource) (groups : List (String × EchoGroupInfo))
    (h : GetStringValue arg = "") :
    (EchoDiscoverer.extractEndpoint (.CallExpr line fn (arg :: rest)) source groups).1 =
      none := by
  have hc : ∀ recv methods, EchoDiscoverer.createEndpoint (.CallExpr line fn (arg :: rest))
      source groups recv methods = none := by
    intro recv methods
    cases rest <;> simp [EchoDiscoverer.createEndpoint, h]
  have hm : echoRouteMethods "" = none := by decide
  unfold EchoDiscoverer.extractEndpoint
  simp only [h, hm, hc]
  split
  · split
    · rfl
    · split_ifs <;> rfl
  · rfl

theorem fiber_first_arg_nonliteral (line : Int) (fn arg : Node) (rest : List Node)
    (source : ParsedSource) (groups : List (String × FiberGroupInfo))
    (h : GetStringValue arg = "") :
    (FiberDiscoverer.extractEndpoint (.CallExpr line fn (arg :: rest)) source groups).1 =
      none := by
  have hc : ∀ recv methods, FiberDiscoverer.createEndpoint (.CallExpr line fn (arg :: rest))
      source groups recv methods = none := by
    intro recv methods
    cases rest <;> simp [FiberDiscoverer.createEndpoint, h]
  have hm : upperCaseMethods "" = none := by decide
  unfold FiberDiscoverer.extractEndpoint
  simp only [h, hm, hc]
  split
  · split
    · rfl
    · split_ifs <;> rfl
  · rfl

theorem chi_first_arg_nonliteral (line : Int) (fn arg : Node) (rest : List Node)
    (source : ParsedSource) (groups : List (String × ChiGroupInfo))
    (h : GetStringValue arg = "") :
    (ChiDiscoverer.extractEndpoint (.CallExpr line fn (arg :: rest)) source groups).1 =
      none := by
  have hc : ∀ recv methods, ChiDiscoverer.createEndpoint (.CallExpr line fn (arg :: rest))
      source groups recv methods = none := by
    intro recv methods
    cases rest <;> simp [ChiDiscoverer.createEndpoint, h]
  have hm : chiRouteMethods (stringsTitle (stringsToLower "")) = none := by decide
  have hu : upperCaseMethods "" = none := by decide
  unfold ChiDiscoverer.extractEndpoint
  simp only [h, hm, hu, hc]
  split
  · split
    · rfl
    · split_ifs <;> rfl
  · rfl

theorem nethttp_first_arg_nonliteral (line : Int) (fn arg : Node) (rest : List Node)
    (source : ParsedSource) (h : GetStringValue arg = "") :
    NetHTTPDiscoverer.extractEndpoint (.CallExpr line fn (arg :: rest)) source = none := by
  unfold NetHTTPDiscoverer.extractEndpoint
  simp only
  split_ifs
  · rfl
  · cases rest <;> simp [h]

theorem gin_handle_path_nonliteral (line : Int) (recv : String) (verbArg path : Node)
    (rest : List Node) (source : ParsedSource) (groups : List (String × GroupInfo))
    (hrecv : '.' ∉ recv.data) (h : GetStringValue path = "") :
    (GinDiscoverer.extractEndpoint
        (.CallExpr line (.SelectorExpr (.Ident recv) "Handle") (verbArg :: path :: rest))
        source groups).1 = none := by
  have hsplit := split_receiver_method recv "Handle" hrecv (by decide)
  have hm : ginRouteMethods "Handle" = none := by decide
  have hc : ∀ methods, GinDiscoverer.createEndpoint
      (.CallExpr line (.SelectorExpr (.Ident recv) "Handle") (path :: rest))
      source groups recv methods = none := by
    intro methods
    simp [GinDiscoverer.createEndpoint, h]
  simp only [GinDiscoverer.extractEndpoint, GetCallName, hsplit, hm]
  cases hv : ginRouteMethods (GetStringValue verbArg) <;> simp [hv, hc]

theorem echo_add_path_nonliteral (line : Int) (recv : String) (verbArg path : Node)
    (rest : List Node) (source : ParsedSource) (groups : List (String × EchoGroupInfo))
    (hrecv : '.' ∉ recv.data) (h : GetStringValue path = "") :
    (EchoDiscoverer.extractEndpoint
        (.CallExpr line (.SelectorExpr (.Ident recv) "Add") (verbArg :: path :: rest))
        source groups).1 = none := by
  have hsplit := split_receiver_method recv "Add" hrecv (by decide)
  have hm : echoRouteMethods "Add" = none := by decide
  have hc : ∀ methods, EchoDiscoverer.createEndpoint
      (.CallExpr line (.SelectorExpr (.Ident recv) "Add") (path :: rest))
      source groups recv methods = none := by
    intro methods
    cases rest <;> simp [EchoDiscoverer.createEndpoint, h]
  simp only [EchoDiscoverer.extractEndpoint, GetCallName, hsplit, hm]
  split_ifs with h1 h2
  · cases hv : echoRouteMethods (GetStringValue verbArg) <;> simp [hv, hc]
  · exact absurd h2 (by decide)
  · rfl

theorem fiber_add_path_nonliteral (line : Int) (recv : String) (verbArg path : Node)
    (rest : List Node) (source : ParsedSource) (groups : List (String × FiberGroupInfo))
    (hrecv : '.' ∉ recv.data) (h : GetStringValue path = "") :
    (FiberDiscoverer.extractEndpoint
        (.CallExpr line (.SelectorExpr (.Ident recv) "Add") (verbArg :: path :: rest))
        source groups).1 = none := by
  have hsplit := split_receiver_method recv "Add" hrecv (by decide)
  have hm : fiberRouteMethods "Add" = none := by decide
  have hc : ∀ methods, FiberDiscoverer.createEndpoint
      (.CallExpr line (.SelectorExpr (.Ident recv) "Add") (path :: rest))
      source groups recv methods = none := by
    intro methods
    cases rest <;> simp [FiberDiscoverer.createEndpoint, h]
  simp only [FiberDiscoverer.extractEndpoint, GetCallName, hsplit, hm]
  split_ifs with h1 h2
  · cases hv : upperCaseMethods (GetStringValue verbArg) <;> simp [hv, hc]
  · exact absurd h2 (by decide)
  · rfl

theorem chi_method_path_nonliteral (line : Int) (recv method : String)
    (verbArg path : Node) (rest : List Node) (source : ParsedSource)
    (groups : List (String × ChiGroupInfo))
    (hmethod : method = "Method" ∨ method = "MethodFunc")
    (hrecv : '.' ∉ recv.data) (h : GetStringValue path = "") :
    (ChiDiscoverer.extractEndpoint
        (.CallExpr line (.SelectorExpr (.Ident recv) method) (verbArg :: path :: rest))
        source groups).1 = none := by
  have hdot : '.' ∉ method.data := by
    rcases hmethod with hm | hm <;> subst hm <;> decide
  have hsplit := split_receiver_method recv method hrecv hdot
  have hm : chiRouteMethods method = none := by
    rcases hmethod with hm | hm <;> subst hm <;> decide
  have hc : ∀ methods, ChiDiscoverer.createEndpoint
      (.CallExpr line (.SelectorExpr (.Ident recv) method) (path :: rest))
      source groups recv methods = none := by
    intro methods
    cases rest <;> simp [ChiDiscoverer.createEndpoint, h]
  simp only [ChiDiscoverer.extractEndpoint, GetCallName, hsplit, hm]
  split_ifs
  · cases hv : chiRouteMethods (stringsTitle (stringsToLower (GetStringValue verbArg))) <;>
      cases hu : upperCaseMethods (GetStringValue verbArg) <;> simp [hc]
  · rfl

/-! ## `Discover` as a pass over the calls of the walk -/

theorem foldl_toList_filterMap {α β : Type} (f : α → Option β) (xs : List α) :
    ∀ acc : List β,
      xs.foldl (fun s n => s ++ (f n).toList) acc = acc ++ xs.filterMap f := by
  induction xs with
  | nil => intro acc; simp
  | cons x xs ih =>
    intro acc
    rw [List.foldl_cons, ih]
    cases hx : f x <;> simp [List.filterMap_cons, hx]

theorem gin_discover_walk (source : ParsedSource) :
    (GinDiscoverer.Discover source).1 =
      (walkNodes (fun n => (GinDiscoverer.extractEndpoint n source
          (GinDiscoverer.findGroups source)).2) source.AST).filterMap
        (fun n => (GinDiscoverer.extractEndpoint n source
          (GinDiscoverer.findGroups source)).1) := by
  have hwalk := inspect_state
    (fun n (endpoints : List Endpoint) => endpoints ++
      (GinDiscoverer.extractEndpoint n source (GinDiscoverer.findGroups source)).1.toList)
    (fun n => (GinDiscoverer.extractEndpoint n source (GinDiscoverer.findGroups source)).2)
    source.AST []
  rw [foldl_toList_filterMap, List.nil_append] at hwalk
  rw [← hwalk]
  simp only [GinDiscoverer.Discover, GinDiscoverer.inspectRoutes]
  congr 2
  funext n endpoints
  cases n with
  | CallExpr line fn args =>
    rcases hx : GinDiscoverer.extractEndpoint (.CallExpr line fn args) source
        (GinDiscoverer.findGroups source) with ⟨_ | e, k⟩ <;> simp [hx]
  | _ => simp [GinDiscoverer.extractEndpoint]

theorem echo_discover_walk (source : ParsedSource) :
    (EchoDiscoverer.Discover source).1 =
      (walkNodes (fun n => (EchoDiscoverer.extractEndpoint n source
          (EchoDiscoverer.findGroups source)).2) source.AST).filterMap
        (fun n => (EchoDiscoverer.extractEndpoint n source
          (EchoDiscoverer.findGroups source)).1) := by
  have hwalk := inspect_state
    (fun n (endpoints : List Endpoint) => endpoints ++
      (EchoDiscoverer.extractEndpoint n source (EchoDiscoverer.findGroups source)).1.toList)
    (fun n => (EchoDiscoverer.extractEndpoint n source (EchoDiscoverer.findGroups source)).2)
    source.AST []
  rw [foldl_toList_filterMap, List.nil_append] at hwalk
  rw [← hwalk]
  simp only [EchoDiscoverer.Discover, EchoDiscoverer.inspectRoutes]
  congr 2
  funext n endpoints
  cases n with
  | CallExpr line fn args =>
    rcases hx : EchoDiscoverer.extractEndpoint (.CallExpr line fn args) source
        (EchoDiscoverer.findGroups source) with ⟨_ | e, k⟩ <;> simp [hx]
  | _ => simp [EchoDiscoverer.extractEndpoint]

theorem fiber_discover_walk (source : ParsedSource) :
    (FiberDiscoverer.Discover source).1 =
      (walkNodes (fun n => (FiberDiscoverer.extractEndpoint n source
          (FiberDiscoverer.findGroups source)).2) source.AST).filterMap
        (fun n => (FiberDiscoverer.extractEndpoint n source
          (FiberDiscoverer.findGroups source)).1) := by
  have hwalk := inspect_state
    (fun n (endpoints : List Endpoint) => endpoints ++
      (FiberDiscoverer.extractEndpoint n source (FiberDiscoverer.findGroups source)).1.toList)
    (fun n => (FiberDiscoverer.extractEndpoint n source (FiberDiscoverer.findGroups source)).2)
    source.AST []
  rw [foldl_toList_filterMap, List.nil_append] at hwalk
  rw [← hwalk]
  simp only [FiberDiscoverer.Discover, FiberDiscoverer.inspectRoutes]
  congr 2
  funext n endpoints
  cases n with
  | CallExpr line fn args =>
    rcases hx : FiberDiscoverer.extractEndpoint (.CallExpr line fn args) source
        (FiberDiscoverer.findGroups source) with ⟨_ | e, k⟩ <;> simp [hx]
  | _ => simp [FiberDiscoverer.extractEndpoint]

theorem chi_discover_walk (source : ParsedSource) :
    (ChiDiscoverer.Discover source).1 =
      (walkNodes (fun n => (ChiDiscoverer.extractEndpoint n source
          (ChiDiscoverer.findGroups source)).2) source.AST).filterMap
        (fun n => (ChiDiscoverer.extractEndpoint n source
          (ChiDiscoverer.findGroups source)).1) := by
  have hwalk := inspect_state
    (fun n (endpoints : List Endpoint) => endpoints ++
      (ChiDiscoverer.extractEndpoint n source (ChiDiscoverer.findGroups source)).1.toList)
    (fun n => (ChiDiscoverer.extractEndpoint n source (ChiDiscoverer.findGroups source)).2)
    source.AST []
  rw [foldl_toList_filterMap, List.nil_append] at hwalk
  rw [← hwalk]
  simp only [ChiDiscoverer.Discover, ChiDiscoverer.inspectRoutes]
  congr 2
  funext n endpoints
  cases n with
  | CallExpr line fn args =>
    rcases hx : ChiDiscoverer.extractEndpoint (.CallExpr line fn args) source
        (ChiDiscoverer.findGroups source) with ⟨_ | e, k⟩ <;> simp [hx]
  | _ => simp [ChiDiscoverer.extractEndpoint]

theorem nethttp_discover_walk (source : ParsedSource) :
    (NetHTTPDiscoverer.Discover source).1 =
      (walkNodes (fun _ => 0) source.AST).filterMap
        (fun n => NetHTTPDiscoverer.extractEndpoint n source) := by
  have hwalk := inspect_state
    (fun n (endpoints : List Endpoint) => endpoints ++
      (NetHTTPDiscoverer.extractEndpoint n source).toList)
    (fun _ => 0) source.AST []
  rw [foldl_toList_filterMap, List.nil_append] at hwalk
  rw [← hwalk]
  simp only [NetHTTPDiscoverer.Discover, NetHTTPDiscoverer.inspectRoutes]
  congr 2
  funext n endpoints
  cases n with
  | CallExpr line fn args =>
    rcases hx : NetHTTPDiscoverer.extractEndpoint (.CallExpr line fn args) source
      with _ | e <;> simp [hx]
  | _ => simp [NetHTTPDiscoverer.extractEndpoint]

/-- C21: in each of the five discoverers a call whose path argument is not a
string literal yields no endpoint, be the path the first argument or, in the
method-as-argument shape (`Handle`, `Add`, `Method`, `MethodFunc` on a receiver
identifier), the second; `Discover` returns a nil error, and its endpoints are
those that the calls met on the walk yield one by one, in the order of the
walk, so a call without a literal path takes nothing away from the others.  In
the Gin file with `r.GET(path, h)` and `r.GET("/ok", h)` the only endpoint is
`/ok`. -/
theorem nonliteral_path_yields_nothing (source : ParsedSource) :
    (∀ (line : Int) (fn arg : Node) (rest : List Node), ¬ isStringLiteral arg →
      (∀ groups, (GinDiscoverer.extractEndpoint (.CallExpr line fn (arg :: rest))
        source groups).1 = none) ∧
      (∀ groups, (EchoDiscoverer.extractEndpoint (.CallExpr line fn (arg :: rest))
        source groups).1 = none) ∧
      (∀ groups, (FiberDiscoverer.extractEndpoint (.CallExpr line fn (arg :: rest))
        source groups).1 = none) ∧
      (∀ groups, (ChiDiscoverer.extractEndpoint (.CallExpr line fn (arg :: rest))
        source groups).1 = none) ∧
      NetHTTPDiscoverer.extractEndpoint (.CallExpr line fn (arg :: rest)) source = none) ∧
    (∀ (line : Int) (recv : String) (verbArg path : Node) (rest : List Node),
      '.' ∉ recv.data → ¬ isStringLiteral path →
      (∀ groups, (GinDiscoverer.extractEndpoint
        (.CallExpr line (.SelectorExpr (.Ident recv) "Handle") (verbArg :: path :: rest))
        source groups).1 = none) ∧
      (∀ groups, (EchoDiscoverer.extractEndpoint
        (.CallExpr line (.SelectorExpr (.Ident recv) "Add") (verbArg :: path :: rest))
        source groups).1 = none) ∧
      (∀ groups, (FiberDiscoverer.extractEndpoint
        (.CallExpr line (.SelectorExpr (.Ident recv) "Add") (verbArg :: path :: rest))
        source groups).1 = none) ∧
      (∀ groups, (ChiDiscoverer.extractEndpoint
        (.CallExpr line (.SelectorExpr (.Ident recv) "Method") (verbArg :: path :: rest))
        source groups).1 = none) ∧
      (∀ groups, (ChiDiscoverer.extractEndpoint
        (.CallExpr line (.SelectorExpr (.Ident recv) "MethodFunc")
          (verbArg :: path :: rest))
        source groups).1 = none)) ∧
    ((GinDiscoverer.Discover source).2 = none ∧
      (GinDiscoverer.Discover source).1 =
        (walkNodes (fun n => (GinDiscoverer.extractEndpoint n source
            (GinDiscoverer.findGroups source)).2) source.AST).filterMap
          (fun n => (GinDiscoverer.extractEndpoint n source
            (GinDiscoverer.findGroups source)).1)) ∧
    ((EchoDiscoverer.Discover source).2 = none ∧
      (EchoDiscoverer.Discover source).1 =
        (walkNodes (fun n => (EchoDiscoverer.extractEndpoint n source
            (EchoDiscoverer.findGroups source)).2) source.AST).filterMap
          (fun n => (EchoDiscoverer.extractEndpoint n source
            (EchoDiscoverer.findGroups source)).1)) ∧
    ((FiberDiscoverer.Discover source).2 = none ∧
      (FiberDiscoverer.Discover source).1 =
        (walkNodes (fun n => (FiberDiscoverer.extractEndpoint n source
            (FiberDiscoverer.findGroups source)).2) source.AST).filterMap
          (fun n => (FiberDiscoverer.extractEndpoint n source
            (FiberDiscoverer.findGroups source)).1)) ∧
    ((ChiDiscoverer.Discover source).2 = none ∧
      (ChiDiscoverer.Discover source).1 =
        (walkNodes (fun n => (ChiDiscoverer.extractEndpoint n source
            (ChiDiscoverer.findGroups source)).2) source.AST).filterMap
          (fun n => (ChiDiscoverer.extractEndpoint n source
            (ChiDiscoverer.findGroups source)).1)) ∧
    ((NetHTTPDiscoverer.Discover source).2 = none ∧
      (NetHTTPDiscoverer.Discover source).1 =
        (walkNodes (fun _ => 0) source.AST).filterMap
          (fun n => NetHTTPDiscoverer.extractEndpoint n source)) ∧
    ((GinDiscoverer.Discover
        { FilePath := "main.go", Imports := [("github.com/gin-gonic/gin", "gin")],
          AST := .Other [
            .Other [.CallExpr 6 (.SelectorExpr (.Ident "r") "GET")
              [.Ident "path", .Ident "h"]],
            .Other [.CallExpr 7 (.SelectorExpr (.Ident "r") "GET")
              [.BasicLit "STRING" "/ok", .Ident "h"]]] }).1.map
        (fun e => (e.Route, e.LineNumber)) = [("/ok", 7)]) := by
  refine ⟨?_, ?_, ⟨rfl, gin_discover_walk source⟩, ⟨rfl, echo_discover_walk source⟩,
    ⟨rfl, fiber_discover_walk source⟩, ⟨rfl, chi_discover_walk source⟩,
    ⟨rfl, nethttp_discover_walk source⟩, by decide⟩
  · intro line fn arg rest hlit
    have h := getStringValue_nonliteral arg hlit
    exact ⟨fun groups => gin_first_arg_nonliteral line fn arg rest source groups h,
      fun groups => echo_first_arg_nonliteral line fn arg rest source groups h,
      fun groups => fiber_first_arg_nonliteral line fn arg rest source groups h,
      fun groups => chi_first_arg_nonliteral line fn arg rest source groups h,
      nethttp_first_arg_nonliteral line fn arg rest source h⟩
  · intro line recv verbArg path rest hrecv hlit
    have h := getStringValue_nonliteral path hlit
    exact ⟨fun groups => gin_handle_path_nonliteral line recv verbArg path rest source groups
        hrecv h,
      fun groups => echo_add_path_nonliteral line recv verbArg path rest source groups hrecv h,
      fun groups => fiber_add_path_nonliteral line recv verbArg path rest source groups
        hrecv h,
      fun groups => chi_method_path_nonliteral line recv "Method" verbArg path rest source
        groups (Or.inl rfl) hrecv h,
      fun groups => chi_method_path_nonliteral line recv "MethodFunc" verbArg path rest
        source groups (Or.inr rfl) hrecv h⟩

/-! ## AP001 and AP008 -/

/-- C31: AP001 returns a finding exactly when AP008 does; both fire exactly
when the endpoint is classified public and has allowsAnonymous and requiresAuth
false and empty authDependencies, roles, scopes, permissions and policies; and
when they fire each returns one finding, of severity high and for the same
endpoint, with rule IDs AP001 and AP008. -/
theorem ap001_iff_ap008 (e : Endpoint) :
    (AP001PublicWithoutIntent.Evaluate e ≠ [] ↔ AP008EndpointWithoutAuth.Evaluate e ≠ []) ∧
    (AP001PublicWithoutIntent.Evaluate e ≠ [] ↔
      e.Classification = ClassificationPublic ∧ e.Authorization.AllowsAnonymous = false ∧
      e.Authorization.RequiresAuth = false ∧ e.Authorization.Roles = [] ∧
      e.Authorization.Scopes = [] ∧ e.Authorization.Permissions = [] ∧
      e.Authorization.Policies = [] ∧ e.Authorization.AuthDependencies = []) ∧
    (AP001PublicWithoutIntent.Evaluate e = [] ∧ AP008EndpointWithoutAuth.Evaluate e = [] ∨
      ∃ f g, AP001PublicWithoutIntent.Evaluate e = [f] ∧
        AP008EndpointWithoutAuth.Evaluate e = [g] ∧
        f.RuleID = "AP001" ∧ g.RuleID = "AP008" ∧
        f.Severity = SeverityHigh ∧ g.Severity = SeverityHigh ∧
        f.Endpoint = e ∧ g.Endpoint = e ∧
        f.Suppressed = g.Suppressed ∧ f.SuppressionReason = g.SuppressionReason) := by
  rw [ap001_eval, ap008_eval]
  split_ifs with hcond
  · refine ⟨by simp, ⟨fun _ => hcond, fun _ => by simp⟩, Or.inr ⟨_, _, rfl, rfl, ?_⟩⟩
    simp [createFinding]
  · exact ⟨by simp, ⟨fun h => absurd rfl h, fun h => absurd h hcond⟩, Or.inl ⟨rfl, rfl⟩⟩

/-! ## What `Extract` can return -/

theorem extractRoles_empty (mw : String) (roles : List String)
    (h : extractRoles mw = some roles) : roles = [] := by
  unfold extractRoles at h
  simp only at h
  split_ifs at h
  cases h
  rfl

/-- The invariant of the loop of `Extract`. -/
theorem extractMiddleware_invariant (auth : AuthorizationInfo) (mw : String)
    (h : auth.Roles = [] ∧ auth.Scopes = [] ∧ auth.Permissions = [] ∧ auth.Policies = [] ∧
      auth.Inherited = false ∧ (auth.RequiresAuth = true ↔ auth.AuthDependencies ≠ [])) :
    (extractMiddleware auth mw).Roles = [] ∧ (extractMiddleware auth mw).Scopes = [] ∧
      (extractMiddleware auth mw).Permissions = [] ∧
      (extractMiddleware auth mw).Policies = [] ∧
      (extractMiddleware auth mw).Inherited = false ∧
      ((extractMiddleware auth mw).RequiresAuth = true ↔
        (extractMiddleware auth mw).AuthDependencies ≠ []) := by
  obtain ⟨h1, h2, h3, h4, h5, h6⟩ := h
  unfold extractMiddleware
  by_cases ha : isAllowAnonymous mw = true
  · simp [ha, h1, h2, h3, h4, h5, h6]
  · simp only [ha, if_false]
    by_cases hb : isAuthMiddleware mw = true
    · cases hr : extractRoles mw with
      | none => simp [hb, h1, h2, h3, h4, h5]
      | some roles =>
        have := extractRoles_empty mw roles hr
        subst this
        simp [hb, h1, h2, h3, h4, h5]
    · cases hr : extractRoles mw with
      | none => simp [hb, h1, h2, h3, h4, h5, h6]
      | some roles =>
        have := extractRoles_empty mw roles hr
        subst this
        simp [hb, h1, h2, h3, h4, h5, h6]

theorem extract_fold_invariant (middleware : List String) :
    ∀ auth : AuthorizationInfo,
      (auth.Roles = [] ∧ auth.Scopes = [] ∧ auth.Permissions = [] ∧ auth.Policies = [] ∧
        auth.Inherited = false ∧ (auth.RequiresAuth = true ↔ auth.AuthDependencies ≠ [])) →
      ((middleware.foldl extractMiddleware auth).Roles = [] ∧
        (middleware.foldl extractMiddleware auth).Scopes = [] ∧
        (middleware.foldl extractMiddleware auth).Permissions = [] ∧
        (middleware.foldl extractMiddleware auth).Policies = [] ∧
        (middleware.foldl extractMiddleware auth).Inherited = false ∧
        ((middleware.foldl extractMiddleware auth).RequiresAuth = true ↔
          (middleware.foldl extractMiddleware auth).AuthDependencies ≠ [])) := by
  induction middleware with
  | nil => intro auth h; exact h
  | cons mw rest ih =>
    intro auth h
    exact ih _ (extractMiddleware_invariant auth mw h)

theorem extract_shape (middleware : List String) :
    (middleware.foldl extractMiddleware NewAuthorizationInfo).Roles = [] ∧
      (middleware.foldl extractMiddleware NewAuthorizationInfo).Scopes = [] ∧
      (middleware.foldl extractMiddleware NewAuthorizationInfo).Permissions = [] ∧
      (middleware.foldl extractMiddleware NewAuthorizationInfo).Policies = [] ∧
      (middleware.foldl extractMiddleware NewAuthorizationInfo).Inherited = false ∧
      ((middleware.foldl extractMiddleware NewAuthorizationInfo).RequiresAuth = true ↔
        (middleware.foldl extractMiddleware NewAuthorizationInfo).AuthDependencies ≠ []) :=
  extract_fold_invariant middleware NewAuthorizationInfo (by simp [NewAuthorizationInfo])

theorem extractors_are_fold (extract : List String → ParsedSource → AuthorizationInfo)
    (h : extract ∈ [GinExtractor.Extract, EchoExtractor.Extract, FiberExtractor.Extract,
      ChiExtractor.Extract, NetHTTPExtractor.Extract])
    (middleware : List String) (source : ParsedSource) :
    extract middleware source = middleware.foldl extractMiddleware NewAuthorizationInfo := by
  simp only [List.mem_cons, List.mem_singleton, List.not_mem_nil, or_false] at h
  rcases h with h | h | h | h | h <;> subst h <;> rfl

theorem classify_of_no_specific (e : Endpoint)
    (h1 : e.Authorization.Roles = []) (h2 : e.Authorization.Scopes = [])
    (h3 : e.Authorization.Permissions = []) (h4 : e.Authorization.Policies = []) :
    Classifier.Classify e = ClassificationPublic ∨
      Classifier.Classify e = ClassificationAuthenticated := by
  cases haa : e.Authorization.AllowsAnonymous <;> cases hra : e.Authorization.RequiresAuth <;>
    simp [Classifier.Classify, AuthorizationInfo.HasSpecificRequirements, haa, hra, h1, h2,
      h3, h4]

/-- C35: for every middleware list each of the five extractors returns a
record with empty roles, scopes, permissions and policies, inherited false, and
requiresAuth true exactly when authDependencies is non-empty; an endpoint with
such a record is classified public or authenticated, and neither
role_restricted nor policy_restricted.  So the list `RequireRole`, `JWTAuth`,
`Logger` gives two dependencies, no role and the classification
authenticated. -/
theorem extract_record_shape :
    (GinExtractor.Extract ["RequireRole", "JWTAuth", "Logger"] {} =
        { RequiresAuth := true, AuthDependencies := ["RequireRole", "JWTAuth"],
          Source := "middleware" } ∧
      Classifier.Classify
          { Authorization := GinExtractor.Extract ["RequireRole", "JWTAuth", "Logger"] {} } =
        ClassificationAuthenticated) ∧
    ∀ (middleware : List String) (source : ParsedSource),
      ∀ extract ∈ [GinExtractor.Extract, EchoExtractor.Extract, FiberExtractor.Extract,
          ChiExtractor.Extract, NetHTTPExtractor.Extract],
        ((extract middleware source).Roles = [] ∧ (extract middleware source).Scopes = [] ∧
          (extract middleware source).Permissions = [] ∧
          (extract middleware source).Policies = [] ∧
          (extract middleware source).Inherited = false ∧
          ((extract middleware source).RequiresAuth = true ↔
            (extract middleware source).AuthDependencies ≠ [])) ∧
        (∀ e : Endpoint, e.Authorization = extract middleware source →
          (Classifier.Classify e = ClassificationPublic ∨
            Classifier.Classify e = ClassificationAuthenticated) ∧
          Classifier.Classify e ≠ ClassificationRoleRestricted ∧
          Classifier.Classify e ≠ ClassificationPolicyRestricted) := by
  refine ⟨by decide, ?_⟩
  intro middleware source extract hmem
  rw [extractors_are_fold extract hmem]
  have hs := extract_shape middleware
  refine ⟨hs, ?_⟩
  intro e he
  obtain ⟨h1, h2, h3, h4, _, _⟩ := hs
  rw [← he] at h1 h2 h3 h4
  have hc := classify_of_no_specific e h1 h2 h3 h4
  refine ⟨hc, ?_, ?_⟩
  · rcases hc with hc | hc <;> rw [hc] <;> decide
  · rcases hc with hc | hc <;> rw [hc] <;> decide

theorem rules_silent_of_shape (e : Endpoint) (hroles : e.Authorization.Roles = [])
    (hinh : e.Authorization.Inherited = false) :
    AP003AuthConflict.Evaluate e = [] ∧ AP005ExcessiveRoles.Evaluate e = [] ∧
      AP006WeakRoleNaming.Evaluate e = [] := by
  refine ⟨?_, ?_, ?_⟩
  · simp [AP003AuthConflict.Evaluate, hinh]
  · simp [AP005ExcessiveRoles.Evaluate, hroles]
  · simp [AP006WeakRoleNaming.Evaluate, hroles]

/-! ## Anonymous keywords in `Extract` -/

theorem extractMiddleware_anonymous (auth : AuthorizationInfo) (mw : String)
    (h : isAllowAnonymous mw = true) :
    extractMiddleware auth mw = { auth with AllowsAnonymous := true, Source := "middleware" } := by
  simp [extractMiddleware, h]

theorem extractMiddleware_keeps_anonymous (auth : AuthorizationInfo) (mw : String)
    (h : auth.AllowsAnonymous = true) : (extractMiddleware auth mw).AllowsAnonymous = true := by
  unfold extractMiddleware
  by_cases ha : isAllowAnonymous mw = true
  · simp [ha]
  · simp only [ha, if_false]
    by_cases hb : isAuthMiddleware mw = true <;> cases hr : extractRoles mw <;> simp [hb, h]

theorem extract_fold_keeps_anonymous (middleware : List String) :
    ∀ auth : AuthorizationInfo, auth.AllowsAnonymous = true →
      (middleware.foldl extractMiddleware auth).AllowsAnonymous = true := by
  induction middleware with
  | nil => intro auth h; exact h
  | cons mw rest ih =>
    intro auth h
    exact ih _ (extractMiddleware_keeps_anonymous auth mw h)

theorem extract_fold_anonymous (middleware : List String) (mw : String)
    (hmem : mw ∈ middleware) (hmw : isAllowAnonymous mw = true) :
    ∀ auth : AuthorizationInfo,
      (middleware.foldl extractMiddleware auth).AllowsAnonymous = true := by
  induction middleware with
  | nil => cases hmem
  | cons x rest ih =>
    intro auth
    rcases List.mem_cons.mp hmem with hx | hx
    · subst hx
      show (rest.foldl extractMiddleware (extractMiddleware auth mw)).AllowsAnonymous = true
      apply extract_fold_keeps_anonymous rest
      rw [extractMiddleware_anonymous auth mw hmw]
    · exact ih hx _

theorem classify_of_anonymous (e : Endpoint) (h : e.Authorization.AllowsAnonymous = true) :
    Classifier.Classify e = ClassificationPublic := by
  simp [Classifier.Classify, h]

/-- C34: in `Extract` the anonymous keywords are tested first.  A middleware
name that is anonymous-indicating, such as `NoAuth` and `PublicKeyAuth` which
match both keyword sets, sets allowsAnonymous and the source and leaves
requiresAuth, authDependencies and every other field as they were; and for
every middleware list containing an anonymous-indicating name, at any position,
each of the five extractors returns a record with allowsAnonymous true, and an
endpoint with that record is classified public. -/
theorem anonymous_keyword_precedence :
    (isAllowAnonymous "NoAuth" = true ∧ isAuthMiddleware "NoAuth" = true ∧
      isAllowAnonymous "PublicKeyAuth" = true ∧ isAuthMiddleware "PublicKeyAuth" = true) ∧
    (∀ (auth : AuthorizationInfo) (mw : String), isAllowAnonymous mw = true →
      extractMiddleware auth mw =
        { auth with AllowsAnonymous := true, Source := "middleware" } ∧
      (extractMiddleware auth mw).RequiresAuth = auth.RequiresAuth ∧
      (extractMiddleware auth mw).AuthDependencies = auth.AuthDependencies) ∧
    (∀ (before after : List String) (mw : String) (source : ParsedSource),
      isAllowAnonymous mw = true →
      ∀ extract ∈ [GinExtractor.Extract, EchoExtractor.Extract, FiberExtractor.Extract,
          ChiExtractor.Extract, NetHTTPExtractor.Extract],
        (extract (before ++ mw :: after) source).AllowsAnonymous = true ∧
        ∀ e : Endpoint, e.Authorization = extract (before ++ mw :: after) source →
          Classifier.Classify e = ClassificationPublic) := by
  refine ⟨by decide, ?_, ?_⟩
  · intro auth mw h
    rw [extractMiddleware_anonymous auth mw h]
    exact ⟨rfl, rfl, rfl⟩
  · intro before after mw source hmw extract hmem
    rw [extractors_are_fold extract hmem]
    have h := extract_fold_anonymous (before ++ mw :: after) mw (by simp) hmw
      NewAuthorizationInfo
    refine ⟨h, ?_⟩
    intro e he
    apply classify_of_anonymous
    rw [he]
    exact h

/-! ## Merge without override -/

theorem dedupKeepFirst_of_nodup (l : List String) (h : l.Nodup) : dedupKeepFirst l = l := by
  induction l with
  | nil => rfl
  | cons x xs ih =>
    rw [List.nodup_cons] at h
    simp only [dedupKeepFirst]
    rw [ih h.2]
    congr 1
    rw [List.filter_eq_self]
    intro y hy
    simp only [ne_eq, decide_eq_true_eq]
    rintro rfl
    exact h.1 hy

theorem dedupKeepFirst_idem (l : List String) :
    dedupKeepFirst (dedupKeepFirst l) = dedupKeepFirst l :=
  dedupKeepFirst_of_nodup _ (nodup_dedupKeepFirst l)

theorem mergeStringSlices_assoc (a b c : List String) :
    mergeStringSlices (mergeStringSlices a b) c =
      mergeStringSlices a (mergeStringSlices b c) := by
  simp only [mergeStringSlices_eq]
  have hl : dedupKeepFirst (dedupKeepFirst (a ++ b) ++ c) = dedupKeepFirst (a ++ b ++ c) := by
    rw [dedupKeepFirst_append, dedupKeepFirst_idem, dedupKeepFirst_append (a ++ b) c]
    congr 1
    apply List.filter_congr
    intro y _
    simp [mem_dedupKeepFirst]
  have hr : dedupKeepFirst (a ++ dedupKeepFirst (b ++ c)) = dedupKeepFirst (a ++ (b ++ c)) := by
    rw [dedupKeepFirst_append, dedupKeepFirst_idem, dedupKeepFirst_append a (b ++ c)]
  rw [hl, hr, List.append_assoc]

/-- C38: `Merge` without override is associative: for all records a, b and c,
merging a with b and the result with c gives the same record, field by field
and with the lists in the same order, as merging a with the merge of b and
c. -/
theorem merge_no_override_assoc (a b c : AuthorizationInfo) :
    (a.Merge b false).Merge c false = a.Merge (b.Merge c false) false := by
  simp only [AuthorizationInfo.Merge, Bool.false_and, Bool.false_eq_true, if_false,
    mergeStringSlices_assoc, Bool.or_assoc, Bool.and_assoc]
  congr 1
  · cases b.RequiresAuth <;> cases c.RequiresAuth <;> simp
  · by_cases hc : c.Source = "" <;> simp [hc]

/-! ## Hash and Equal -/

theorem sortStrings_perm (l₁ l₂ : List String) (h : l₁.Perm l₂) :
    sortStrings l₁ = sortStrings l₂ := by
  unfold sortStrings
  apply List.eq_of_perm_of_sorted (r := fun a b : String => a ≤ b)
  · exact (List.perm_insertionSort _ l₁).trans (h.trans (List.perm_insertionSort _ l₂).symm)
  · exact List.sorted_insertionSort _ l₁
  · exact List.sorted_insertionSort _ l₂

theorem sortStrings_post_get : sortStrings ["POST", "GET"] = ["GET", "POST"] := by
  have h : ¬ ("POST" ≤ "GET") := by
    rw [not_le, String.lt_iff_toList_lt]
    decide
  simp only [sortStrings, List.insertionSort, List.orderedInsert]
  rw [if_neg h]

theorem hash_eq_of_perm (a b : Endpoint) (hr : a.Route = b.Route) (hf : a.FilePath = b.FilePath)
    (hl : a.LineNumber = b.LineNumber) (hp : a.Methods.Perm b.Methods) : a.Hash = b.Hash := by
  simp only [Endpoint.Hash, hr, hf, hl, sortStrings_perm _ _ hp]

/-- C39: `Hash` is consistent with `Equal`: for endpoints a and b whose method
lists contain no repeated method, a.Equal(b) implies that a and b have the
same hash, whatever the order in which the methods are listed. -/
theorem hash_consistent_with_equal (a b : Endpoint) (ha : a.Methods.Nodup)
    (hb : b.Methods.Nodup) (h : a.Equal b = true) : a.Hash = b.Hash := by
  obtain ⟨hr, hf, hl, hm⟩ := (equal_iff_of_nodup a b ha hb).mp h
  exact hash_eq_of_perm a b hr hf hl ((List.perm_ext_iff_of_nodup ha hb).mpr hm)

theorem hash_consistent_with_equal_witness :
    ({ Route := "/x", Methods := ["POST", "GET"], FilePath := "main.go",
       LineNumber := 7 } : Endpoint).Methods.Nodup ∧
    ({ Route := "/x", Methods := ["GET", "POST"], FilePath := "main.go",
       LineNumber := 7 } : Endpoint).Methods.Nodup ∧
    ({ Route := "/x", Methods := ["POST", "GET"], FilePath := "main.go",
       LineNumber := 7 } : Endpoint).Equal
      { Route := "/x", Methods := ["GET", "POST"], FilePath := "main.go",
        LineNumber := 7 } = true ∧
    ({ Route := "/x", Methods := ["POST", "GET"], FilePath := "main.go",
       LineNumber := 7 } : Endpoint).Hash =
      ({ Route := "/x", Methods := ["GET", "POST"], FilePath := "main.go",
         LineNumber := 7 } : Endpoint).Hash ∧
    ({ Route := "/x", Methods := ["POST", "GET"], FilePath := "main.go",
       LineNumber := 7 } : Endpoint).Hash = "/x|GET,POST|main.go|7" :=
  ⟨by decide, by decide, by decide,
    hash_consistent_with_equal
      { Route := "/x", Methods := ["POST", "GET"], FilePath := "main.go", LineNumber := 7 }
      { Route := "/x", Methods := ["GET", "POST"], FilePath := "main.go", LineNumber := 7 }
      (by decide) (by decide) (by decide),
    by simp only [Endpoint.Hash, sortStrings_post_get]; decide⟩

/-! ## The shape of a discovered endpoint -/

theorem gin_create_shape (call : Node) (source : ParsedSource)
    (groups : List (String × GroupInfo)) (recv : String) (methods : List HTTPMethod)
    (e : Endpoint) (h : GinDiscoverer.createEndpoint call source groups recv methods = some e) :
    e.Route ≠ "" ∧ e.Methods = methods ∧
      ∃ mws, e.Authorization = GinExtractor.Extract mws source := by
  unfold GinDiscoverer.createEndpoint at h
  split at h
  · cases h
  · simp only at h
    split_ifs at h with hr <;> (cases h; exact ⟨hr, rfl, _, rfl⟩)
  · cases h

theorem echo_create_shape (call : Node) (source : ParsedSource)
    (groups : List (String × EchoGroupInfo)) (recv : String) (methods : List HTTPMethod)
    (e : Endpoint) (h : EchoDiscoverer.createEndpoint call source groups recv methods = some e) :
    e.Route ≠ "" ∧ e.Methods = methods ∧
      ∃ mws, e.Authorization = EchoExtractor.Extract mws source := by
  unfold EchoDiscoverer.createEndpoint at h
  split at h
  · simp only at h
    split_ifs at h with hr
    cases h
    exact ⟨hr, rfl, _, rfl⟩
  · cases h

theorem fiber_create_shape (call : Node) (source : ParsedSource)
    (groups : List (String × FiberGroupInfo)) (recv : String) (methods : List HTTPMethod)
    (e : Endpoint)
    (h : FiberDiscoverer.createEndpoint call source groups recv methods = some e) :
    e.Route ≠ "" ∧ e.Methods = methods ∧
      ∃ mws, e.Authorization = FiberExtractor.Extract mws source := by
  unfold FiberDiscoverer.createEndpoint at h
  split at h
  · simp only at h
    split_ifs at h with hr
    cases h
    exact ⟨hr, rfl, _, rfl⟩
  · cases h

theorem chi_create_shape (call : Node) (source : ParsedSource)
    (groups : List (String × ChiGroupInfo)) (recv : String) (methods : List HTTPMethod)
    (e : Endpoint) (h : ChiDiscoverer.createEndpoint call source groups recv methods = some e) :
    e.Route ≠ "" ∧ e.Methods = methods ∧
      e.Authorization = ChiExtractor.Extract [] source := by
  unfold ChiDiscoverer.createEndpoint at h
  split at h
  · simp only at h
    split_ifs at h with hr
    cases h
    exact ⟨hr, rfl, rfl⟩
  · cases h

theorem nethttp_extract_shape (call : Node) (source : ParsedSource) (e : Endpoint)
    (h : NetHTTPDiscoverer.extractEndpoint call source = some e) :
    e.Route ≠ "" ∧
      e.Methods = [MethodGET, MethodPOST, MethodPUT, MethodDELETE, MethodPATCH, MethodHEAD,
        MethodOPTIONS] ∧
      e.Authorization = NetHTTPExtractor.Extract [] source := by
  unfold NetHTTPDiscoverer.extractEndpoint at h
  split at h
  · simp only at h
    split_ifs at h
    split at h
    · split_ifs at h with hr
      cases h
      exact ⟨hr, rfl, rfl⟩
    · cases h
  · cases h

/-- The method lists that the extractors pass to `createEndpoint`: one method,
or the seven of `Any`. -/
theorem methods_shape (methods : List HTTPMethod)
    (h : (∃ m, methods = [m]) ∨
      methods = [MethodGET, MethodPOST, MethodPUT, MethodDELETE, MethodPATCH, MethodHEAD,
        MethodOPTIONS]) :
    methods ≠ [] ∧ methods.Nodup := by
  rcases h with ⟨m, rfl⟩ | rfl
  · simp
  · decide

theorem gin_extract_is_create (call : Node) (source : ParsedSource)
    (groups : List (String × GroupInfo)) (e : Endpoint)
    (h : (GinDiscoverer.extractEndpoint call source groups).1 = some e) :
    ∃ call1 recv methods,
      ((∃ m, methods = [m]) ∨
        methods = [MethodGET, MethodPOST, MethodPUT, MethodDELETE, MethodPATCH, MethodHEAD,
          MethodOPTIONS]) ∧
      GinDiscoverer.createEndpoint call1 source groups recv methods = some e := by
  unfold GinDiscoverer.extractEndpoint at h
  split at h
  · simp only at h
    split at h
    · split at h
      · exact ⟨_, _, _, Or.inl ⟨_, rfl⟩, h⟩
      · split_ifs at h
        · split at h
          · cases h
          · exact ⟨_, _, _, Or.inl ⟨_, rfl⟩, h⟩
        · exact ⟨_, _, _, Or.inr rfl, h⟩
    · cases h
  · cases h

theorem echo_extract_is_create (call : Node) (source : ParsedSource)
    (groups : List (String × EchoGroupInfo)) (e : Endpoint)
    (h : (EchoDiscoverer.extractEndpoint call source groups).1 = some e) :
    ∃ call1 recv methods,
      ((∃ m, methods = [m]) ∨
        methods = [MethodGET, MethodPOST, MethodPUT, MethodDELETE, MethodPATCH, MethodHEAD,
          MethodOPTIONS]) ∧
      EchoDiscoverer.createEndpoint call1 source groups recv methods = some e := by
  unfold EchoDiscoverer.extractEndpoint at h
  split at h
  · simp only at h
    split at h
    · split at h
      · exact ⟨_, _, _, Or.inl ⟨_, rfl⟩, h⟩
      · split_ifs at h
        · split at h
          · cases h
          · exact ⟨_, _, _, Or.inl ⟨_, rfl⟩, h⟩
        · exact ⟨_, _, _, Or.inr rfl, h⟩
    · cases h
  · cases h

theorem fiber_extract_is_create (call : Node) (source : ParsedSource)
    (groups : List (String × FiberGroupInfo)) (e : Endpoint)
    (h : (FiberDiscoverer.extractEndpoint call source groups).1 = some e) :
    ∃ call1 recv methods,
      ((∃ m, methods = [m]) ∨
        methods = [MethodGET, MethodPOST, MethodPUT, MethodDELETE, MethodPATCH, MethodHEAD,
          MethodOPTIONS]) ∧
      FiberDiscoverer.createEndpoint call1 source groups recv methods = some e := by
  unfold FiberDiscoverer.extractEndpoint at h
  split at h
  · simp only at h
    split at h
    · split at h
      · exact ⟨_, _, _, Or.inl ⟨_, rfl⟩, h⟩
      · split_ifs at h
        · split at h
          · cases h
          · exact ⟨_, _, _, Or.inl ⟨_, rfl⟩, h⟩
        · exact ⟨_, _, _, Or.inr rfl, h⟩
    · cases h
  · cases h

theorem chi_extract_is_create (call : Node) (source : ParsedSource)
    (groups : List (String × ChiGroupInfo)) (e : Endpoint)
    (h : (ChiDiscoverer.extractEndpoint call source groups).1 = some e) :
    ∃ call1 recv methods,
      ((∃ m, methods = [m]) ∨
        methods = [MethodGET, MethodPOST, MethodPUT, MethodDELETE, MethodPATCH, MethodHEAD,
          MethodOPTIONS]) ∧
      ChiDiscoverer.createEndpoint call1 source groups recv methods = some e := by
  unfold ChiDiscoverer.extractEndpoint at h
  split at h
  · simp only at h
    split at h
    · split at h
      · exact ⟨_, _, _, Or.inl ⟨_, rfl⟩, h⟩
      · split_ifs at h
        split at h
        · cases h
        · exact ⟨_, _, _, Or.inl ⟨_, rfl⟩, h⟩
    · cases h
  · cases h

/-! ## Endpoints of `Discover` -/

theorem gin_discover_shape (source : ParsedSource) (e : Endpoint)
    (h : e ∈ (GinDiscoverer.Discover source).1) :
    e.Route ≠ "" ∧ e.Methods ≠ [] ∧ e.Methods.Nodup ∧
      ∃ mws, e.Authorization = GinExtractor.Extract mws source := by
  rw [gin_discover_walk] at h
  obtain ⟨n, _, hn⟩ := List.mem_filterMap.mp h
  obtain ⟨c, r, ms, hms, hc⟩ := gin_extract_is_create _ _ _ _ hn
  obtain ⟨h1, h2, h3⟩ := gin_create_shape _ _ _ _ _ _ hc
  rw [h2]
  exact ⟨h1, (methods_shape ms hms).1, (methods_shape ms hms).2, h3⟩

theorem echo_discover_shape (source : ParsedSource) (e : Endpoint)
    (h : e ∈ (EchoDiscoverer.Discover source).1) :
    e.Route ≠ "" ∧ e.Methods ≠ [] ∧ e.Methods.Nodup ∧
      ∃ mws, e.Authorization = EchoExtractor.Extract mws source := by
  rw [echo_discover_walk] at h
  obtain ⟨n, _, hn⟩ := List.mem_filterMap.mp h
  obtain ⟨c, r, ms, hms, hc⟩ := echo_extract_is_create _ _ _ _ hn
  obtain ⟨h1, h2, h3⟩ := echo_create_shape _ _ _ _ _ _ hc
  rw [h2]
  exact ⟨h1, (methods_shape ms hms).1, (methods_shape ms hms).2, h3⟩

theorem fiber_discover_shape (source : ParsedSource) (e : Endpoint)
    (h : e ∈ (FiberDiscoverer.Discover source).1) :
    e.Route ≠ "" ∧ e.Methods ≠ [] ∧ e.Methods.Nodup ∧
      ∃ mws, e.Authorization = FiberExtractor.Extract mws source := by
  rw [fiber_discover_walk] at h
  obtain ⟨n, _, hn⟩ := List.mem_filterMap.mp h
  obtain ⟨c, r, ms, hms, hc⟩ := fiber_extract_is_create _ _ _ _ hn
  obtain ⟨h1, h2, h3⟩ := fiber_create_shape _ _ _ _ _ _ hc
  rw [h2]
  exact ⟨h1, (methods_shape ms hms).1, (methods_shape ms hms).2, h3⟩

theorem chi_discover_shape (source : ParsedSource) (e : Endpoint)
    (h : e ∈ (ChiDiscoverer.Discover source).1) :
    e.Route ≠ "" ∧ e.Methods ≠ [] ∧ e.Methods.Nodup ∧
      e.Authorization = ChiExtractor.Extract [] source := by
  rw [chi_discover_walk] at h
  obtain ⟨n, _, hn⟩ := List.mem_filterMap.mp h
  obtain ⟨c, r, ms, hms, hc⟩ := chi_extract_is_create _ _ _ _ hn
  obtain ⟨h1, h2, h3⟩ := chi_create_shape _ _ _ _ _ _ hc
  rw [h2]
  exact ⟨h1, (methods_shape ms hms).1, (methods_shape ms hms).2, h3⟩

theorem nethttp_discover_shape (source : ParsedSource) (e : Endpoint)
    (h : e ∈ (NetHTTPDiscoverer.Discover source).1) :
    e.Route ≠ "" ∧
      e.Methods = [MethodGET, MethodPOST, MethodPUT, MethodDELETE, MethodPATCH, MethodHEAD,
        MethodOPTIONS] ∧
      e.Authorization = NetHTTPExtractor.Extract [] source := by
  rw [nethttp_discover_walk] at h
  obtain ⟨n, _, hn⟩ := List.mem_filterMap.mp h
  exact nethttp_extract_shape _ _ _ hn

/-- The authorization of an endpoint of any of the five `Discover` functions is
a loop of `extractMiddleware` from the empty record. -/
theorem discovered_authorization_is_fold (source : ParsedSource) (e : Endpoint)
    (h : e ∈ (GinDiscoverer.Discover source).1 ∨ e ∈ (EchoDiscoverer.Discover source).1 ∨
      e ∈ (FiberDiscoverer.Discover source).1 ∨ e ∈ (ChiDiscoverer.Discover source).1 ∨
      e ∈ (NetHTTPDiscoverer.Discover source).1) :
    ∃ mws : List String, e.Authorization = mws.foldl extractMiddleware NewAuthorizationInfo := by
  rcases h with h | h | h | h | h
  · obtain ⟨_, _, _, mws, hm⟩ := gin_discover_shape source e h
    exact ⟨mws, hm⟩
  · obtain ⟨_, _, _, mws, hm⟩ := echo_discover_shape source e h
    exact ⟨mws, hm⟩
  · obtain ⟨_, _, _, mws, hm⟩ := fiber_discover_shape source e h
    exact ⟨mws, hm⟩
  · obtain ⟨_, _, _, hm⟩ := chi_discover_shape source e h
    exact ⟨[], hm⟩
  · obtain ⟨_, _, hm⟩ := nethttp_discover_shape source e h
    exact ⟨[], hm⟩

/-- C36: the rules AP003, AP005 and AP006 return no finding for an endpoint
whose authorization is the result of any of the five extractors, whatever its
other fields, and so for every endpoint that any of the five `Discover`
functions returns, whatever classification it is then given: such a record has
inherited false and no role.  On the Gin scenario file the engine with all
rules enabled returns one finding, from AP002. -/
theorem role_rules_silent_on_extracted :
    (∀ (middleware : List String) (source : ParsedSource),
      ∀ extract ∈ [GinExtractor.Extract, EchoExtractor.Extract, FiberExtractor.Extract,
          ChiExtractor.Extract, NetHTTPExtractor.Extract],
        (extract middleware source).Inherited = false ∧
        (extract middleware source).Roles = [] ∧
        ∀ e : Endpoint, e.Authorization = extract middleware source →
          AP003AuthConflict.Evaluate e = [] ∧ AP005ExcessiveRoles.Evaluate e = [] ∧
            AP006WeakRoleNaming.Evaluate e = []) ∧
    (∀ (source : ParsedSource) (e : Endpoint),
      (e ∈ (GinDiscoverer.Discover source).1 ∨ e ∈ (EchoDiscoverer.Discover source).1 ∨
        e ∈ (FiberDiscoverer.Discover source).1 ∨ e ∈ (ChiDiscoverer.Discover source).1 ∨
        e ∈ (NetHTTPDiscoverer.Discover source).1) →
      ∀ c : SecurityClassification,
        AP003AuthConflict.Evaluate { e with Classification := c } = [] ∧
        AP005ExcessiveRoles.Evaluate { e with Classification := c } = [] ∧
        AP006WeakRoleNaming.Evaluate { e with Classification := c } = []) ∧
    ((NewEngine none).EvaluateAll
        (Classifier.ClassifyAll (GinDiscoverer.Discover ginGroupScenario).1)).map
      Finding.RuleID = ["AP002"] := by
  refine ⟨?_, ?_, by decide⟩
  · intro middleware source extract hmem
    rw [extractors_are_fold extract hmem]
    obtain ⟨h1, _, _, _, h5, _⟩ := extract_shape middleware
    refine ⟨h5, h1, ?_⟩
    intro e he
    exact rules_silent_of_shape e (by rw [he]; exact h1) (by rw [he]; exact h5)
  · intro source e h c
    obtain ⟨mws, hm⟩ := discovered_authorization_is_fold source e h
    obtain ⟨h1, _, _, _, h5, _⟩ := extract_shape mws
    exact rules_silent_of_shape { e with Classification := c }
      (by show e.Authorization.Roles = []; rw [hm]; exact h1)
      (by show e.Authorization.Inherited = false; rw [hm]; exact h5)

/-! ## Chi and net/http -/

theorem classifyAll_mem (l : List Endpoint) (e : Endpoint)
    (h : e ∈ Classifier.ClassifyAll l) :
    ∃ e0 ∈ l, e = { e0 with Classification := Classifier.Classify e0 } := by
  simp only [Classifier.ClassifyAll, List.mem_map] at h
  obtain ⟨e0, h0, rfl⟩ := h
  exact ⟨e0, h0, rfl⟩

theorem classify_of_empty_authorization (e : Endpoint)
    (h : e.Authorization = NewAuthorizationInfo) :
    Classifier.Classify e = ClassificationPublic := by
  simp [Classifier.Classify, AuthorizationInfo.HasSpecificRequirements, h,
    NewAuthorizationInfo]

theorem empty_authorization_findings (e : Endpoint)
    (ha : e.Authorization = NewAuthorizationInfo)
    (hc : e.Classification = ClassificationPublic) :
    (∃ f, AP001PublicWithoutIntent.Evaluate e = [f] ∧ f.RuleID = "AP001" ∧
      f.Severity = SeverityHigh ∧ f.Endpoint = e) ∧
    (∃ g, AP008EndpointWithoutAuth.Evaluate e = [g] ∧ g.RuleID = "AP008" ∧
      g.Severity = SeverityHigh ∧ g.Endpoint = e) ∧
    (e.IsWriteEndpoint = true →
      ∃ f, AP004MissingAuthWrites.Evaluate e = [f] ∧ f.RuleID = "AP004" ∧
        f.Severity = SeverityCritical ∧ f.Endpoint = e) := by
  have hcond : e.Classification = ClassificationPublic ∧
      e.Authorization.AllowsAnonymous = false ∧
      e.Authorization.RequiresAuth = false ∧ e.Authorization.Roles = [] ∧
      e.Authorization.Scopes = [] ∧ e.Authorization.Permissions = [] ∧
      e.Authorization.Policies = [] ∧ e.Authorization.AuthDependencies = [] := by
    rw [ha]
    exact ⟨hc, rfl, rfl, rfl, rfl, rfl, rfl, rfl⟩
  refine ⟨?_, ?_, ?_⟩
  · rw [ap001_eval, if_pos hcond]
    exact ⟨_, rfl, rfl, rfl, rfl⟩
  · rw [ap008_eval, if_pos hcond]
    exact ⟨_, rfl, rfl, rfl, rfl⟩
  · intro hw
    rw [ap004_eval, if_pos ⟨hw, hcond⟩]
    exact ⟨_, rfl, rfl, rfl, rfl⟩

/-- C37: every endpoint that the Chi or the net/http `Discover` returns has the
empty authorization record; once classified it is public and AP001 and AP008
each return one finding for it; a net/http endpoint carries the seven methods
and AP004 returns one finding, of severity critical, for it.  On a Chi file
with `r.Use(AuthMiddleware)` and on a net/http file the engine returns these
findings. -/
theorem chi_nethttp_endpoints_public :
    (∀ (source : ParsedSource),
      (∀ e ∈ (ChiDiscoverer.Discover source).1, e.Authorization = NewAuthorizationInfo) ∧
      ∀ e ∈ Classifier.ClassifyAll (ChiDiscoverer.Discover source).1,
        e.Authorization = NewAuthorizationInfo ∧
        e.Classification = ClassificationPublic ∧
        (∃ f, AP001PublicWithoutIntent.Evaluate e = [f] ∧ f.RuleID = "AP001" ∧
          f.Severity = SeverityHigh ∧ f.Endpoint = e) ∧
        (∃ g, AP008EndpointWithoutAuth.Evaluate e = [g] ∧ g.RuleID = "AP008" ∧
          g.Severity = SeverityHigh ∧ g.Endpoint = e)) ∧
    (∀ (source : ParsedSource),
      (∀ e ∈ (NetHTTPDiscoverer.Discover source).1,
        e.Authorization = NewAuthorizationInfo) ∧
      ∀ e ∈ Classifier.ClassifyAll (NetHTTPDiscoverer.Discover source).1,
        e.Authorization = NewAuthorizationInfo ∧
        e.Classification = ClassificationPublic ∧
        e.Methods = [MethodGET, MethodPOST, MethodPUT, MethodDELETE, MethodPATCH,
          MethodHEAD, MethodOPTIONS] ∧
        (∃ f, AP001PublicWithoutIntent.Evaluate e = [f] ∧ f.RuleID = "AP001" ∧
          f.Severity = SeverityHigh ∧ f.Endpoint = e) ∧
        (∃ g, AP008EndpointWithoutAuth.Evaluate e = [g] ∧ g.RuleID = "AP008" ∧
          g.Severity = SeverityHigh ∧ g.Endpoint = e) ∧
        (∃ f, AP004MissingAuthWrites.Evaluate e = [f] ∧ f.RuleID = "AP004" ∧
          f.Severity = SeverityCritical ∧ f.Endpoint = e)) ∧
    ((NewEngine none).EvaluateAll
        (Classifier.ClassifyAll (ChiDiscoverer.Discover chiUseScenario).1)).map
      (fun f => (f.RuleID, f.Severity, f.Endpoint.Route, f.Endpoint.Methods)) =
      [("AP001", "high", "/users", ["GET"]), ("AP008", "high", "/users", ["GET"]),
       ("AP001", "high", "/users", ["POST"]), ("AP004", "critical", "/users", ["POST"]),
       ("AP008", "high", "/users", ["POST"])] ∧
    ((NewEngine none).EvaluateAll
        (Classifier.ClassifyAll
          (NetHTTPDiscoverer.Discover
            { FilePath := "main.go", Imports := [("net/http", "http")],
              AST := .Other [.CallExpr 6 (.SelectorExpr (.Ident "http") "HandleFunc")
                [.BasicLit "STRING" "/users", .Ident "h"]] }).1)).map
      (fun f => (f.RuleID, f.Severity, f.Endpoint.Route, f.Endpoint.Methods.length)) =
      [("AP001", "high", "/users", 7), ("AP004", "critical", "/users", 7),
       ("AP008", "high", "/users", 7)] := by
  refine ⟨?_, ?_, by decide, by decide⟩
  · intro source
    have hauth : ∀ e ∈ (ChiDiscoverer.Discover source).1,
        e.Authorization = NewAuthorizationInfo := by
      intro e he
      exact (chi_discover_shape source e he).2.2.2
    refine ⟨hauth, ?_⟩
    intro e he
    obtain ⟨e0, h0, rfl⟩ := classifyAll_mem _ _ he
    have ha := hauth e0 h0
    have hc := classify_of_empty_authorization e0 ha
    obtain ⟨h1, h8, _⟩ := empty_authorization_findings
      { e0 with Classification := Classifier.Classify e0 } ha hc
    exact ⟨ha, hc, h1, h8⟩
  · intro source
    have hauth : ∀ e ∈ (NetHTTPDiscoverer.Discover source).1,
        e.Authorization = NewAuthorizationInfo := by
      intro e he
      exact (nethttp_discover_shape source e he).2.2
    refine ⟨hauth, ?_⟩
    intro e he
    obtain ⟨e0, h0, rfl⟩ := classifyAll_mem _ _ he
    have ha := hauth e0 h0
    have hm := (nethttp_discover_shape source e0 h0).2.1
    have hc := classify_of_empty_authorization e0 ha
    obtain ⟨h1, h8, h4⟩ := empty_authorization_findings
      { e0 with Classification := Classifier.Classify e0 } ha hc
    refine ⟨ha, hc, hm, h1, h8, h4 ?_⟩
    rw [isWriteEndpoint_iff]
    have hmem : MethodPOST ∈ e0.Methods := by
      rw [hm]
      decide
    exact ⟨MethodPOST, hmem, Or.inl rfl⟩

/-! ## Empty literal paths -/

/-- C40: in every framework's extractor a route call whose path argument is
the empty string literal yields no endpoint, as one whose path is not a literal
does: `GetStringValue` gives the empty string for both.  This holds for the
path as first argument and for the path after a method argument.  So every
endpoint that a `Discover` returns has a non-empty route and a non-empty method
list without repeats. -/
theorem empty_literal_path_yields_nothing :
    (GetStringValue (.BasicLit "STRING" "") = "" ∧ GetStringValue (.Ident "path") = "") ∧
    (∀ (line : Int) (fn : Node) (rest : List Node) (source : ParsedSource),
      (∀ groups, (GinDiscoverer.extractEndpoint
          (.CallExpr line fn (.BasicLit "STRING" "" :: rest)) source groups).1 = none) ∧
      (∀ groups, (EchoDiscoverer.extractEndpoint
          (.CallExpr line fn (.BasicLit "STRING" "" :: rest)) source groups).1 = none) ∧
      (∀ groups, (FiberDiscoverer.extractEndpoint
          (.CallExpr line fn (.BasicLit "STRING" "" :: rest)) source groups).1 = none) ∧
      (∀ groups, (ChiDiscoverer.extractEndpoint
          (.CallExpr line fn (.BasicLit "STRING" "" :: rest)) source groups).1 = none) ∧
      NetHTTPDiscoverer.extractEndpoint
          (.CallExpr line fn (.BasicLit "STRING" "" :: rest)) source = none) ∧
    (∀ (line : Int) (recv : String) (verbArg : Node) (rest : List Node)
        (source : ParsedSource), '.' ∉ recv.data →
      (∀ groups, (GinDiscoverer.extractEndpoint
          (.CallExpr line (.SelectorExpr (.Ident recv) "Handle")
            (verbArg :: .BasicLit "STRING" "" :: rest)) source groups).1 = none) ∧
      (∀ groups, (EchoDiscoverer.extractEndpoint
          (.CallExpr line (.SelectorExpr (.Ident recv) "Add")
            (verbArg :: .BasicLit "STRING" "" :: rest)) source groups).1 = none) ∧
      (∀ groups, (FiberDiscoverer.extractEndpoint
          (.CallExpr line (.SelectorExpr (.Ident recv) "Add")
            (verbArg :: .BasicLit "STRING" "" :: rest)) source groups).1 = none) ∧
      (∀ groups, (ChiDiscoverer.extractEndpoint
          (.CallExpr line (.SelectorExpr (.Ident recv) "Method")
            (verbArg :: .BasicLit "STRING" "" :: rest)) source groups).1 = none) ∧
      (∀ groups, (ChiDiscoverer.extractEndpoint
          (.CallExpr line (.SelectorExpr (.Ident recv) "MethodFunc")
            (verbArg :: .BasicLit "STRING" "" :: rest)) source groups).1 = none)) ∧
    (∀ (source : ParsedSource) (e : Endpoint),
      (e ∈ (GinDiscoverer.Discover source).1 ∨ e ∈ (EchoDiscoverer.Discover source).1 ∨
        e ∈ (FiberDiscoverer.Discover source).1 ∨ e ∈ (ChiDiscoverer.Discover source).1 ∨
        e ∈ (NetHTTPDiscoverer.Discover source).1) →
      e.Route ≠ "" ∧ e.Methods ≠ [] ∧ e.Methods.Nodup) ∧
    ((GinDiscoverer.extractEndpoint
        (.CallExpr 9 (.SelectorExpr (.Ident "api") "GET") [.BasicLit "STRING" "", .Ident "h"])
        {} [("api", { Prefix := "/api", Middleware := [], VarName := "api" })]).1 = none ∧
      ((GinDiscoverer.extractEndpoint
        (.CallExpr 9 (.SelectorExpr (.Ident "api") "GET")
          [.BasicLit "STRING" "/", .Ident "h"])
        {} [("api", { Prefix := "/api", Middleware := [], VarName := "api" })]).1.map
        Endpoint.FullRoute) = some "/api/") := by
  have hlit : GetStringValue (.BasicLit "STRING" "") = "" := getStringValue_literal ""
  refine ⟨⟨hlit, rfl⟩, ?_, ?_, ?_, by decide⟩
  · intro line fn rest source
    exact ⟨fun groups => gin_first_arg_nonliteral line fn _ rest source groups hlit,
      fun groups => echo_first_arg_nonliteral line fn _ rest source groups hlit,
      fun groups => fiber_first_arg_nonliteral line fn _ rest source groups hlit,
      fun groups => chi_first_arg_nonliteral line fn _ rest source groups hlit,
      nethttp_first_arg_nonliteral line fn _ rest source hlit⟩
  · intro line recv verbArg rest source hrecv
    exact ⟨fun groups => gin_handle_path_nonliteral line recv verbArg _ rest source groups
        hrecv hlit,
      fun groups => echo_add_path_nonliteral line recv verbArg _ rest source groups hrecv hlit,
      fun groups => fiber_add_path_nonliteral line recv verbArg _ rest source groups hrecv hlit,
      fun groups => chi_method_path_nonliteral line recv "Method" verbArg _ rest source groups
        (Or.inl rfl) hrecv hlit,
      fun groups => chi_method_path_nonliteral line recv "MethodFunc" verbArg _ rest source
        groups (Or.inr rfl) hrecv hlit⟩
  · intro source e h
    rcases h with h | h | h | h | h
    · obtain ⟨h1, h2, h3, _⟩ := gin_discover_shape source e h
      exact ⟨h1, h2, h3⟩
    · obtain ⟨h1, h2, h3, _⟩ := echo_discover_shape source e h
      exact ⟨h1, h2, h3⟩
    · obtain ⟨h1, h2, h3, _⟩ := fiber_discover_shape source e h
      exact ⟨h1, h2, h3⟩
    · obtain ⟨h1, h2, h3, _⟩ := chi_discover_shape source e h
      exact ⟨h1, h2, h3⟩
    · obtain ⟨h1, h2, _⟩ := nethttp_discover_shape source e h
      rw [h2]
      exact ⟨h1, by decide, by decide⟩

/-! ## What the authorization of a discovered endpoint depends on -/

/-- C33: nested groups are not composed, in Gin, Echo and Fiber.  The group
finder records for `b := a.Group(p, mw...)` the literal `p` and the names of
`mw...` only, whatever the table holds for `a`.  On the file with
`a := r.Group("/api", authMw)`, `b := a.Group("/v1")` and a GET route `/users`
on `b`, the group `a` has the middleware `authMw` and the endpoint has the
router prefix `/v1`, the full route `/v1/users`, an empty authorization record
and the classification public. -/
theorem nested_groups_not_composed :
    (∀ (line : Int) (a b p : String) (mws : List Node),
      (∀ groups, GinDiscoverer.findGroupsVisit
          (.AssignStmt [.Ident b]
            [.CallExpr line (.SelectorExpr (.Ident a) "Group") (.BasicLit "STRING" p :: mws)])
          groups =
        (b, { VarName := b, Prefix := p,
              Middleware := (mws.map GinDiscoverer.extractHandlerName).filter
                (fun fn => fn ≠ "") }) :: groups) ∧
      (∀ groups, EchoDiscoverer.findGroupsVisit
          (.AssignStmt [.Ident b]
            [.CallExpr line (.SelectorExpr (.Ident a) "Group") (.BasicLit "STRING" p :: mws)])
          groups =
        (b, { VarName := b, Prefix := p,
              Middleware := (mws.map EchoDiscoverer.extractHandlerName).filter
                (fun fn => fn ≠ "") }) :: groups) ∧
      (∀ groups, FiberDiscoverer.findGroupsVisit
          (.AssignStmt [.Ident b]
            [.CallExpr line (.SelectorExpr (.Ident a) "Group") (.BasicLit "STRING" p :: mws)])
          groups =
        (b, { VarName := b, Prefix := p,
              Middleware := (mws.map FiberDiscoverer.extractHandlerName).filter
                (fun fn => fn ≠ "") }) :: groups)) ∧
    (GinDiscoverer.findGroups
        (nestedGroupScenario "github.com/gin-gonic/gin" "gin" "Default" "GET") =
      [("b", { Prefix := "/v1", Middleware := [], VarName := "b" }),
       ("a", { Prefix := "/api", Middleware := ["authMw"], VarName := "a" })] ∧
      (GinDiscoverer.Discover
          (nestedGroupScenario "github.com/gin-gonic/gin" "gin" "Default" "GET")).1.map
        (fun e => (e.Route, e.RouterPrefix, e.FullRoute, e.Authorization,
          Classifier.Classify e)) =
        [("/users", "/v1", "/v1/users", NewAuthorizationInfo, ClassificationPublic)]) ∧
    (EchoDiscoverer.findGroups
        (nestedGroupScenario "github.com/labstack/echo/v4" "echo" "New" "GET") =
      [("b", { Prefix := "/v1", Middleware := [], VarName := "b" }),
       ("a", { Prefix := "/api", Middleware := ["authMw"], VarName := "a" })] ∧
      (EchoDiscoverer.Discover
          (nestedGroupScenario "github.com/labstack/echo/v4" "echo" "New" "GET")).1.map
        (fun e => (e.Route, e.RouterPrefix, e.FullRoute, e.Authorization,
          Classifier.Classify e)) =
        [("/users", "/v1", "/v1/users", NewAuthorizationInfo, ClassificationPublic)]) ∧
    (FiberDiscoverer.findGroups
        (nestedGroupScenario "github.com/gofiber/fiber/v2" "fiber" "New" "Get") =
      [("b", { Prefix := "/v1", Middleware := [], VarName := "b" }),
       ("a", { Prefix := "/api", Middleware := ["authMw"], VarName := "a" })] ∧
      (FiberDiscoverer.Discover
          (nestedGroupScenario "github.com/gofiber/fiber/v2" "fiber" "New" "Get")).1.map
        (fun e => (e.Route, e.RouterPrefix, e.FullRoute, e.Authorization,
          Classifier.Classify e)) =
        [("/users", "/v1", "/v1/users", NewAuthorizationInfo, ClassificationPublic)]) := by
  refine ⟨?_, by decide, by decide, by decide⟩
  intro line a b p mws
  have hsuf : stringsHasSuffix (a ++ "." ++ "Group") ".Group" = true := by
    simp [stringsHasSuffix, List.isSuffixOf_iff_suffix, String.data_append]
  refine ⟨?_, ?_, ?_⟩
  · intro groups
    simp [GinDiscoverer.findGroupsVisit, GetCallName, hsuf, getStringValue_literal]
  · intro groups
    simp [EchoDiscoverer.findGroupsVisit, GetCallName, hsuf, getStringValue_literal]
  · intro groups
    simp [FiberDiscoverer.findGroupsVisit, GetCallName, hsuf, getStringValue_literal]

/-! ## `Use` statements -/

mutual
theorem walk_eraseUse {β : Type} (k : Node → Nat) (f : Node → Option β)
    (hOther : ∀ children, f (.Other children) = none)
    (hUse : ∀ n, isUseStatement n = true → ∀ m ∈ walkNodes k n, f m = none) :
    ∀ n : Node, (walkNodes k (eraseUse n)).filterMap f = (walkNodes k n).filterMap f
  | .Ident name => by simp [eraseUse]
  | .BasicLit kind value => by simp [eraseUse]
  | .SelectorExpr x sel => by simp [eraseUse]
  | .CallExpr line fn args => by simp [eraseUse]
  | .FuncLit params body => by simp [eraseUse]
  | .AssignStmt lhs rhs => by simp [eraseUse]
  | .Other children => by
      simp only [eraseUse, walkNodes, List.filterMap_cons, hOther]
      exact walkList_eraseUse k f hOther hUse children
theorem walkList_eraseUse {β : Type} (k : Node → Nat) (f : Node → Option β)
    (hOther : ∀ children, f (.Other children) = none)
    (hUse : ∀ n, isUseStatement n = true → ∀ m ∈ walkNodes k n, f m = none) :
    ∀ ns : List Node,
      (walkList k (eraseUseList ns) 0).filterMap f = (walkList k ns 0).filterMap f
  | [] => by simp [eraseUseList]
  | n :: rest => by
      by_cases hn : isUseStatement n = true
      · have hnone : (walkNodes k n).filterMap f = [] := by
          rw [List.filterMap_eq_nil_iff]
          exact hUse n hn
        simp only [eraseUseList, hn, if_true, walkList, List.filterMap_append, hnone,
          List.nil_append]
        exact walkList_eraseUse k f hOther hUse rest
      · simp only [eraseUseList, hn, if_false, walkList, List.filterMap_append]
        rw [walk_eraseUse k f hOther hUse n, walkList_eraseUse k f hOther hUse rest]
end

/-- C15: on the Gin scenario file, Discover followed by Classify gives exactly
two endpoints, both with router prefix `/api/v1`, and the GET endpoint is
classified authenticated with requiresAuth true; but its inherited flag is
false, not true, although its authorization comes from the group: no endpoint
that any of the five `Discover` functions returns, for any source, has the
inherited flag set. -/
theorem gin_scenario_not_inherited :
    (¬ ∃ get post : Endpoint,
      Classifier.ClassifyAll (GinDiscoverer.Discover ginGroupScenario).1 = [get, post] ∧
      get.RouterPrefix = "/api/v1" ∧ post.RouterPrefix = "/api/v1" ∧
      get.Methods = [MethodGET] ∧
      get.Classification = ClassificationAuthenticated ∧
      get.Authorization.RequiresAuth = true ∧ get.Authorization.Inherited = true) ∧
    (∃ get post : Endpoint,
      Classifier.ClassifyAll (GinDiscoverer.Discover ginGroupScenario).1 = [get, post] ∧
      get.RouterPrefix = "/api/v1" ∧ post.RouterPrefix = "/api/v1" ∧
      get.Methods = [MethodGET] ∧ post.Methods = [MethodPOST] ∧
      get.Route = "/users" ∧ post.Route = "/users" ∧
      get.Classification = ClassificationAuthenticated ∧
      get.Authorization.RequiresAuth = true ∧
      get.Authorization.AuthDependencies = ["authMiddleware"] ∧
      get.Authorization.Inherited = false) ∧
    (GinDiscoverer.findGroups ginGroupScenario =
      [("api", { Prefix := "/api/v1", Middleware := ["authMiddleware"], VarName := "api" })]) ∧
    (GinDiscoverer.Discover ginGroupScenario).2 = none ∧
    (∀ (source : ParsedSource) (e : Endpoint),
      (e ∈ (GinDiscoverer.Discover source).1 ∨ e ∈ (EchoDiscoverer.Discover source).1 ∨
        e ∈ (FiberDiscoverer.Discover source).1 ∨ e ∈ (ChiDiscoverer.Discover source).1 ∨
        e ∈ (NetHTTPDiscoverer.Discover source).1) →
      e.Authorization.Inherited = false ∧
      ∀ e1 ∈ Classifier.ClassifyAll [e], e1.Authorization.Inherited = false) := by
  refine ⟨?_, ⟨_, _, gin_scenario_result, by decide⟩, by decide, rfl, ?_⟩
  · rintro ⟨get, post, hres, _, _, _, _, _, hinh⟩
    rw [gin_scenario_result] at hres
    simp only [List.cons.injEq] at hres
    rw [← hres.1] at hinh
    exact absurd hinh (by decide)
  · intro source e h
    obtain ⟨mws, hm⟩ := discovered_authorization_is_fold source e h
    have hinh : e.Authorization.Inherited = false := by
      rw [hm]
      exact (extract_shape mws).2.2.2.2.1
    refine ⟨hinh, ?_⟩
    intro e1 he1
    simp only [Classifier.ClassifyAll, List.map_cons, List.map_nil, List.mem_singleton] at he1
    rw [he1]
    exact hinh

end ApiPosture
